import Mathlib

/-!
quay-operator: bootstrap session, provisioning pass and setup client.

A shallow embedding of `pkg/controller/quayecosystem/setup/setup.go`,
`pkg/client`, `pkg/controller/quayecosystem/resources` and
`pkg/controller/quayecosystem/provisioning/provision.go`.

Conventions of the embedding

* A Go `error` is `GoError := Option String`: `none` is `nil`, `some m` is an
  error whose `Error()` text is `m`.
* A Go `map[string]T` is an association list read by first match
  (`mapGet`) and written by `mapSet`, which drops every older entry of the
  key.  A map that may be `nil` is an `Option` of such a list.
* A Go slice is a `List`; the `nil` slice is the empty list.
* Collaborators (the registry's configuration API, the cluster object store,
  the key generator) are deterministic transition functions over an
  arbitrary state type `σ`; every exchange is appended to a log, so that a
  statement about "every run" quantifies over the collaborator and its state.
* In the session the `*http.Response` that each client operation returns
  first is dropped: `SetupQuay` discards it at every call site.  The section
  on `pkg/client` keeps it.
-/

set_option autoImplicit false

namespace QuayOperator

/-! ## Go values -/

/-- Go `error`: `none` is `nil`, `some m` an error with message `m`. -/
abbrev GoError := Option String

/-- Go `[]byte`. -/
abbrev Bytes := List UInt8

/-- Reading `m[k]` with the comma-ok form: the first entry of the key. -/
def mapGet {β : Type} (m : List (String × β)) (k : String) : Option β :=
  match m with
  | [] => none
  | (k', v) :: rest => if k' = k then some v else mapGet rest k

/-- Writing `m[k] = v` into a non-nil map. -/
def mapSet {β : Type} (m : List (String × β)) (k : String) (v : β) : List (String × β) :=
  (k, v) :: m.filter (fun e => decide (e.1 ≠ k))

/-- The keys of a map. -/
def mapKeys {β : Type} (m : List (String × β)) : List String :=
  m.map Prod.fst

/-- Substring test used by the statements: `r` occurs in `s` as a contiguous
run of characters. -/
def Contains (s r : String) : Prop :=
  r.data <:+: s.data

/-! ## API types that the sources use but do not declare -/

/-- Modelled from the spec: the `v1alpha1` API types are not among the
sources.  A local backend source carries the storage path ("backend local1 at
path /datastorage"). -/
structure LocalRegistryBackendSource where
  StoragePath : String

/-- Modelled from the spec: the source of a registry backend; `Local` is a
pointer, `none` when the backend declares no local source. -/
structure RegistryBackendSource where
  Local : Option LocalRegistryBackendSource

/-- Modelled from the spec: one entry of the stack spec's backend list. -/
structure RegistryBackend where
  Name : String
  RegistryBackendSource : RegistryBackendSource

/-- Modelled from the spec: the database section of the stack spec. -/
structure Database where
  Server : String
  VolumeSize : String

/-- Modelled from the spec: the volume settings for the storage backends. -/
structure RegistryStorage where
  PersistentVolumeAccessModes : List String
  PersistentVolumeSize : String
  PersistentVolumeStorageClassName : String

/-- Modelled from the spec: the registry section of the stack spec;
`RegistryStorage` is a pointer, `none` when the spec has no volume settings. -/
structure Quay where
  ConfigRouteHost : String
  RouteHost : String
  SkipSetup : Bool
  SslCertificatesSecretName : String
  Database : Database
  RegistryBackends : List RegistryBackend
  RegistryStorage : Option RegistryStorage := none

/-- Modelled from the spec: the cache section of the stack spec. -/
structure Redis where
  Hostname : String
  Port : Option Int

/-- Modelled from the spec: the desired state of one stack. -/
structure QuayEcosystemSpec where
  Quay : Quay
  Redis : Redis

/-- Modelled from the spec: the observed state of one stack. -/
structure QuayEcosystemStatus where
  Hostname : String

/-- Modelled from the spec: the stack resource (`StackSpec` of the data
model), with the fields the sources read. -/
structure QuayEcosystem where
  Name : String
  Namespace : String
  Spec : QuayEcosystemSpec
  Status : QuayEcosystemStatus

/-- Modelled from the spec: the `constants` package is not among the sources
and the spec gives no value for most of its names, so they are parameters. -/
structure Constants where
  RegistryStorageTypeLocalStorageName : String
  QuayAppConfigSSLPrivateKeySecretKey : String
  QuayAppConfigSSLCertificateSecretKey : String
  QuayEnterprise : String

/-- Modelled from the spec: `utils.IsZeroOfUnderlyingType` is not among the
sources; on a string it is the test for the empty string ("non-empty",
"optional" in the spec). -/
def IsZeroOfUnderlyingTypeString (s : String) : Bool :=
  decide (s = "")

/-- Modelled from the spec: `utils.IsZeroOfUnderlyingType` on a pointer is the
test for `nil` (an unset optional field). -/
def IsZeroOfUnderlyingTypePtr {α : Type} (p : Option α) : Bool :=
  p.isNone

/-! ## `pkg/controller/quayecosystem/resources/types.go` -/

/-- Go `resources.DatabaseConfig`. -/
structure DatabaseConfig where
  Name : String
  Server : String
  Image : String
  Database : String
  Username : String
  Password : String
  RootPassword : String
  CPU : String
  Memory : String
  VolumeSize : String
  CredentialsName : String
  ValidProvidedSecret : Bool
  UserProvided : Bool

/-- Go `resources.QuayConfiguration`, the reconciliation context. -/
structure QuayConfiguration where
  QuayEcosystem : QuayEcosystem
  IsOpenShift : Bool
  QuaySuperuserUsername : String
  QuaySuperuserPassword : String
  QuaySuperuserEmail : String
  ValidProvidedQuaySuperuserSecret : Bool
  ValidProvidedQuayDatabaseSecret : Bool
  QuayDatabase : DatabaseConfig
  ProvisionQuayDatabase : Bool
  RedisHostname : String
  RedisPort : Option Int
  RedisPassword : String
  SecurityScannerKeyKid : String
  SecurityScannerKeyPrivateKey : String
  QuayHostname : String
  QuayConfigHostname : String
  QuayConfigUsername : String
  QuayConfigPassword : String
  QuayConfigPasswordSecret : String
  ValidProvidedQuayConfigPasswordSecret : Bool
  QuayImage : String
  QuayReplicas : Option Int
  DeployQuayConfiguration : Bool
  QuaySslCertificate : Bytes
  QuaySslPrivateKey : Bytes
  ClairHostname : String

/-! ## `pkg/client/types.go` -/

/-- Go `interface{}` as it occurs in a configuration document. -/
inductive Value where
  | null
  | bool (b : Bool)
  | num (n : Int)
  | str (s : String)
  | arr (xs : List Value)
  | obj (kvs : List (String × Value))
  | localSource (l : LocalRegistryBackendSource)

/-- Go `client.RegistryStatus`. -/
structure RegistryStatus where
  Status : String

/-- Go `client.QuayConfig`; `Config` is a map that may be `nil`. -/
structure QuayConfig where
  Config : Option (List (String × Value))

/-- Go `client.QuayStatusResponse`. -/
structure QuayStatusResponse where
  Status : Bool
  Reason : String

/-- Go `client.LogMessage`. -/
structure LogMessage where
  Message : String
  Level : String

/-- Go `client.SetupDatabaseResponse`. -/
structure SetupDatabaseResponse where
  Logs : List LogMessage

/-- Go `client.QuayCreateSuperuserRequest`. -/
structure QuayCreateSuperuserRequest where
  Username : String
  Password : String
  ConfirmPassword : String
  Email : String

/-- Go `client.StringValue`.  A Go `string` is a sequence of bytes; this field
receives a whole response body, so its bytes are kept as they are. -/
structure StringValue where
  Value : Bytes

/-! ## `pkg/client/quay.go`: the operations `SetupQuay` uses -/

/-- Go `client.QuayValidationType`, a string type. -/
abbrev QuayValidationType := String

def DatabaseValidation : QuayValidationType := "database"
def RedisValidation : QuayValidationType := "redis"
def RegistryValidation : QuayValidationType := "registry-storage"
def TimeMachineValidation : QuayValidationType := "time-machine"
def AccessValidation : QuayValidationType := "access"
def SslValidation : QuayValidationType := "ssl"

/-- One client operation together with its arguments. -/
inductive Call where
  | GetRegistryStatus
  | InitializationConfiguration
  | ValidateComponent (config : QuayConfig) (validationType : QuayValidationType)
  | UpdateQuayConfiguration (config : QuayConfig)
  | SetupDatabase
  | CreateSuperuser (config : QuayCreateSuperuserRequest)
  | GetQuayConfiguration
  | UploadFileResource (fileName : String) (content : Bytes)
  | CompleteSetup

/-- The decoded value an operation returns beside its error. -/
def Call.Ret : Call → Type
  | .GetRegistryStatus => RegistryStatus
  | .InitializationConfiguration => StringValue
  | .ValidateComponent _ _ => QuayStatusResponse
  | .UpdateQuayConfiguration _ => QuayConfig
  | .SetupDatabase => SetupDatabaseResponse
  | .CreateSuperuser _ => QuayStatusResponse
  | .GetQuayConfiguration => QuayConfig
  | .UploadFileResource _ _ => QuayStatusResponse
  | .CompleteSetup => StringValue

/-- One exchange with the registry: the operation, the decoded value and the
error it returned. -/
structure Exchange where
  call : Call
  value : call.Ret
  err : GoError

/-- The registry behind `client.QuayClient`: a transition function that
answers each operation with a decoded value and an error. -/
abbrev QuayClient (σ : Type) := (c : Call) → σ → (c.Ret × GoError) × σ

/-- The registry's state and the exchanges issued so far. -/
structure World (σ : Type) where
  server : σ
  log : List Exchange

/-- Issue one operation: ask the registry and record the exchange. -/
def QuayClient.exec {σ : Type} (cl : QuayClient σ) (c : Call) (w : World σ) :
    (c.Ret × GoError) × World σ :=
  let r := cl c w.server
  (r.1, { server := r.2, log := w.log ++ [{ call := c, value := r.1.1, err := r.1.2 }] })

/-! ## `pkg/controller/quayecosystem/setup/setup.go` -/

/-- Go `setup.QuaySetupInstance`. -/
structure QuaySetupInstance (σ : Type) where
  quayConfiguration : QuayConfiguration
  setupClient : QuayClient σ

/-- How a call of a Go function ends: it returns its `error` result, or the
goroutine panics. -/
inductive Outcome where
  | returned (err : GoError)
  | panicked (msg : String)

/-- The statement `quayConfig.Config[k] = v` followed by the rest of the
function: a write into a `nil` map panics. -/
def assign {σ : Type} (quayConfig : QuayConfig) (k : String) (v : Value) (w : World σ)
    (rest : QuayConfig → Outcome × World σ) : Outcome × World σ :=
  match quayConfig.Config with
  | none => (.panicked "assignment to entry in nil map", w)
  | some m => rest { Config := some (mapSet m k v) }

/-- Go `(*QuaySetupManager).validateComponent`. -/
def validateComponent {σ : Type} (quaySetupInstance : QuaySetupInstance σ)
    (quayConfig : QuayConfig) (validationType : QuayValidationType) (w : World σ) :
    GoError × World σ :=
  match quaySetupInstance.setupClient.exec (.ValidateComponent quayConfig validationType) w with
  | ((_, some err), w) => (some err, w)
  | ((validateResponse, none), w) =>
    if !validateResponse.Status then
      (some (validationType ++ " Validation Failed: " ++ validateResponse.Reason), w)
    else
      (none, w)

/-- The loop "Validate multiple components" of `SetupQuay`: the error it makes
`SetupQuay` return, or `none` when every component passed. -/
def validateComponents {σ : Type} (quaySetupInstance : QuaySetupInstance σ)
    (quayConfig : QuayConfig) : List QuayValidationType → World σ → GoError × World σ
  | [], w => (none, w)
  | validationComponent :: more, w =>
    match validateComponent quaySetupInstance quayConfig validationComponent w with
    | (some err, w) => (some ("Failed to Validate Component: " ++ err), w)
    | (none, w) => validateComponents quaySetupInstance quayConfig more w

/-- The loop "Setup Storage" of `SetupQuay`: one entry per backend of the
list, written in list order into `distributedStorageConfig`. -/
def setupStorage (K : Constants) :
    List RegistryBackend → List (String × Value) → List (String × Value)
  | [], distributedStorageConfig => distributedStorageConfig
  | registryBackend :: more, distributedStorageConfig =>
    let quayRegistry : List Value :=
      if !IsZeroOfUnderlyingTypePtr registryBackend.RegistryBackendSource.Local then
        match registryBackend.RegistryBackendSource.Local with
        | some l => ([] ++ [Value.str K.RegistryStorageTypeLocalStorageName]) ++ [Value.localSource l]
        | none => []
      else []
    setupStorage K more (mapSet distributedStorageConfig registryBackend.Name (.arr quayRegistry))

/-- Go `(*QuaySetupManager).SetupQuay`, started on the registry state `w`. -/
def SetupQuay {σ : Type} (K : Constants) (quaySetupInstance : QuaySetupInstance σ)
    (w : World σ) : Outcome × World σ :=
  let setupClient := quaySetupInstance.setupClient
  let quayConfiguration := quaySetupInstance.quayConfiguration
  match setupClient.exec .GetRegistryStatus w with
  | ((_, some err), w) => (.returned (some err), w)
  | ((_, none), w) =>
  match setupClient.exec .InitializationConfiguration w with
  | ((_, some err), w) => (.returned (some err), w)
  | ((_, none), w) =>
  let quayConfig : QuayConfig := { Config := some [] }
  assign quayConfig "DB_URI" (.str ("postgresql://" ++ quayConfiguration.QuayDatabase.Username
      ++ ":" ++ quayConfiguration.QuayDatabase.Password ++ "@"
      ++ quayConfiguration.QuayDatabase.Server ++ "/"
      ++ quayConfiguration.QuayDatabase.Database)) w fun quayConfig =>
  match validateComponent quaySetupInstance quayConfig DatabaseValidation w with
  | (some err, w) => (.returned (some err), w)
  | (none, w) =>
  let redisConfiguration : List (String × Value) :=
    [("host", Value.str quayConfiguration.RedisHostname)]
  let redisConfiguration : List (String × Value) :=
    if !IsZeroOfUnderlyingTypePtr quayConfiguration.RedisPort then
      match quayConfiguration.RedisPort with
      | some port => mapSet redisConfiguration "port" (.num port)
      | none => redisConfiguration
    else redisConfiguration
  assign quayConfig "BUILDLOGS_REDIS" (.obj redisConfiguration) w fun quayConfig =>
  assign quayConfig "USER_EVENTS_REDIS" (.obj redisConfiguration) w fun quayConfig =>
  assign quayConfig "SERVER_HOSTNAME" (.str quayConfiguration.QuayHostname) w fun quayConfig =>
  match setupClient.exec (.UpdateQuayConfiguration quayConfig) w with
  | ((_, some err), w) => (.returned (some ("Failed to update quay configuration: " ++ err)), w)
  | ((_, none), w) =>
  match setupClient.exec .SetupDatabase w with
  | ((_, some err), w) => (.returned (some ("Failed to setup database: " ++ err)), w)
  | ((_, none), w) =>
  match setupClient.exec (.CreateSuperuser {
      Username := quayConfiguration.QuaySuperuserUsername
      Email := quayConfiguration.QuaySuperuserEmail
      Password := quayConfiguration.QuaySuperuserPassword
      ConfirmPassword := quayConfiguration.QuaySuperuserPassword }) w with
  | ((_, some err), w) => (.returned (some ("Failed to create superuser: " ++ err)), w)
  | ((_, none), w) =>
  match setupClient.exec .GetQuayConfiguration w with
  | ((_, some err), w) => (.returned (some ("Failed to get Quay Configuration: " ++ err)), w)
  | ((quayConfig, none), w) =>
  assign quayConfig "SECURITY_SCANNER_ENDPOINT"
    (.str ("http://" ++ quayConfiguration.ClairHostname)) w fun quayConfig =>
  assign quayConfig "SECURITY_SCANNER_ISSUER_NAME" (.str "security_scanner") w fun quayConfig =>
  assign quayConfig "FEATURE_SECURITY_SCANNER" (.bool true) w fun quayConfig =>
  let distributedStorageConfig : List (String × Value) :=
    setupStorage K quayConfiguration.QuayEcosystem.Spec.Quay.RegistryBackends []
  assign quayConfig "DISTRIBUTED_STORAGE_CONFIG" (.obj distributedStorageConfig) w
    fun quayConfig =>
  match setupClient.exec (.UploadFileResource K.QuayAppConfigSSLPrivateKeySecretKey
      quayConfiguration.QuaySslPrivateKey) w with
  | ((_, some err), w) => (.returned (some ("Failed to upload SSL certificates: " ++ err)), w)
  | ((_, none), w) =>
  match setupClient.exec (.UploadFileResource K.QuayAppConfigSSLCertificateSecretKey
      quayConfiguration.QuaySslCertificate) w with
  | ((_, some err), w) => (.returned (some err), w)
  | ((_, none), w) =>
  match validateComponents quaySetupInstance quayConfig
      [RedisValidation, RegistryValidation, TimeMachineValidation, AccessValidation,
        SslValidation] w with
  | (some err, w) => (.returned (some err), w)
  | (none, w) =>
  assign quayConfig "PREFERRED_URL_SCHEME" (.str "https") w fun quayConfig =>
  assign quayConfig "SETUP_COMPLETE" (.bool true) w fun quayConfig =>
  match setupClient.exec (.UpdateQuayConfiguration quayConfig) w with
  | ((_, some err), w) => (.returned (some ("Failed to update Quay Configuration: " ++ err)), w)
  | ((_, none), w) =>
  match setupClient.exec .CompleteSetup w with
  | ((_, some err), w) =>
    (.returned (some ("Failed to complete Quay Configuration setup: " ++ err)), w)
  | ((_, none), w) => (.returned none, w)

/-- A run of `SetupQuay` against a registry in state `s`, the log empty. -/
def runSetupQuay {σ : Type} (K : Constants) (quaySetupInstance : QuaySetupInstance σ)
    (s : σ) : Outcome × World σ :=
  SetupQuay K quaySetupInstance { server := s, log := [] }

/-! ## Reading a log -/

/-- The exchange returned no error and, when it is a validation, reported
`status = true`. -/
def Exchange.passed : Exchange → Bool
  | ⟨.ValidateComponent _ _, v, e⟩ => e.isNone && v.Status
  | ⟨_, _, e⟩ => e.isNone

/-- The error `validateComponent` or the client hands to `SetupQuay` for an
exchange that did not pass. -/
def Exchange.failure : Exchange → String
  | ⟨.ValidateComponent _ t, v, none⟩ => t ++ " Validation Failed: " ++ v.Reason
  | ⟨_, _, some m⟩ => m
  | ⟨_, _, none⟩ => ""

/-- The document of the database validation: `DB_URI` alone. -/
def databaseDocument (qc : QuayConfiguration) : List (String × Value) :=
  mapSet [] "DB_URI" (.str ("postgresql://" ++ qc.QuayDatabase.Username
      ++ ":" ++ qc.QuayDatabase.Password ++ "@"
      ++ qc.QuayDatabase.Server ++ "/"
      ++ qc.QuayDatabase.Database))

/-- The cache entry that `SetupQuay` stores under both cache keys. -/
def redisDocument (qc : QuayConfiguration) : List (String × Value) :=
  if !IsZeroOfUnderlyingTypePtr qc.RedisPort then
    match qc.RedisPort with
    | some port => mapSet [("host", Value.str qc.RedisHostname)] "port" (.num port)
    | none => [("host", Value.str qc.RedisHostname)]
  else [("host", Value.str qc.RedisHostname)]

/-- The document of the first replace-configuration call. -/
def firstDocument (qc : QuayConfiguration) : List (String × Value) :=
  mapSet (mapSet (mapSet (databaseDocument qc)
    "BUILDLOGS_REDIS" (.obj (redisDocument qc)))
    "USER_EVENTS_REDIS" (.obj (redisDocument qc)))
    "SERVER_HOSTNAME" (.str qc.QuayHostname)

/-- The re-read document `base` after the scanner wiring and the storage
declarations were merged in: the document of the five later validations. -/
def mergedDocument (K : Constants) (qc : QuayConfiguration) (base : List (String × Value)) :
    List (String × Value) :=
  mapSet (mapSet (mapSet (mapSet base
    "SECURITY_SCANNER_ENDPOINT" (.str ("http://" ++ qc.ClairHostname)))
    "SECURITY_SCANNER_ISSUER_NAME" (.str "security_scanner"))
    "FEATURE_SECURITY_SCANNER" (.bool true))
    "DISTRIBUTED_STORAGE_CONFIG"
      (.obj (setupStorage K qc.QuayEcosystem.Spec.Quay.RegistryBackends []))

/-- The document of the last replace-configuration call. -/
def finalDocument (K : Constants) (qc : QuayConfiguration) (base : List (String × Value)) :
    List (String × Value) :=
  mapSet (mapSet (mergedDocument K qc base) "PREFERRED_URL_SCHEME" (.str "https"))
    "SETUP_COMPLETE" (.bool true)

/-- The sixteen operations of a complete session, in order; `base` is the
document the read-configuration call returned. -/
def script (K : Constants) (qc : QuayConfiguration) (base : List (String × Value)) :
    List Call :=
  [ .GetRegistryStatus,
    .InitializationConfiguration,
    .ValidateComponent { Config := some (databaseDocument qc) } DatabaseValidation,
    .UpdateQuayConfiguration { Config := some (firstDocument qc) },
    .SetupDatabase,
    .CreateSuperuser {
      Username := qc.QuaySuperuserUsername
      Email := qc.QuaySuperuserEmail
      Password := qc.QuaySuperuserPassword
      ConfirmPassword := qc.QuaySuperuserPassword },
    .GetQuayConfiguration,
    .UploadFileResource K.QuayAppConfigSSLPrivateKeySecretKey qc.QuaySslPrivateKey,
    .UploadFileResource K.QuayAppConfigSSLCertificateSecretKey qc.QuaySslCertificate,
    .ValidateComponent { Config := some (mergedDocument K qc base) } RedisValidation,
    .ValidateComponent { Config := some (mergedDocument K qc base) } RegistryValidation,
    .ValidateComponent { Config := some (mergedDocument K qc base) } TimeMachineValidation,
    .ValidateComponent { Config := some (mergedDocument K qc base) } AccessValidation,
    .ValidateComponent { Config := some (mergedDocument K qc base) } SslValidation,
    .UpdateQuayConfiguration { Config := some (finalDocument K qc base) },
    .CompleteSetup ]

/-- The error text `SetupQuay` returns when the step with index `i` (counted
from 0) hands it the error text `e`. -/
def wrapError (i : Nat) (e : String) : String :=
  if i = 3 then "Failed to update quay configuration: " ++ e
  else if i = 4 then "Failed to setup database: " ++ e
  else if i = 5 then "Failed to create superuser: " ++ e
  else if i = 6 then "Failed to get Quay Configuration: " ++ e
  else if i = 7 then "Failed to upload SSL certificates: " ++ e
  else if 9 ≤ i ∧ i ≤ 13 then "Failed to Validate Component: " ++ e
  else if i = 14 then "Failed to update Quay Configuration: " ++ e
  else if i = 15 then "Failed to complete Quay Configuration setup: " ++ e
  else e

/-- The document that the seventh exchange of a log (read configuration)
returned; `none` when the log is shorter or the document is `nil`. -/
def rereadConfig (log : List Exchange) : Option (List (String × Value)) :=
  match (log[6]? : Option Exchange) with
  | some ⟨.GetQuayConfiguration, v, _⟩ => v.Config
  | _ => none

/-- The result of `SetupQuay` as its log determines it. -/
def outcomeOf (log : List Exchange) : Outcome :=
  match log.getLast? with
  | none => .returned none
  | some e =>
    if e.passed then
      if log.length = 16 then .returned none
      else .panicked "assignment to entry in nil map"
    else .returned (some (wrapError (log.length - 1) e.failure))

/-- The exchanges so far all passed and are the first `n` steps of the
script. -/
structure Progress (K : Constants) (qc : QuayConfiguration) (b : List (String × Value))
    (n : Nat) (log : List Exchange) : Prop where
  len : log.length = n
  passed : ∀ e ∈ log, e.passed = true
  calls : log.map Exchange.call = (script K qc b).take n
  base : 7 ≤ n → rereadConfig log = some b

/-- What every finished run of `SetupQuay` satisfies: the log is an initial
part of the script, every exchange but the last passed, the session stopped
for one of three reasons, and the result is the one the log determines. -/
structure Session (K : Constants) (qc : QuayConfiguration) (o : Outcome)
    (log : List Exchange) : Prop where
  outcome : o = outcomeOf log
  calls : log.map Exchange.call =
    (script K qc ((rereadConfig log).getD [])).take log.length
  passed : ∀ e ∈ log.dropLast, e.passed = true
  nonempty : log ≠ []
  stop : log.length = 16 ∨ (∃ e, log.getLast? = some e ∧ e.passed = false) ∨
    (log.length = 7 ∧ rereadConfig log = none)
  base : 8 ≤ log.length → rereadConfig log ≠ none

/-- The property `Session` of a result pair. -/
def SessionOf {σ : Type} (K : Constants) (qc : QuayConfiguration)
    (r : Outcome × World σ) : Prop :=
  Session K qc r.1 r.2.log

/-! ## `pkg/controller/quayecosystem/resources/resources.go` -/

/-- Go `resources.GetConfigMapSecretName`. -/
def GetConfigMapSecretName (_quayEcosystem : QuayEcosystem) : String :=
  "quay-enterprise-config-secret"

/-! ## `pkg/controller/quayecosystem/provisioning/provision.go`: certificates -/

/-- Go `corev1.Secret` of the cluster API, with the fields the certificate step
reads and writes; `Data` is a map that may be `nil`. -/
structure Secret where
  Name : String
  Namespace : String
  Data : Option (List (String × Bytes))

/-- An `error` of the cluster collaborators; `NotFound` is what
`apierrors.IsNotFound` reports for it. -/
structure ClusterError where
  Message : String
  NotFound : Bool

/-- Go `reconcile.Result`: the requeue instruction. -/
structure Result where
  Requeue : Bool
  RequeueAfter : Nat

/-- The collaborators of the certificate step: the object store's lookup, the
key generator `cert.GenerateSelfSignedCertKey` and the reconciler's
`CreateOrUpdateResource`. -/
inductive ClusterCall where
  | GetSecret (name : String) (ns : String)
  | GenerateSelfSignedCertKey (host : String) (alternateIPs : List String)
      (alternateDNS : List String)
  | CreateOrUpdateResource (owner : QuayEcosystem) (ns : String) (obj : Secret)

/-- What a collaborator returns: the secret the lookup filled in and its error,
the generated certificate and key and the generator's error, the error of the
write. -/
def ClusterCall.Ret : ClusterCall → Type
  | .GetSecret _ _ => Secret × Option ClusterError
  | .GenerateSelfSignedCertKey _ _ _ => Bytes × Bytes × Option ClusterError
  | .CreateOrUpdateResource _ _ _ => Option ClusterError

/-- One exchange with a cluster collaborator. -/
structure ClusterExchange where
  call : ClusterCall
  reply : call.Ret

/-- The cluster behind the reconciler: a transition function over its state. -/
abbrev Cluster (σ : Type) := (c : ClusterCall) → σ → c.Ret × σ

/-- The cluster's state and the exchanges issued so far. -/
structure ClusterWorld (σ : Type) where
  cluster : σ
  log : List ClusterExchange

/-- Issue one cluster operation and record the exchange. -/
def Cluster.exec {σ : Type} (cl : Cluster σ) (c : ClusterCall) (w : ClusterWorld σ) :
    c.Ret × ClusterWorld σ :=
  let r := cl c w.cluster
  (r.1, { cluster := r.2, log := w.log ++ [{ call := c, reply := r.1 }] })

/-- Reading `secret.Data[k]` with the comma-ok form; a `nil` map has no entry. -/
def readData (data : Option (List (String × Bytes))) (k : String) : Option Bytes :=
  match data with
  | none => none
  | some m => mapGet m k

/-- Go `isQuayCertificatesConfigured`; the argument is a pointer. -/
def isQuayCertificatesConfigured (K : Constants) (secret : Option Secret) : Bool :=
  if !IsZeroOfUnderlyingTypePtr secret then
    match secret with
    | none => false
    | some secret =>
      if (readData secret.Data K.QuayAppConfigSSLCertificateSecretKey).isNone then false
      else if ((readData secret.Data K.QuayAppConfigSSLCertificateSecretKey).getD []).length = 0
      then false
      else if (readData secret.Data K.QuayAppConfigSSLPrivateKeySecretKey).isNone then false
      else if ((readData secret.Data K.QuayAppConfigSSLPrivateKeySecretKey).getD []).length = 0
      then false
      else true
  else false

/-- Go `(*ReconcileQuayEcosystemConfiguration).ManageQuayEcosystemCertificates`:
the requeue instruction and error it returns, the context `r.quayConfiguration`
after the call, and the cluster with its log. -/
def ManageQuayEcosystemCertificates {σ : Type} (K : Constants) (cluster : Cluster σ)
    (quayConfiguration : QuayConfiguration) (w : ClusterWorld σ) :
    (Option Result × Option ClusterError) × QuayConfiguration × ClusterWorld σ :=
  let configSecretName := GetConfigMapSecretName quayConfiguration.QuayEcosystem
  match cluster.exec (.GetSecret configSecretName quayConfiguration.QuayEcosystem.Namespace) w with
  | ((_, some err), w) =>
    if err.NotFound then
      ((some { Requeue := false, RequeueAfter := 0 }, none), quayConfiguration, w)
    else ((none, some err), quayConfiguration, w)
  | ((appConfigSecret, none), w) =>
  let afterBranch : Option ClusterError × QuayConfiguration × ClusterWorld σ :=
    if !isQuayCertificatesConfigured K (some appConfigSecret) then
      if IsZeroOfUnderlyingTypeString
          quayConfiguration.QuayEcosystem.Spec.Quay.SslCertificatesSecretName then
        match cluster.exec (.GenerateSelfSignedCertKey K.QuayEnterprise []
            [quayConfiguration.QuayHostname]) w with
        | ((_, _, some err), w) => (some err, quayConfiguration, w)
        | ((certBytes, privKeyBytes, none), w) =>
          (none, { quayConfiguration with
            QuaySslCertificate := certBytes
            QuaySslPrivateKey := privKeyBytes }, w)
      else (none, quayConfiguration, w)
    else
      if IsZeroOfUnderlyingTypeString
          quayConfiguration.QuayEcosystem.Spec.Quay.SslCertificatesSecretName then
        (none, { quayConfiguration with
          QuaySslPrivateKey :=
            (readData appConfigSecret.Data K.QuayAppConfigSSLPrivateKeySecretKey).getD []
          QuaySslCertificate :=
            (readData appConfigSecret.Data K.QuayAppConfigSSLCertificateSecretKey).getD [] },
          w)
      else (none, quayConfiguration, w)
  match afterBranch with
  | (some err, quayConfiguration, w) => ((none, some err), quayConfiguration, w)
  | (none, quayConfiguration, w) =>
  let data : List (String × Bytes) :=
    match appConfigSecret.Data with
    | none => []
    | some data => data
  let data := mapSet data K.QuayAppConfigSSLPrivateKeySecretKey
    quayConfiguration.QuaySslPrivateKey
  let data := mapSet data K.QuayAppConfigSSLCertificateSecretKey
    quayConfiguration.QuaySslCertificate
  let appConfigSecret : Secret := { appConfigSecret with Data := some data }
  match cluster.exec (.CreateOrUpdateResource quayConfiguration.QuayEcosystem
      quayConfiguration.QuayEcosystem.Namespace appConfigSecret) w with
  | (some err, w) => ((none, some err), quayConfiguration, w)
  | (none, w) => ((none, none), quayConfiguration, w)

/-- A run of the certificate step against a cluster in state `s`, the log
empty. -/
def runCertificates {σ : Type} (K : Constants) (cluster : Cluster σ)
    (quayConfiguration : QuayConfiguration) (s : σ) :
    (Option Result × Option ClusterError) × QuayConfiguration × ClusterWorld σ :=
  ManageQuayEcosystemCertificates K cluster quayConfiguration { cluster := s, log := [] }

/-! ## Sample inputs -/

/-- A choice of the constants: the storage driver name of the spec and the
file names `ssl.key` and `ssl.cert`. -/
def sampleConstants : Constants where
  RegistryStorageTypeLocalStorageName := "LocalStorage"
  QuayAppConfigSSLPrivateKeySecretKey := "ssl.key"
  QuayAppConfigSSLCertificateSecretKey := "ssl.cert"
  QuayEnterprise := "quay-enterprise"

/-- A stack with the local backend `local1` at `/datastorage`, no external
cache or database and no certificate secret of its own. -/
def sampleEcosystem : QuayEcosystem where
  Name := "example"
  Namespace := "registry"
  Spec := {
    Quay := {
      ConfigRouteHost := ""
      RouteHost := "quay.example.com"
      SkipSetup := false
      SslCertificatesSecretName := ""
      Database := { Server := "", VolumeSize := "" }
      RegistryBackends :=
        [{ Name := "local1",
           RegistryBackendSource := { Local := some { StoragePath := "/datastorage" } } }] }
    Redis := { Hostname := "", Port := none } }
  Status := { Hostname := "" }

/-- A reconciliation context for `sampleEcosystem`. -/
def sampleConfiguration : QuayConfiguration where
  QuayEcosystem := sampleEcosystem
  IsOpenShift := true
  QuaySuperuserUsername := "quay"
  QuaySuperuserPassword := "password"
  QuaySuperuserEmail := "quay@example.com"
  ValidProvidedQuaySuperuserSecret := false
  ValidProvidedQuayDatabaseSecret := false
  QuayDatabase := {
    Name := "example-quay-postgresql"
    Server := "example-quay-postgresql"
    Image := ""
    Database := "quay"
    Username := "quay"
    Password := "secret"
    RootPassword := ""
    CPU := ""
    Memory := ""
    VolumeSize := ""
    CredentialsName := ""
    ValidProvidedSecret := false
    UserProvided := false }
  ProvisionQuayDatabase := true
  RedisHostname := "example-redis"
  RedisPort := none
  RedisPassword := ""
  SecurityScannerKeyKid := ""
  SecurityScannerKeyPrivateKey := ""
  QuayHostname := "quay.example.com"
  QuayConfigHostname := "example-quay-config"
  QuayConfigUsername := "quayconfig"
  QuayConfigPassword := "quay"
  QuayConfigPasswordSecret := ""
  ValidProvidedQuayConfigPasswordSecret := false
  QuayImage := ""
  QuayReplicas := none
  DeployQuayConfiguration := true
  QuaySslCertificate := [1, 2, 3]
  QuaySslPrivateKey := [4, 5, 6]
  ClairHostname := "example-clair"

/-- A registry that accepts everything: it stores the document of a replace
call and hands it back on a read; its state is the stored document. -/
def healthyRegistry : QuayClient (Option (List (String × Value)))
  | .GetRegistryStatus, st => ((⟨"config-db"⟩, none), st)
  | .InitializationConfiguration, st => ((⟨[]⟩, none), st)
  | .ValidateComponent _ _, st => ((⟨true, ""⟩, none), st)
  | .UpdateQuayConfiguration cfg, _ => ((cfg, none), cfg.Config)
  | .SetupDatabase, st => ((⟨[]⟩, none), st)
  | .CreateSuperuser _, st => ((⟨true, ""⟩, none), st)
  | .GetQuayConfiguration, st => ((⟨st⟩, none), st)
  | .UploadFileResource _ _, st => ((⟨true, ""⟩, none), st)
  | .CompleteSetup, st => ((⟨[]⟩, none), st)

/-- The healthy registry with some answers replaced. -/
def faultyRegistry (fault : (c : Call) → Option (c.Ret × GoError)) :
    QuayClient (Option (List (String × Value))) :=
  fun c st =>
    match fault c with
    | some r => (r, st)
    | none => healthyRegistry c st

/-- The database validation reports `status = false`, "connection refused". -/
def databaseRefused : (c : Call) → Option (c.Ret × GoError)
  | .ValidateComponent _ t =>
    if t = DatabaseValidation then some (⟨false, "connection refused"⟩, none) else none
  | _ => none

/-- The TLS validation reports `status = false`, "certificate has expired". -/
def sslRejected : (c : Call) → Option (c.Ret × GoError)
  | .ValidateComponent _ t =>
    if t = SslValidation then some (⟨false, "certificate has expired"⟩, none) else none
  | _ => none

/-- The status probe fails in transport with "connection refused". -/
def probeUnreachable : (c : Call) → Option (c.Ret × GoError)
  | .GetRegistryStatus => some (⟨""⟩, some "connection refused")
  | _ => none

/-- The status probe reports `ready`, the status of a configured registry. -/
def probeReady : (c : Call) → Option (c.Ret × GoError)
  | .GetRegistryStatus => some (⟨"ready"⟩, none)
  | _ => none

/-- The read-configuration call decodes a body whose `config` is `null`. -/
def configNull : (c : Call) → Option (c.Ret × GoError)
  | .GetQuayConfiguration => some (⟨none⟩, none)
  | _ => none

/-- The sample session against a registry. -/
def sampleInstance (cl : QuayClient (Option (List (String × Value)))) :
    QuaySetupInstance (Option (List (String × Value))) where
  quayConfiguration := sampleConfiguration
  setupClient := cl

/-- The migrations call fails in transport with "unexpected EOF". -/
def migrationsFailed : (c : Call) → Option (c.Ret × GoError)
  | .SetupDatabase => some (⟨[]⟩, some "unexpected EOF")
  | _ => none

/-- A cluster whose app config secret holds what the state says; the generator
returns the pair `[10, 11]`, `[12, 13]`; a write succeeds and replaces the
secret's data. -/
def sampleCluster : Cluster (Option (List (String × Bytes)))
  | .GetSecret name ns, st => (({ Name := name, Namespace := ns, Data := st }, none), st)
  | .GenerateSelfSignedCertKey _ _ _, st => (([10, 11], [12, 13], none), st)
  | .CreateOrUpdateResource _ _ obj, _ => (none, obj.Data)

/-- The sample stack with the certificate secret `custom-tls` named in its
spec. -/
def suppliedEcosystem : QuayEcosystem :=
  { sampleEcosystem with
    Spec := { sampleEcosystem.Spec with
      Quay := { sampleEcosystem.Spec.Quay with SslCertificatesSecretName := "custom-tls" } } }

/-- The sample context for `suppliedEcosystem`; its certificate and key are
the ones read from the named secret. -/
def suppliedConfiguration : QuayConfiguration :=
  { sampleConfiguration with QuayEcosystem := suppliedEcosystem }

/-! ## `pkg/controller/quayecosystem/resources/resources.go`: names -/

/-- Modelled from the spec: the constants of the `constants` package that the
orchestrator reads; the package is not among the sources, so they are
parameters. -/
structure ProvisioningConstants where
  QuayServiceAccount : String
  RedisServiceAccount : String
  AnyUIDSCC : String
  LabelCompoentKey : String
  LabelComponentQuayDatabaseValue : String
  PostgresqlName : String
  PostgreSQLPort : Int
  DefaultQuayDatabaseCredentials : List (String × String)
  DatabaseCredentialsUsernameKey : String
  DatabaseCredentialsPasswordKey : String
  DatabaseCredentialsDatabaseKey : String
  DefaultQuayConfigCredentials : List (String × String)

/-- Go `resources.GetGenericResourcesName`. -/
def GetGenericResourcesName (quayEcosystem : QuayEcosystem) : String :=
  quayEcosystem.Name

/-- Go `resources.GetQuayResourcesName`. -/
def GetQuayResourcesName (quayEcosystem : QuayEcosystem) : String :=
  GetGenericResourcesName quayEcosystem ++ "-quay"

/-- Go `resources.GetClairResourcesName`. -/
def GetClairResourcesName (quayEcosystem : QuayEcosystem) : String :=
  GetGenericResourcesName quayEcosystem ++ "-clair"

/-- Go `resources.GetQuayConfigResourcesName`. -/
def GetQuayConfigResourcesName (quayEcosystem : QuayEcosystem) : String :=
  GetGenericResourcesName quayEcosystem ++ "-quay-config"

/-- Go `resources.GetRedisResourcesName`. -/
def GetRedisResourcesName (quayEcosystem : QuayEcosystem) : String :=
  GetGenericResourcesName quayEcosystem ++ "-redis"

/-- Go `resources.GetClairConfigSecretName`. -/
def GetClairConfigSecretName (_quayEcosystem : QuayEcosystem) : String :=
  "clair-config-secret"

/-- Go `resources.GetSecurityScannerKeySecretName`. -/
def GetSecurityScannerKeySecretName (_quayEcosystem : QuayEcosystem) : String :=
  "security-scanner-key-secret"

/-- Go `resources.GetClairTrustCASecretName`. -/
def GetClairTrustCASecretName (_quayEcosystem : QuayEcosystem) : String :=
  "clair-trust-ca-secret"

/-- Go `resources.GetQuayExtraCertsSecretName`. -/
def GetQuayExtraCertsSecretName (_quayEcosystem : QuayEcosystem) : String :=
  "quay-enterprise-cert-secret"

/-- Go `resources.GetQuayDatabaseName`. -/
def GetQuayDatabaseName (P : ProvisioningConstants) (quayEcosystem : QuayEcosystem) : String :=
  GetGenericResourcesName quayEcosystem ++ "-quay-" ++ P.PostgresqlName

/-- Go `resources.GetClairDatabaseName`. -/
def GetClairDatabaseName (P : ProvisioningConstants) (quayEcosystem : QuayEcosystem) : String :=
  GetGenericResourcesName quayEcosystem ++ "-clair-" ++ P.PostgresqlName

/-- Go `resources.GetQuayRegistryStorageName`. -/
def GetQuayRegistryStorageName (quayEcosystem : QuayEcosystem) : String :=
  GetGenericResourcesName quayEcosystem ++ "-registry"

/-- Go `resources.GetRegistryStorageVolumeName`. -/
def GetRegistryStorageVolumeName (quayEcosystem : QuayEcosystem)
    (registryBackendName : String) : String :=
  GetGenericResourcesName quayEcosystem ++ "-" ++ registryBackendName

/-! ## The objects the orchestrator converges -/

/-- The kinds of cluster objects the orchestrator handles. -/
inductive Kind where
  | Secret
  | ServiceAccount
  | Role
  | RoleBinding
  | Service
  | Deployment
  | Route
  | PersistentVolumeClaim
  | SecurityContextConstraints
  deriving DecidableEq

/-- Go `metav1.ObjectMeta`, name and namespace.  The label map is left out: the
orchestrator hands it to the manifest builders and never reads it. -/
structure ObjectMeta where
  Name : String
  Namespace : String

/-- Go `resources.UpdateMetaWithName`. -/
def UpdateMetaWithName (meta : ObjectMeta) (name : String) : ObjectMeta :=
  { meta with Name := name }

/-- Go `routev1.Route`, with the fields `routes.go` sets: the target, the
target port, the TLS termination and redirect policy when TLS is set, and the
host (empty when the platform is to assign one). -/
structure Route where
  ObjectMeta : ObjectMeta
  ToKind : String
  ToName : String
  TargetPort : Int
  TLS : Option (String × String)
  Host : String

/-- Go `appsv1.Deployment` as read back: `Status.AvailableReplicas`. -/
structure Deployment where
  AvailableReplicas : Int

/-- Go `ossecurityv1.SecurityContextConstraints`: the allow list `Users`. -/
structure SecurityContextConstraints where
  Users : List String

/-- An object handed to a convergence call.  Modelled from the spec: the
manifest builders of services, deployments, roles, role bindings, service
accounts and volume claims are not among the sources ("Manifest builders:
(context) → fully-specified object; Orchestrator only converges"); such an
object is `built`: its kind, the builder that made it and the metadata the
builder was given. -/
inductive Object where
  | secret (definition : Secret)
  | credentialsSecret (meta : ObjectMeta) (stringData : List (String × String))
  | route (definition : Route)
  | securityContextConstraints (definition : SecurityContextConstraints)
  | built (kind : Kind) (builder : String) (meta : ObjectMeta)

/-- The kind of an object. -/
def Object.kind : Object → Kind
  | .secret _ => .Secret
  | .credentialsSecret _ _ => .Secret
  | .route _ => .Route
  | .securityContextConstraints _ => .SecurityContextConstraints
  | .built kind _ _ => kind

/-- Go `resources.GetSecretDefinition`: a secret with the metadata and no
data. -/
def GetSecretDefinition (meta : ObjectMeta) : Secret :=
  { Name := meta.Name, Namespace := meta.Namespace, Data := none }

/-- Go `resources.GetSecretDefinitionFromCredentialsMap`. -/
def GetSecretDefinitionFromCredentialsMap (name : String) (meta : ObjectMeta)
    (secretMap : List (String × String)) : Object :=
  .credentialsSecret { meta with Name := name } secretMap

/-- Go `resources.GetQuayConfigRouteDefinition`. -/
def GetQuayConfigRouteDefinition (meta : ObjectMeta) (quayEcosystem : QuayEcosystem) :
    Route :=
  let meta : ObjectMeta := { meta with Name := GetQuayConfigResourcesName quayEcosystem }
  let route : Route :=
    { ObjectMeta := meta, ToKind := "Service", ToName := meta.Name, TargetPort := 8443,
      TLS := some ("passthrough", "Redirect"), Host := "" }
  if !IsZeroOfUnderlyingTypeString quayEcosystem.Spec.Quay.ConfigRouteHost then
    { route with Host := quayEcosystem.Spec.Quay.ConfigRouteHost }
  else route

/-- Go `resources.GetQuayRouteDefinition`. -/
def GetQuayRouteDefinition (meta : ObjectMeta) (quayEcosystem : QuayEcosystem) : Route :=
  let route : Route :=
    { ObjectMeta := meta, ToKind := "Service", ToName := meta.Name, TargetPort := 8443,
      TLS := some ("passthrough", "Redirect"), Host := "" }
  if !IsZeroOfUnderlyingTypeString quayEcosystem.Spec.Quay.RouteHost then
    { route with Host := quayEcosystem.Spec.Quay.RouteHost }
  else route

/-- Go `resources.GetClairRouteDefinition`. -/
def GetClairRouteDefinition (meta : ObjectMeta) (quayEcosystem : QuayEcosystem) : Route :=
  let meta : ObjectMeta := { meta with Name := GetClairResourcesName quayEcosystem }
  { ObjectMeta := meta, ToKind := "Service", ToName := meta.Name, TargetPort := 6060,
    TLS := none, Host := "" }

/-! ## The collaborators of the orchestrator -/

/-- One operation on a collaborator of the orchestrator: the object store's
`Get` and `List`, the reconciler's two convergence calls, the remote command
execution `k8sutils.ExecIntoPod`, the deployment watch
`k8sutils.GetDeploymentStatus`, and `time.Sleep`. -/
inductive ClusterOp where
  | Get (kind : Kind) (name : String) (ns : String)
  | ListPods (labelSelector : String) (ns : String)
  | CreateResourceIfNotExists (owner : Option QuayEcosystem) (ns : String) (obj : Object)
  | CreateOrUpdateResource (owner : Option QuayEcosystem) (ns : String) (obj : Object)
  | ExecIntoPod (podName : String) (command : String) (containerName : String)
      (ns : String)
  | GetDeploymentStatus (ns : String) (name : String)
  | Sleep (duration : Nat)

/-- What `Get` fills in for a kind; nothing is kept of the kinds the
orchestrator only tests for existence. -/
def Kind.Live : Kind → Type
  | .Secret => QuayOperator.Secret
  | .Deployment => QuayOperator.Deployment
  | .Route => QuayOperator.Route
  | .SecurityContextConstraints => QuayOperator.SecurityContextConstraints
  | _ => Unit

/-- What an operation returns: the object read and the error; the names of the
pods listed and the error; the error of a convergence call; `success`, `stdout`
and `stderr` of a remote command; whether the watch saw the deployment scaled;
nothing for a pause. -/
def ClusterOp.Ret : ClusterOp → Type
  | .Get kind _ _ => kind.Live × Option ClusterError
  | .ListPods _ _ => List String × Option ClusterError
  | .CreateResourceIfNotExists _ _ _ => Option ClusterError
  | .CreateOrUpdateResource _ _ _ => Option ClusterError
  | .ExecIntoPod _ _ _ _ => Bool × String × String
  | .GetDeploymentStatus _ _ => Bool
  | .Sleep _ => Unit

/-- One exchange of the orchestrator with a collaborator. -/
structure OpExchange where
  op : ClusterOp
  reply : op.Ret

/-- The collaborators as a transition function over their state. -/
abbrev Orchestration (σ : Type) := (op : ClusterOp) → σ → op.Ret × σ

/-- The state of a pass: the context `r.quayConfiguration`, the state of the
collaborators and the exchanges so far. -/
structure Pass (σ : Type) where
  quayConfiguration : QuayConfiguration
  cluster : σ
  log : List OpExchange

/-- Issue one operation and record the exchange. -/
def Orchestration.exec {σ : Type} (env : Orchestration σ) (op : ClusterOp) (p : Pass σ) :
    op.Ret × Pass σ :=
  let r := env op p.cluster
  (r.1, { p with cluster := r.2, log := p.log ++ [{ op := op, reply := r.1 }] })

/-- Go `time.Second`, in nanoseconds. -/
def Second : Nat := 1000000000

/-- What a Go function with the results `(*reconcile.Result, error)` returns. -/
abbrev Returned := Option Result × Option ClusterError

/-- Go `strings.Contains`. -/
def stringsContains (s substr : String) : Bool :=
  decide (substr.data <:+: s.data)

/-- Go `fmt.Errorf`: an error with the given message. -/
def Errorf (message : String) : ClusterError :=
  { Message := message, NotFound := false }

/-! ## `pkg/controller/quayecosystem/provisioning/provision.go`: the steps -/

/-- Go `(*ReconcileQuayEcosystemConfiguration).verifyDeployment`. -/
def verifyDeployment {σ : Type} (env : Orchestration σ) (deploymentName : String)
    (deploymentNamespace : String) (p : Pass σ) : Returned × Pass σ :=
  match env.exec (.Get .Deployment deploymentName deploymentNamespace) p with
  | ((_, some err), p) => ((none, some err), p)
  | ((deployment, none), p) =>
    if deployment.AvailableReplicas ≠ 1 then
      match env.exec (.GetDeploymentStatus deploymentNamespace deploymentName) p with
      | (scaled, p) =>
        if !scaled then
          ((some { Requeue := true, RequeueAfter := Second * 5 }, none), p)
        else ((none, none), p)
    else ((none, none), p)

/-- Go `createQuayConfigSecret`. -/
def createQuayConfigSecret {σ : Type} (env : Orchestration σ) (meta : ObjectMeta)
    (p : Pass σ) : Option ClusterError × Pass σ :=
  let configSecretName := GetConfigMapSecretName p.quayConfiguration.QuayEcosystem
  let meta : ObjectMeta := { meta with Name := configSecretName }
  match env.exec (.Get .Secret configSecretName p.quayConfiguration.QuayEcosystem.Namespace)
      p with
  | ((_, some err), p) =>
    if err.NotFound then
      env.exec (.CreateResourceIfNotExists (some p.quayConfiguration.QuayEcosystem)
        p.quayConfiguration.QuayEcosystem.Namespace (.secret (GetSecretDefinition meta))) p
    else (some err, p)
  | ((_, none), p) => (none, p)

/-- Go `createClairConfigSecret`. -/
def createClairConfigSecret {σ : Type} (env : Orchestration σ) (meta : ObjectMeta)
    (p : Pass σ) : Option ClusterError × Pass σ :=
  let configSecretName := GetClairConfigSecretName p.quayConfiguration.QuayEcosystem
  let meta : ObjectMeta := { meta with Name := configSecretName }
  match env.exec (.Get .Secret configSecretName p.quayConfiguration.QuayEcosystem.Namespace)
      p with
  | ((_, some err), p) =>
    if err.NotFound then
      env.exec (.CreateResourceIfNotExists (some p.quayConfiguration.QuayEcosystem)
        p.quayConfiguration.QuayEcosystem.Namespace (.secret (GetSecretDefinition meta))) p
    else (some err, p)
  | ((_, none), p) => (none, p)

/-- Go `createClairTrustCASecret`. -/
def createClairTrustCASecret {σ : Type} (env : Orchestration σ) (meta : ObjectMeta)
    (p : Pass σ) : Option ClusterError × Pass σ :=
  let configSecretName := GetClairTrustCASecretName p.quayConfiguration.QuayEcosystem
  let meta : ObjectMeta := { meta with Name := configSecretName }
  match env.exec (.Get .Secret configSecretName p.quayConfiguration.QuayEcosystem.Namespace)
      p with
  | ((_, some err), p) =>
    if err.NotFound then
      env.exec (.CreateResourceIfNotExists (some p.quayConfiguration.QuayEcosystem)
        p.quayConfiguration.QuayEcosystem.Namespace (.secret (GetSecretDefinition meta))) p
    else (some err, p)
  | ((_, none), p) => (none, p)

/-- Go `createSecurityScannerKeySecret`. -/
def createSecurityScannerKeySecret {σ : Type} (env : Orchestration σ) (meta : ObjectMeta)
    (p : Pass σ) : Option ClusterError × Pass σ :=
  let configSecretName := GetSecurityScannerKeySecretName p.quayConfiguration.QuayEcosystem
  let meta : ObjectMeta := { meta with Name := configSecretName }
  match env.exec (.Get .Secret configSecretName p.quayConfiguration.QuayEcosystem.Namespace)
      p with
  | ((_, some err), p) =>
    if err.NotFound then
      env.exec (.CreateResourceIfNotExists (some p.quayConfiguration.QuayEcosystem)
        p.quayConfiguration.QuayEcosystem.Namespace (.secret (GetSecretDefinition meta))) p
    else (some err, p)
  | ((_, none), p) => (none, p)

/-- Go `createRBAC`. -/
def createRBAC {σ : Type} (env : Orchestration σ) (meta : ObjectMeta) (p : Pass σ) :
    Option ClusterError × Pass σ :=
  let role := Object.built .Role "GetRoleDefinition" meta
  match env.exec (.CreateOrUpdateResource (some p.quayConfiguration.QuayEcosystem)
      p.quayConfiguration.QuayEcosystem.Namespace role) p with
  | (some err, p) => (some err, p)
  | (none, p) =>
  let roleBinding := Object.built .RoleBinding "GetRoleBindingDefinition" meta
  match env.exec (.CreateOrUpdateResource (some p.quayConfiguration.QuayEcosystem)
      p.quayConfiguration.QuayEcosystem.Namespace roleBinding) p with
  | (some err, p) => (some err, p)
  | (none, p) => (none, p)

/-- Go `createServiceAccount`. -/
def createServiceAccount {σ : Type} (env : Orchestration σ) (serviceAccountName : String)
    (meta : ObjectMeta) (p : Pass σ) : Option ClusterError × Pass σ :=
  let meta : ObjectMeta := { meta with Name := serviceAccountName }
  match env.exec (.Get .ServiceAccount serviceAccountName
      p.quayConfiguration.QuayEcosystem.Namespace) p with
  | ((_, some err), p) =>
    if err.NotFound then
      env.exec (.CreateOrUpdateResource (some p.quayConfiguration.QuayEcosystem)
        p.quayConfiguration.QuayEcosystem.Namespace
        (.built .ServiceAccount "GetServiceAccountDefinition" meta)) p
    else (some err, p)
  | ((_, none), p) => (none, p)

/-- Go `createServiceAccounts`. -/
def createServiceAccounts {σ : Type} (P : ProvisioningConstants) (env : Orchestration σ)
    (meta : ObjectMeta) (p : Pass σ) : Option ClusterError × Pass σ :=
  let first : Option ClusterError × Pass σ :=
    if IsZeroOfUnderlyingTypeString p.quayConfiguration.QuayEcosystem.Spec.Redis.Hostname then
      createServiceAccount env P.RedisServiceAccount meta p
    else (none, p)
  match first with
  | (some err, p) => (some err, p)
  | (none, p) =>
  match createServiceAccount env P.QuayServiceAccount meta p with
  | (some err, p) => (some err, p)
  | (none, p) => (none, p)

/-- The loop of `configureAnyUIDSCC` that looks for the principal in the allow
list. -/
def sccUserFound (sccUser : String) : List String → Bool
  | [] => false
  | user :: users => if user = sccUser then true else sccUserFound sccUser users

/-- Go `configureAnyUIDSCC`. -/
def configureAnyUIDSCC {σ : Type} (P : ProvisioningConstants) (env : Orchestration σ)
    (serviceAccountName : String) (meta : ObjectMeta) (p : Pass σ) :
    Option ClusterError × Pass σ :=
  let sccUser := "system:serviceaccount:" ++ meta.Namespace ++ ":" ++ serviceAccountName
  match env.exec (.Get .SecurityContextConstraints P.AnyUIDSCC "") p with
  | ((_, some err), p) => (some err, p)
  | ((anyUIDSCC, none), p) =>
    if !sccUserFound sccUser anyUIDSCC.Users then
      let anyUIDSCC : SecurityContextConstraints :=
        { anyUIDSCC with Users := anyUIDSCC.Users ++ [sccUser] }
      match env.exec (.CreateOrUpdateResource none
          p.quayConfiguration.QuayEcosystem.Namespace
          (.securityContextConstraints anyUIDSCC)) p with
      | (some err, p) => (some err, p)
      | (none, p) => (none, p)
    else (none, p)

/-- Go `configureAnyUIDSCCs`. -/
def configureAnyUIDSCCs {σ : Type} (P : ProvisioningConstants) (env : Orchestration σ)
    (meta : ObjectMeta) (p : Pass σ) : Option ClusterError × Pass σ :=
  match configureAnyUIDSCC P env P.QuayServiceAccount meta p with
  | (some err, p) => (some err, p)
  | (none, p) => (none, p)

/-- Go `createRedisService`. -/
def createRedisService {σ : Type} (env : Orchestration σ) (meta : ObjectMeta)
    (p : Pass σ) : Option ClusterError × Pass σ :=
  let service := Object.built .Service "GetRedisServiceDefinition" meta
  match env.exec (.CreateResourceIfNotExists (some p.quayConfiguration.QuayEcosystem)
      p.quayConfiguration.QuayEcosystem.Namespace service) p with
  | (some err, p) => (some err, p)
  | (none, p) => (none, p)

/-- Go `redisDeployment`. -/
def redisDeployment {σ : Type} (env : Orchestration σ) (meta : ObjectMeta) (p : Pass σ) :
    Returned × Pass σ :=
  let redisDeployment := Object.built .Deployment "GetRedisDeploymentDefinition" meta
  match env.exec (.CreateResourceIfNotExists (some p.quayConfiguration.QuayEcosystem)
      p.quayConfiguration.QuayEcosystem.Namespace redisDeployment) p with
  | (some err, p) => ((none, some err), p)
  | (none, p) =>
  match env.exec (.Sleep (2 * Second)) p with
  | (_, p) =>
  let redisDeploymentName := GetRedisResourcesName p.quayConfiguration.QuayEcosystem
  verifyDeployment env redisDeploymentName p.quayConfiguration.QuayEcosystem.Namespace p

/-- The loop of `createQuayDatabase` over `databaseResources`: the error that
makes the function return, or `none` when every resource was applied. -/
def applyDatabaseResources {σ : Type} (env : Orchestration σ) :
    List Object → Pass σ → Option ClusterError × Pass σ
  | [], p => (none, p)
  | resource :: more, p =>
    match env.exec (.CreateResourceIfNotExists (some p.quayConfiguration.QuayEcosystem)
        p.quayConfiguration.QuayEcosystem.Namespace resource) p with
    | (some err, p) => (some err, p)
    | (none, p) => applyDatabaseResources env more p

/-- Go `createQuayDatabase`. -/
def createQuayDatabase {σ : Type} (P : ProvisioningConstants) (env : Orchestration σ)
    (meta : ObjectMeta) (p : Pass σ) : Returned × Pass σ :=
  let meta := UpdateMetaWithName meta (GetQuayDatabaseName P p.quayConfiguration.QuayEcosystem)
  let databaseResources : List Object := []
  let withSecret : List Object × Pass σ :=
    if !p.quayConfiguration.ValidProvidedQuayDatabaseSecret then
      let quayDatabaseSecret := GetSecretDefinitionFromCredentialsMap
        (GetQuayDatabaseName P p.quayConfiguration.QuayEcosystem) meta
        P.DefaultQuayDatabaseCredentials
      (databaseResources ++ [quayDatabaseSecret],
       { p with quayConfiguration := { p.quayConfiguration with
          QuayDatabase := { p.quayConfiguration.QuayDatabase with
            Username := (mapGet P.DefaultQuayDatabaseCredentials
              P.DatabaseCredentialsUsernameKey).getD ""
            Password := (mapGet P.DefaultQuayDatabaseCredentials
              P.DatabaseCredentialsPasswordKey).getD ""
            Database := (mapGet P.DefaultQuayDatabaseCredentials
              P.DatabaseCredentialsDatabaseKey).getD "" } } })
    else (databaseResources, p)
  let databaseResources := withSecret.1
  let p := withSecret.2
  let databaseResources : List Object :=
    if !IsZeroOfUnderlyingTypeString
        p.quayConfiguration.QuayEcosystem.Spec.Quay.Database.VolumeSize then
      databaseResources ++ [.built .PersistentVolumeClaim "GetDatabasePVCDefinition" meta]
    else databaseResources
  let service := Object.built .Service "GetDatabaseServiceResourceDefinition" meta
  let databaseResources := databaseResources ++ [service]
  let deployment := Object.built .Deployment "GetDatabaseDeploymentDefinition" meta
  let databaseResources := databaseResources ++ [deployment]
  match applyDatabaseResources env databaseResources p with
  | (some err, p) => ((none, some err), p)
  | (none, p) =>
  let deploymentName := meta.Name
  match env.exec (.Sleep (2 * Second)) p with
  | (_, p) =>
  verifyDeployment env deploymentName p.quayConfiguration.QuayEcosystem.Namespace p

/-- Go `configurePostgreSQL`. -/
def configurePostgreSQL {σ : Type} (P : ProvisioningConstants) (env : Orchestration σ)
    (_meta : ObjectMeta) (p : Pass σ) : Option ClusterError × Pass σ :=
  match env.exec (.ListPods (P.LabelCompoentKey ++ "=" ++ P.LabelComponentQuayDatabaseValue)
      p.quayConfiguration.QuayEcosystem.Namespace) p with
  | ((_, some err), p) => (some err, p)
  | ((postgresqlPodsItems, none), p) =>
  match postgresqlPodsItems with
  | [] => (some (Errorf "Failed to locate any active PostgreSQL Pod"), p)
  | podName :: _ =>
  match env.exec (.ExecIntoPod podName
      ("echo \"SELECT * FROM pg_available_extensions\" | "
        ++ "/opt/rh/rh-postgresql96/root/usr/bin/psql -d "
        ++ p.quayConfiguration.QuayDatabase.Database) ""
      p.quayConfiguration.QuayEcosystem.Namespace) p with
  | ((success, stdout, stderr), p) =>
  if !success then (some (Errorf ("Failed to Exec into Postgresql Pod: " ++ stderr)), p)
  else if stringsContains stdout "pg_trim" then (none, p)
  else
  match env.exec (.ExecIntoPod podName
      ("echo \"CREATE EXTENSION pg_trgm\" | "
        ++ "/opt/rh/rh-postgresql96/root/usr/bin/psql -d "
        ++ p.quayConfiguration.QuayDatabase.Database) ""
      p.quayConfiguration.QuayEcosystem.Namespace) p with
  | ((success, _, stderr), p) =>
  if !success then (some (Errorf ("Failed to add pg_trim extension: " ++ stderr)), p)
  else
  match env.exec (.ExecIntoPod podName
      ("echo \"create database clair\" | "
        ++ "/opt/rh/rh-postgresql96/root/usr/bin/psql -d "
        ++ p.quayConfiguration.QuayDatabase.Database) ""
      p.quayConfiguration.QuayEcosystem.Namespace) p with
  | ((success, _, stderr), p) =>
  if !success then (some (Errorf ("Failed to create database clair: " ++ stderr)), p)
  else (none, p)

/-- Go `createQuayService`. -/
def createQuayService {σ : Type} (env : Orchestration σ) (meta : ObjectMeta) (p : Pass σ) :
    Option ClusterError × Pass σ :=
  let service := Object.built .Service "GetQuayServiceDefinition" meta
  match env.exec (.CreateResourceIfNotExists (some p.quayConfiguration.QuayEcosystem)
      p.quayConfiguration.QuayEcosystem.Namespace service) p with
  | (some err, p) => (some err, p)
  | (none, p) => (none, p)

/-- Go `createQuayConfigService`. -/
def createQuayConfigService {σ : Type} (env : Orchestration σ) (meta : ObjectMeta)
    (p : Pass σ) : Option ClusterError × Pass σ :=
  let service := Object.built .Service "GetQuayConfigServiceDefinition" meta
  match env.exec (.CreateResourceIfNotExists (some p.quayConfiguration.QuayEcosystem)
      p.quayConfiguration.QuayEcosystem.Namespace service) p with
  | (some err, p) => (some err, p)
  | (none, p) => (none, p)

/-- Go `createClairService`. -/
def createClairService {σ : Type} (env : Orchestration σ) (meta : ObjectMeta)
    (p : Pass σ) : Option ClusterError × Pass σ :=
  let service := Object.built .Service "GetClairServiceDefinition" meta
  match env.exec (.CreateResourceIfNotExists (some p.quayConfiguration.QuayEcosystem)
      p.quayConfiguration.QuayEcosystem.Namespace service) p with
  | (some err, p) => (some err, p)
  | (none, p) => (none, p)

/-- Go `createQuayRoute`. -/
def createQuayRoute {σ : Type} (env : Orchestration σ) (meta : ObjectMeta) (p : Pass σ) :
    Option ClusterError × Pass σ :=
  let meta : ObjectMeta :=
    { meta with Name := GetQuayResourcesName p.quayConfiguration.QuayEcosystem }
  let route := GetQuayRouteDefinition meta p.quayConfiguration.QuayEcosystem
  match env.exec (.CreateOrUpdateResource (some p.quayConfiguration.QuayEcosystem)
      p.quayConfiguration.QuayEcosystem.Namespace (.route route)) p with
  | (some err, p) => (some err, p)
  | (none, p) =>
  match env.exec (.Sleep (2 * Second)) p with
  | (_, p) =>
  match env.exec (.Get .Route meta.Name p.quayConfiguration.QuayEcosystem.Namespace) p with
  | ((_, some err), p) => (some err, p)
  | ((createdRoute, none), p) =>
  let quayHostname :=
    if IsZeroOfUnderlyingTypeString p.quayConfiguration.QuayEcosystem.Spec.Quay.RouteHost then
      createdRoute.Host
    else p.quayConfiguration.QuayEcosystem.Spec.Quay.RouteHost
  (none, { p with quayConfiguration := { p.quayConfiguration with
    QuayHostname := quayHostname
    QuayEcosystem := { p.quayConfiguration.QuayEcosystem with
      Status := { p.quayConfiguration.QuayEcosystem.Status with
        Hostname := quayHostname } } } })

/-- Go `createQuayConfigRoute`. -/
def createQuayConfigRoute {σ : Type} (env : Orchestration σ) (meta : ObjectMeta)
    (p : Pass σ) : Option ClusterError × Pass σ :=
  let route := GetQuayConfigRouteDefinition meta p.quayConfiguration.QuayEcosystem
  match env.exec (.CreateOrUpdateResource (some p.quayConfiguration.QuayEcosystem)
      p.quayConfiguration.QuayEcosystem.Namespace (.route route)) p with
  | (some err, p) => (some err, p)
  | (none, p) => (none, p)

/-- Go `createClairRoute`. -/
def createClairRoute {σ : Type} (env : Orchestration σ) (meta : ObjectMeta) (p : Pass σ) :
    Option ClusterError × Pass σ :=
  let meta : ObjectMeta :=
    { meta with Name := GetClairResourcesName p.quayConfiguration.QuayEcosystem }
  let route := GetClairRouteDefinition meta p.quayConfiguration.QuayEcosystem
  match env.exec (.CreateOrUpdateResource (some p.quayConfiguration.QuayEcosystem)
      p.quayConfiguration.QuayEcosystem.Namespace (.route route)) p with
  | (some err, p) => (some err, p)
  | (none, p) =>
  match env.exec (.Sleep (2 * Second)) p with
  | (_, p) =>
  match env.exec (.Get .Route meta.Name p.quayConfiguration.QuayEcosystem.Namespace) p with
  | ((_, some err), p) => (some err, p)
  | ((createdRoute, none), p) =>
  (none, { p with quayConfiguration := { p.quayConfiguration with
    ClairHostname := createdRoute.Host } })

/-- Go `quayRegistryStorage`: the loop over the backends of the spec. -/
def quayRegistryStorageLoop {σ : Type} (env : Orchestration σ) (meta : ObjectMeta) :
    List RegistryBackend → Pass σ → Option ClusterError × Pass σ
  | [], p => (none, p)
  | registryBackend :: more, p =>
    if !IsZeroOfUnderlyingTypePtr registryBackend.RegistryBackendSource.Local then
      let registryVolumeName := GetRegistryStorageVolumeName
        p.quayConfiguration.QuayEcosystem registryBackend.Name
      let meta : ObjectMeta := { meta with Name := registryVolumeName }
      let registryStoragePVC := Object.built .PersistentVolumeClaim
        "GetQuayPVCRegistryStorageDefinition" meta
      match env.exec (.CreateResourceIfNotExists (some p.quayConfiguration.QuayEcosystem)
          p.quayConfiguration.QuayEcosystem.Namespace registryStoragePVC) p with
      | (some err, p) => (some err, p)
      | (none, p) => quayRegistryStorageLoop env meta more p
    else quayRegistryStorageLoop env meta more p

/-- Go `quayRegistryStorage`. -/
def quayRegistryStorage {σ : Type} (env : Orchestration σ) (meta : ObjectMeta)
    (p : Pass σ) : Option ClusterError × Pass σ :=
  quayRegistryStorageLoop env meta
    p.quayConfiguration.QuayEcosystem.Spec.Quay.RegistryBackends p

/-- Go `CoreResourceDeployment`. -/
def CoreResourceDeployment {σ : Type} (P : ProvisioningConstants) (env : Orchestration σ)
    (metaObject : ObjectMeta) (p : Pass σ) : Returned × Pass σ :=
  match createQuayConfigSecret env metaObject p with
  | (some err, p) => ((none, some err), p)
  | (none, p) =>
  match createClairConfigSecret env metaObject p with
  | (some err, p) => ((none, some err), p)
  | (none, p) =>
  match createSecurityScannerKeySecret env metaObject p with
  | (some err, p) => ((none, some err), p)
  | (none, p) =>
  match createClairTrustCASecret env metaObject p with
  | (some err, p) => ((none, some err), p)
  | (none, p) =>
  match createRBAC env metaObject p with
  | (some err, p) => ((none, some err), p)
  | (none, p) =>
  match createServiceAccounts P env metaObject p with
  | (some err, p) => ((none, some err), p)
  | (none, p) =>
  match configureAnyUIDSCCs P env metaObject p with
  | (some err, p) => ((none, some err), p)
  | (none, p) =>
  -- Redis
  let redis : Option Returned × Pass σ :=
    if IsZeroOfUnderlyingTypeString p.quayConfiguration.QuayEcosystem.Spec.Redis.Hostname then
      match createRedisService env metaObject p with
      | (some err, p) => (some (none, some err), p)
      | (none, p) =>
      match redisDeployment env metaObject p with
      | ((redisDeploymentResult, some err), p) => (some (redisDeploymentResult, some err), p)
      | ((_, none), p) => (none, p)
    else (none, p)
  match redis with
  | (some returned, p) => (returned, p)
  | (none, p) =>
  -- Database (PostgreSQL/MySQL)
  let database : Option Returned × Pass σ :=
    if IsZeroOfUnderlyingTypeString
        p.quayConfiguration.QuayEcosystem.Spec.Quay.Database.Server then
      match createQuayDatabase P env metaObject p with
      | ((_, some err), p) => (some (none, some err), p)
      | ((some createDatabaseResult, none), p) => (some (some createDatabaseResult, none), p)
      | ((none, none), p) =>
      match configurePostgreSQL P env metaObject p with
      | (some err, p) => (some (none, some err), p)
      | (none, p) => (none, p)
    else (none, p)
  match database with
  | (some returned, p) => (returned, p)
  | (none, p) =>
  -- Quay Resources
  match createQuayService env metaObject p with
  | (some err, p) => ((none, some err), p)
  | (none, p) =>
  match createQuayConfigService env metaObject p with
  | (some err, p) => ((none, some err), p)
  | (none, p) =>
  match createClairService env metaObject p with
  | (some err, p) => ((none, some err), p)
  | (none, p) =>
  match createQuayRoute env metaObject p with
  | (some err, p) => ((none, some err), p)
  | (none, p) =>
  match createQuayConfigRoute env metaObject p with
  | (some err, p) => ((none, some err), p)
  | (none, p) =>
  match createClairRoute env metaObject p with
  | (some err, p) => ((none, some err), p)
  | (none, p) =>
  let storage : Option ClusterError × Pass σ :=
    if !IsZeroOfUnderlyingTypePtr
        p.quayConfiguration.QuayEcosystem.Spec.Quay.RegistryStorage then
      quayRegistryStorage env metaObject p
    else (none, p)
  match storage with
  | (some err, p) => ((none, some err), p)
  | (none, p) => ((none, none), p)

/-- Go `quayDeployment`. -/
def quayDeployment {σ : Type} (env : Orchestration σ) (meta : ObjectMeta) (p : Pass σ) :
    Option ClusterError × Pass σ :=
  let quayDeployment := Object.built .Deployment "GetQuayDeploymentDefinition" meta
  match env.exec (.CreateOrUpdateResource (some p.quayConfiguration.QuayEcosystem)
      p.quayConfiguration.QuayEcosystem.Namespace quayDeployment) p with
  | (some err, p) => (some err, p)
  | (none, p) => (none, p)

/-- Go `quayConfigDeployment`. -/
def quayConfigDeployment {σ : Type} (P : ProvisioningConstants) (env : Orchestration σ)
    (meta : ObjectMeta) (p : Pass σ) : Option ClusterError × Pass σ :=
  let secret : Option ClusterError × Pass σ :=
    if !p.quayConfiguration.ValidProvidedQuayConfigPasswordSecret then
      let quayConfigSecret := GetSecretDefinitionFromCredentialsMap
        (GetQuayConfigResourcesName p.quayConfiguration.QuayEcosystem) meta
        P.DefaultQuayConfigCredentials
      env.exec (.CreateOrUpdateResource (some p.quayConfiguration.QuayEcosystem)
        p.quayConfiguration.QuayEcosystem.Namespace quayConfigSecret) p
    else (none, p)
  match secret with
  | (some err, p) => (some err, p)
  | (none, p) =>
  let quayDeployment := Object.built .Deployment "GetQuayConfigDeploymentDefinition" meta
  match env.exec (.CreateOrUpdateResource (some p.quayConfiguration.QuayEcosystem)
      p.quayConfiguration.QuayEcosystem.Namespace quayDeployment) p with
  | (some err, p) => (some err, p)
  | (none, p) => (none, p)

/-- Go `clairDeployment`. -/
def clairDeployment {σ : Type} (env : Orchestration σ) (meta : ObjectMeta) (p : Pass σ) :
    Option ClusterError × Pass σ :=
  let clairDeployment := Object.built .Deployment "GetClairDeploymentDefinition" meta
  match env.exec (.CreateOrUpdateResource (some p.quayConfiguration.QuayEcosystem)
      p.quayConfiguration.QuayEcosystem.Namespace clairDeployment) p with
  | (some err, p) => (some err, p)
  | (none, p) => (none, p)

/-- Go `DeployClair`. -/
def DeployClair {σ : Type} (env : Orchestration σ) (metaObject : ObjectMeta) (p : Pass σ) :
    Returned × Pass σ :=
  match clairDeployment env metaObject p with
  | (some err, p) => ((none, some err), p)
  | (none, p) =>
  match env.exec (.Sleep (2 * Second)) p with
  | (_, p) =>
  let deploymentName := GetClairResourcesName p.quayConfiguration.QuayEcosystem
  verifyDeployment env deploymentName p.quayConfiguration.QuayEcosystem.Namespace p

/-- Go `DeployQuayConfiguration`. -/
def DeployQuayConfiguration {σ : Type} (P : ProvisioningConstants) (env : Orchestration σ)
    (metaObject : ObjectMeta) (p : Pass σ) : Returned × Pass σ :=
  match quayConfigDeployment P env metaObject p with
  | (some err, p) => ((none, some err), p)
  | (none, p) =>
  match env.exec (.Sleep (2 * Second)) p with
  | (_, p) =>
  let deploymentName := GetQuayConfigResourcesName p.quayConfiguration.QuayEcosystem
  verifyDeployment env deploymentName p.quayConfiguration.QuayEcosystem.Namespace p

/-- Go `DeployQuay`. -/
def DeployQuay {σ : Type} (env : Orchestration σ) (metaObject : ObjectMeta) (p : Pass σ) :
    Returned × Pass σ :=
  match quayDeployment env metaObject p with
  | (some err, p) => ((none, some err), p)
  | (none, p) =>
  if !p.quayConfiguration.QuayEcosystem.Spec.Quay.SkipSetup then
    match env.exec (.Sleep (2 * Second)) p with
    | (_, p) =>
    let deploymentName := GetQuayResourcesName p.quayConfiguration.QuayEcosystem
    verifyDeployment env deploymentName p.quayConfiguration.QuayEcosystem.Namespace p
  else ((some { Requeue := false, RequeueAfter := 0 }, none), p)

/-- A pass that starts from a context and a cluster state with an empty log. -/
def startPass {σ : Type} (quayConfiguration : QuayConfiguration) (s : σ) : Pass σ :=
  { quayConfiguration := quayConfiguration, cluster := s, log := [] }

/-! ## `CoreResourceDeployment` as a list of phases -/

/-- One guarded step of a pass: `none` lets the pass go on, `some r` makes it
return `r`. -/
abbrev Phase (σ : Type) := Pass σ → Option Returned × Pass σ

/-- A step with the result `error`, guarded by
`if err != nil \x7b return nil, err \x7d`. -/
def errorPhase {σ : Type} (step : Pass σ → Option ClusterError × Pass σ) : Phase σ :=
  fun p =>
    match step p with
    | (some err, p) => (some (none, some err), p)
    | (none, p) => (none, p)

/-- The block "Redis" of `CoreResourceDeployment`. -/
def redisPhase {σ : Type} (env : Orchestration σ) (metaObject : ObjectMeta) : Phase σ :=
  fun p =>
    if IsZeroOfUnderlyingTypeString p.quayConfiguration.QuayEcosystem.Spec.Redis.Hostname then
      match createRedisService env metaObject p with
      | (some err, p) => (some (none, some err), p)
      | (none, p) =>
      match redisDeployment env metaObject p with
      | ((redisDeploymentResult, some err), p) => (some (redisDeploymentResult, some err), p)
      | ((_, none), p) => (none, p)
    else (none, p)

/-- The block "Database" of `CoreResourceDeployment`. -/
def databasePhase {σ : Type} (P : ProvisioningConstants) (env : Orchestration σ)
    (metaObject : ObjectMeta) : Phase σ :=
  fun p =>
    if IsZeroOfUnderlyingTypeString
        p.quayConfiguration.QuayEcosystem.Spec.Quay.Database.Server then
      match createQuayDatabase P env metaObject p with
      | ((_, some err), p) => (some (none, some err), p)
      | ((some createDatabaseResult, none), p) => (some (some createDatabaseResult, none), p)
      | ((none, none), p) =>
      match configurePostgreSQL P env metaObject p with
      | (some err, p) => (some (none, some err), p)
      | (none, p) => (none, p)
    else (none, p)

/-- The last block of `CoreResourceDeployment`: the storage volumes. -/
def storagePhase {σ : Type} (env : Orchestration σ) (metaObject : ObjectMeta) : Phase σ :=
  fun p =>
    if !IsZeroOfUnderlyingTypePtr
        p.quayConfiguration.QuayEcosystem.Spec.Quay.RegistryStorage then
      errorPhase (quayRegistryStorage env metaObject) p
    else (none, p)

/-- Run phases in order until one returns. -/
def runPhases {σ : Type} : List (Phase σ) → Pass σ → Returned × Pass σ
  | [], p => ((none, none), p)
  | phase :: more, p =>
    match phase p with
    | (some returned, p) => (returned, p)
    | (none, p) => runPhases more p

/-- The pass after the first `k` phases, when none of them returned. -/
def advance {σ : Type} : List (Phase σ) → Nat → Pass σ → Option (Pass σ)
  | _, 0, p => some p
  | [], _ + 1, _ => none
  | phase :: more, k + 1, p =>
    match phase p with
    | (some _, _) => none
    | (none, p) => advance more k p

/-- The sixteen phases of `CoreResourceDeployment`, in source order. -/
def corePhases {σ : Type} (P : ProvisioningConstants) (env : Orchestration σ)
    (metaObject : ObjectMeta) : List (Phase σ) :=
  [ errorPhase (createQuayConfigSecret env metaObject),
    errorPhase (createClairConfigSecret env metaObject),
    errorPhase (createSecurityScannerKeySecret env metaObject),
    errorPhase (createClairTrustCASecret env metaObject),
    errorPhase (createRBAC env metaObject),
    errorPhase (createServiceAccounts P env metaObject),
    errorPhase (configureAnyUIDSCCs P env metaObject),
    redisPhase env metaObject,
    databasePhase P env metaObject,
    errorPhase (createQuayService env metaObject),
    errorPhase (createQuayConfigService env metaObject),
    errorPhase (createClairService env metaObject),
    errorPhase (createQuayRoute env metaObject),
    errorPhase (createQuayConfigRoute env metaObject),
    errorPhase (createClairRoute env metaObject),
    storagePhase env metaObject ]

/-- What a secret step does with the secret `name`, by the answer of the
lookup: on no error it returns `nil` after the lookup alone; on an error other
than not-found it returns that error after the lookup alone; on not-found it
issues, after the lookup, one `CreateResourceIfNotExists` of a secret with that
name, the namespace of the metadata and no data, and returns what that call
returns. -/
def CreatesEmptySecretIfAbsent {σ : Type} (env : Orchestration σ) (meta : ObjectMeta)
    (name : String) (step : Pass σ → Option ClusterError × Pass σ) : Prop :=
  ∀ (p : Pass σ) (found : Secret) (e : Option ClusterError) (s1 : σ),
    env (.Get .Secret name p.quayConfiguration.QuayEcosystem.Namespace) p.cluster =
      ((found, e), s1) →
    (e = none → step p = (none, { p with cluster := s1, log := p.log ++
      [⟨.Get .Secret name p.quayConfiguration.QuayEcosystem.Namespace, (found, none)⟩] })) ∧
    (∀ err, e = some err → err.NotFound = false →
      step p = (some err, { p with cluster := s1, log := p.log ++
        [⟨.Get .Secret name p.quayConfiguration.QuayEcosystem.Namespace,
          (found, some err)⟩] })) ∧
    (∀ err, e = some err → err.NotFound = true → ∀ r s2,
      env (.CreateResourceIfNotExists (some p.quayConfiguration.QuayEcosystem)
        p.quayConfiguration.QuayEcosystem.Namespace
        (.secret { Name := name, Namespace := meta.Namespace, Data := none })) s1 = (r, s2) →
      step p = (r, { p with cluster := s2, log := p.log ++
        [⟨.Get .Secret name p.quayConfiguration.QuayEcosystem.Namespace, (found, some err)⟩,
         ⟨.CreateResourceIfNotExists (some p.quayConfiguration.QuayEcosystem)
            p.quayConfiguration.QuayEcosystem.Namespace
            (.secret { Name := name, Namespace := meta.Namespace, Data := none }), r⟩] }))

/-! ## What a pass may issue -/

/-- The operations the orchestrator issues in a pass for a stack with the spec
`spec`, step by step as the source writes them; the managed cache and the
managed database operations only when the spec names no external one, and the
operations of `configurePostgreSQL` only where `bootstrap` holds. -/
inductive Emitted (spec : QuayEcosystemSpec) (bootstrap : Prop) : ClusterOp → Prop
  | get (kind : Kind) (name ns : String) : Emitted spec bootstrap (.Get kind name ns)
  | watch (ns name : String) : Emitted spec bootstrap (.GetDeploymentStatus ns name)
  | pause : Emitted spec bootstrap (.Sleep (2 * Second))
  | emptySecret (o : Option QuayEcosystem) (ns : String) (m : ObjectMeta) :
    Emitted spec bootstrap (.CreateResourceIfNotExists o ns (.secret (GetSecretDefinition m)))
  | role (o : Option QuayEcosystem) (ns : String) (m : ObjectMeta) :
    Emitted spec bootstrap (.CreateOrUpdateResource o ns (.built .Role "GetRoleDefinition" m))
  | roleBinding (o : Option QuayEcosystem) (ns : String) (m : ObjectMeta) :
    Emitted spec bootstrap
      (.CreateOrUpdateResource o ns (.built .RoleBinding "GetRoleBindingDefinition" m))
  | serviceAccount (o : Option QuayEcosystem) (ns : String) (m : ObjectMeta) :
    Emitted spec bootstrap
      (.CreateOrUpdateResource o ns (.built .ServiceAccount "GetServiceAccountDefinition" m))
  | allowList (ns : String) (d : SecurityContextConstraints) :
    Emitted spec bootstrap (.CreateOrUpdateResource none ns (.securityContextConstraints d))
  | redisService (h : IsZeroOfUnderlyingTypeString spec.Redis.Hostname = true)
    (o : Option QuayEcosystem) (ns : String) (m : ObjectMeta) :
    Emitted spec bootstrap
      (.CreateResourceIfNotExists o ns (.built .Service "GetRedisServiceDefinition" m))
  | redisDeployment (h : IsZeroOfUnderlyingTypeString spec.Redis.Hostname = true)
    (o : Option QuayEcosystem) (ns : String) (m : ObjectMeta) :
    Emitted spec bootstrap
      (.CreateResourceIfNotExists o ns (.built .Deployment "GetRedisDeploymentDefinition" m))
  | databaseSecret (h : IsZeroOfUnderlyingTypeString spec.Quay.Database.Server = true)
    (o : Option QuayEcosystem) (ns : String) (m : ObjectMeta)
    (stringData : List (String × String)) :
    Emitted spec bootstrap (.CreateResourceIfNotExists o ns (.credentialsSecret m stringData))
  | databaseVolume (h : IsZeroOfUnderlyingTypeString spec.Quay.Database.Server = true)
    (o : Option QuayEcosystem) (ns : String) (m : ObjectMeta) :
    Emitted spec bootstrap
      (.CreateResourceIfNotExists o ns
        (.built .PersistentVolumeClaim "GetDatabasePVCDefinition" m))
  | databaseService (h : IsZeroOfUnderlyingTypeString spec.Quay.Database.Server = true)
    (o : Option QuayEcosystem) (ns : String) (m : ObjectMeta) :
    Emitted spec bootstrap
      (.CreateResourceIfNotExists o ns
        (.built .Service "GetDatabaseServiceResourceDefinition" m))
  | databaseDeployment (h : IsZeroOfUnderlyingTypeString spec.Quay.Database.Server = true)
    (o : Option QuayEcosystem) (ns : String) (m : ObjectMeta) :
    Emitted spec bootstrap
      (.CreateResourceIfNotExists o ns
        (.built .Deployment "GetDatabaseDeploymentDefinition" m))
  | listPods (h : IsZeroOfUnderlyingTypeString spec.Quay.Database.Server = true)
    (hb : bootstrap) (labelSelector ns : String) : Emitted spec bootstrap (.ListPods labelSelector ns)
  | execIntoPod (h : IsZeroOfUnderlyingTypeString spec.Quay.Database.Server = true)
    (hb : bootstrap) (podName command containerName ns : String) :
    Emitted spec bootstrap (.ExecIntoPod podName command containerName ns)
  | quayService (o : Option QuayEcosystem) (ns : String) (m : ObjectMeta) :
    Emitted spec bootstrap
      (.CreateResourceIfNotExists o ns (.built .Service "GetQuayServiceDefinition" m))
  | quayConfigService (o : Option QuayEcosystem) (ns : String) (m : ObjectMeta) :
    Emitted spec bootstrap
      (.CreateResourceIfNotExists o ns (.built .Service "GetQuayConfigServiceDefinition" m))
  | clairService (o : Option QuayEcosystem) (ns : String) (m : ObjectMeta) :
    Emitted spec bootstrap
      (.CreateResourceIfNotExists o ns (.built .Service "GetClairServiceDefinition" m))
  | route (o : Option QuayEcosystem) (ns : String) (r : Route) :
    Emitted spec bootstrap (.CreateOrUpdateResource o ns (.route r))
  | registryVolume (o : Option QuayEcosystem) (ns : String) (m : ObjectMeta) :
    Emitted spec bootstrap
      (.CreateResourceIfNotExists o ns
        (.built .PersistentVolumeClaim "GetQuayPVCRegistryStorageDefinition" m))
  | configSecret (o : Option QuayEcosystem) (ns : String) (m : ObjectMeta)
    (stringData : List (String × String)) :
    Emitted spec bootstrap (.CreateOrUpdateResource o ns (.credentialsSecret m stringData))
  | quayDeployment (o : Option QuayEcosystem) (ns : String) (m : ObjectMeta) :
    Emitted spec bootstrap
      (.CreateOrUpdateResource o ns (.built .Deployment "GetQuayDeploymentDefinition" m))
  | quayConfigDeployment (o : Option QuayEcosystem) (ns : String) (m : ObjectMeta) :
    Emitted spec bootstrap
      (.CreateOrUpdateResource o ns
        (.built .Deployment "GetQuayConfigDeploymentDefinition" m))
  | clairDeployment (o : Option QuayEcosystem) (ns : String) (m : ObjectMeta) :
    Emitted spec bootstrap
      (.CreateOrUpdateResource o ns (.built .Deployment "GetClairDeploymentDefinition" m))

/-- The pass `q` continues the pass `p`: the stack spec is the one of `p`, and
the log of `q` is the log of `p` followed by exchanges whose operations are all
`Emitted` for that spec. -/
def Run {σ : Type} (bootstrap : Prop) (p q : Pass σ) : Prop :=
  q.quayConfiguration.QuayEcosystem.Spec = p.quayConfiguration.QuayEcosystem.Spec ∧
  ∃ exchanges : List OpExchange, q.log = p.log ++ exchanges ∧
    ∀ e ∈ exchanges, Emitted p.quayConfiguration.QuayEcosystem.Spec bootstrap e.op

/-! ## Classes of operations -/

/-- Whether an operation converges an object of the managed cache: its service
or its workload. -/
def ClusterOp.convergesCache : ClusterOp → Bool
  | .CreateResourceIfNotExists _ _ (.built _ builder _) =>
    builder == "GetRedisServiceDefinition" || builder == "GetRedisDeploymentDefinition"
  | .CreateOrUpdateResource _ _ (.built _ builder _) =>
    builder == "GetRedisServiceDefinition" || builder == "GetRedisDeploymentDefinition"
  | _ => false

/-- Whether an operation converges an object of the managed database: its
credentials secret, its volume claim, its service or its workload. -/
def ClusterOp.convergesDatabase : ClusterOp → Bool
  | .CreateResourceIfNotExists _ _ (.credentialsSecret _ _) => true
  | .CreateResourceIfNotExists _ _ (.built _ builder _) =>
    builder == "GetDatabasePVCDefinition"
      || builder == "GetDatabaseServiceResourceDefinition"
      || builder == "GetDatabaseDeploymentDefinition"
  | .CreateOrUpdateResource _ _ (.built _ builder _) =>
    builder == "GetDatabasePVCDefinition"
      || builder == "GetDatabaseServiceResourceDefinition"
      || builder == "GetDatabaseDeploymentDefinition"
  | _ => false

/-- Whether an operation belongs to the database-extension bootstrap: listing
the database pods or running a command in one. -/
def ClusterOp.bootstraps : ClusterOp → Bool
  | .ListPods _ _ => true
  | .ExecIntoPod _ _ _ _ => true
  | _ => false

/-- Whether an operation is a pause of the calling pass. -/
def ClusterOp.pauses : ClusterOp → Bool
  | .Sleep _ => true
  | _ => false

/-- Whether an operation is a convergence call. -/
def ClusterOp.converges : ClusterOp → Bool
  | .CreateResourceIfNotExists _ _ _ => true
  | .CreateOrUpdateResource _ _ _ => true
  | _ => false

/-- The call with which the orchestrator writes each kind of object: roles,
role bindings, service accounts, routes and the security context constraints
with `CreateOrUpdateResource`; services, volume claims and the empty secrets
with `CreateResourceIfNotExists`; of the workloads, those of the registry, of
its configuration UI and of the scanner with `CreateOrUpdateResource` and those
of the cache and of the database with `CreateResourceIfNotExists`; a
credentials secret with either.  Operations that write nothing follow the
table. -/
def ClusterOp.followsTable : ClusterOp → Bool
  | .CreateOrUpdateResource _ _ obj =>
    match obj with
    | .built .Role _ _ => true
    | .built .RoleBinding _ _ => true
    | .built .ServiceAccount _ _ => true
    | .route _ => true
    | .securityContextConstraints _ => true
    | .credentialsSecret _ _ => true
    | .built .Deployment builder _ =>
      builder == "GetQuayDeploymentDefinition"
        || builder == "GetQuayConfigDeploymentDefinition"
        || builder == "GetClairDeploymentDefinition"
    | _ => false
  | .CreateResourceIfNotExists _ _ obj =>
    match obj with
    | .secret _ => true
    | .credentialsSecret _ _ => true
    | .built .Service _ _ => true
    | .built .PersistentVolumeClaim _ _ => true
    | .built .Deployment builder _ =>
      builder == "GetRedisDeploymentDefinition"
        || builder == "GetDatabaseDeploymentDefinition"
    | _ => false
  | _ => true

/-! ## Sample clusters for the orchestrator -/

/-- The constants the orchestrator reads, with sample values. -/
def sampleProvisioning : ProvisioningConstants where
  QuayServiceAccount := "quay"
  RedisServiceAccount := "redis"
  AnyUIDSCC := "anyuid"
  LabelCompoentKey := "quay-enterprise-component"
  LabelComponentQuayDatabaseValue := "quay-database"
  PostgresqlName := "postgresql"
  PostgreSQLPort := 5432
  DefaultQuayDatabaseCredentials :=
    [("database-username", "quay"), ("database-password", "quay"),
     ("database-name", "quay")]
  DatabaseCredentialsUsernameKey := "database-username"
  DatabaseCredentialsPasswordKey := "database-password"
  DatabaseCredentialsDatabaseKey := "database-name"
  DefaultQuayConfigCredentials := [("config-app-password", "quay")]

/-- The metadata of the sample stack that every step receives. -/
def sampleMeta : ObjectMeta :=
  { Name := "example", Namespace := "registry" }

/-- The answers of a sample cluster: whether the objects looked up exist, the
available replicas of every deployment, what the deployment watch reports, the
database pods, the output of every remote command, the allow list and the host
of every route. -/
structure Answers where
  exists_ : Bool
  availableReplicas : Int
  scaled : Bool
  pods : List String
  stdout : String
  users : List String
  routeHost : String

/-- The error of a lookup on the sample cluster: none when the objects exist,
else not-found. -/
def Answers.lookupError (a : Answers) : Option ClusterError :=
  if a.exists_ then none else some { Message := "not found", NotFound := true }

/-- A cluster that gives the same answers whatever its state: deployments,
routes and the allow list always exist, every write and every remote command
succeeds. -/
def answering (a : Answers) : Orchestration Unit
  | .Get .Secret name ns, s =>
    (({ Name := name, Namespace := ns, Data := none }, a.lookupError), s)
  | .Get .ServiceAccount _ _, s => (((), a.lookupError), s)
  | .Get .Role _ _, s => (((), a.lookupError), s)
  | .Get .RoleBinding _ _, s => (((), a.lookupError), s)
  | .Get .Service _ _, s => (((), a.lookupError), s)
  | .Get .PersistentVolumeClaim _ _, s => (((), a.lookupError), s)
  | .Get .Deployment _ _, s => (({ AvailableReplicas := a.availableReplicas }, none), s)
  | .Get .Route name ns, s =>
    (({ ObjectMeta := { Name := name, Namespace := ns }, ToKind := "Service", ToName := name,
        TargetPort := 8443, TLS := none, Host := a.routeHost }, none), s)
  | .Get .SecurityContextConstraints _ _, s => (({ Users := a.users }, none), s)
  | .ListPods _ _, s => ((a.pods, none), s)
  | .CreateResourceIfNotExists _ _ _, s => (none, s)
  | .CreateOrUpdateResource _ _ _, s => (none, s)
  | .ExecIntoPod _ _ _ _, s => ((true, a.stdout, ""), s)
  | .GetDeploymentStatus _ _, s => (a.scaled, s)
  | .Sleep _, s => ((), s)

/-- A fresh cluster: nothing exists yet, no workload is available, the watch
gives up; the extension listing names `pg_trgm`. -/
def freshCluster : Answers where
  exists_ := false
  availableReplicas := 0
  scaled := false
  pods := ["example-quay-postgresql-1-abcde"]
  stdout := " pg_trgm | 1.3 | | text similarity measurement"
  users := ["system:serviceaccount:default:router"]
  routeHost := "example-quay-registry.apps.example.com"

/-- A converged cluster: everything exists and every workload has one
available replica. -/
def readyCluster : Answers :=
  { freshCluster with exists_ := true, availableReplicas := 1 }

/-- A cluster whose workloads have no available replica when read, and whose
watch then reports them scaled. -/
def scalingCluster : Answers :=
  { freshCluster with exists_ := true, availableReplicas := 0, scaled := true }

/-- The sample context with an external database server named in the spec. -/
def externalDatabaseConfiguration : QuayConfiguration :=
  { sampleConfiguration with
    QuayEcosystem := { sampleEcosystem with
      Spec := { sampleEcosystem.Spec with
        Quay := { sampleEcosystem.Spec.Quay with
          Database := { Server := "db.example.com", VolumeSize := "" } } } } }

/-- The error of a cluster that refuses a write. -/
def forbidden : ClusterError :=
  { Message := "forbidden", NotFound := false }

/-- A cluster that answers like `answering a` and refuses every write of an
object of the kind `kind`. -/
def refusing (kind : Kind) (a : Answers) : Orchestration Unit
  | .CreateResourceIfNotExists owner ns obj, s =>
    if obj.kind = kind then (some forbidden, s)
    else answering a (.CreateResourceIfNotExists owner ns obj) s
  | .CreateOrUpdateResource owner ns obj, s =>
    if obj.kind = kind then (some forbidden, s)
    else answering a (.CreateOrUpdateResource owner ns obj) s
  | op, s => answering a op s

/-! ## `pkg/controller/quayecosystem/setup/setup.go`: `PrepareForSetup` -/

/-- Go `(*QuaySetupManager).PrepareForSetup`: the error it returns and the
context it leaves.  The argument `kclient` is left out: the only block that
read from it is commented out in the source. -/
def PrepareForSetup (P : ProvisioningConstants) (quayConfiguration : QuayConfiguration) :
    GoError × QuayConfiguration :=
  let quayConfigHost := quayConfiguration.QuayEcosystem.Spec.Quay.ConfigRouteHost
  let quayConfigHost :=
    if IsZeroOfUnderlyingTypeString quayConfigHost then
      GetQuayConfigResourcesName quayConfiguration.QuayEcosystem
    else quayConfigHost
  let quayConfiguration := { quayConfiguration with QuayConfigHostname := quayConfigHost }
  let postgresqlHost := quayConfiguration.QuayEcosystem.Spec.Quay.Database.Server
  let postgresqlHost :=
    if IsZeroOfUnderlyingTypeString postgresqlHost then
      GetQuayDatabaseName P quayConfiguration.QuayEcosystem
    else postgresqlHost
  let quayConfiguration :=
    { quayConfiguration with
      QuayDatabase := { quayConfiguration.QuayDatabase with Server := postgresqlHost } }
  let redisHost := quayConfiguration.QuayEcosystem.Spec.Redis.Hostname
  let redisHost :=
    if IsZeroOfUnderlyingTypeString redisHost then
      GetRedisResourcesName quayConfiguration.QuayEcosystem
    else redisHost
  let quayConfiguration := { quayConfiguration with RedisHostname := redisHost }
  let quayConfiguration :=
    if IsZeroOfUnderlyingTypePtr quayConfiguration.QuayEcosystem.Spec.Redis.Port then
      { quayConfiguration with
        RedisPort := quayConfiguration.QuayEcosystem.Spec.Redis.Port }
    else quayConfiguration
  (none, quayConfiguration)

/-! ## Sample inputs for `PrepareForSetup` and the session -/

/-- The sample stack with the cache port 6380 set in its spec. -/
def portEcosystem : QuayEcosystem :=
  { sampleEcosystem with
    Spec := { sampleEcosystem.Spec with Redis := { Hostname := "", Port := some 6380 } } }

/-- The sample context for `portEcosystem`, its own cache port not yet set. -/
def portConfiguration : QuayConfiguration :=
  { sampleConfiguration with QuayEcosystem := portEcosystem }

/-- The create-superuser call and both uploads answer `status = false` with the
reason "rejected". -/
def statusRejected : (c : Call) → Option (c.Ret × GoError)
  | .CreateSuperuser _ => some (⟨false, "rejected"⟩, none)
  | .UploadFileResource _ _ => some (⟨false, "rejected"⟩, none)
  | _ => none

/-- The operations whose decoded response is a bare status and reason that
`SetupQuay` receives from the create-superuser call and the uploads. -/
def Call.statusOnly : Call → Bool
  | .CreateSuperuser _ => true
  | .UploadFileResource _ _ => true
  | _ => false

/-- Two registries answer alike up to the status and reason of the
create-superuser and upload responses: for every operation and state they move
to the same state and return the same error, and the same decoded value for
every other operation. -/
def SameUpToStatus {σ : Type} (cl1 cl2 : QuayClient σ) : Prop :=
  ∀ (c : Call) (s : σ), (cl1 c s).2 = (cl2 c s).2 ∧ (cl1 c s).1.2 = (cl2 c s).1.2 ∧
    (c.statusOnly = false → (cl1 c s).1.1 = (cl2 c s).1.1)

/-- Two worlds of a session that hold the same registry state after the same
operations with the same errors. -/
def SameCalls {σ : Type} (w1 w2 : World σ) : Prop :=
  w1.server = w2.server ∧ w1.log.map Exchange.call = w2.log.map Exchange.call ∧
    w1.log.map Exchange.err = w2.log.map Exchange.err

/-! ## `pkg/client`: the operations over HTTP

The session above sees the client as a function from operations to decoded
answers.  This section embeds `pkg/client/quay.go` itself: every operation
builds a request and hands it to `do`.  The packages `net/url`,
`encoding/json`, `mime/multipart` and `net/http` are not part of the
repository; what the client calls of them is collected in `Library`, and the
registry behind the `*http.Client` is a transition function whose exchanges
are recorded on the `Wire`.  The `*http.Client` itself is taken to be non-nil,
as `NewQuaySetupInstance` builds it. -/

namespace client

/-- Go `client.SecurityScannerKey`. -/
structure SecurityScannerKey where
  Kid : String
  Name : String
  PrivateKey : String
  PublicKey : String
  Service : String

/-- Go `client.QuayCreateSecurityScannerKeyRequest`; `Expiration` is an
`interface{}`. -/
structure QuayCreateSecurityScannerKeyRequest where
  Name : String
  Service : String
  Expiration : Value
  Notes : String

/-- Go `client.ConfigFileStatus`. -/
structure ConfigFileStatus where
  Exists : Bool

/-- A non-nil value passed to `newRequest` as `body interface{}`. -/
inductive Body where
  | stringValue (v : StringValue)
  | quayConfig (v : QuayConfig)
  | createSuperuser (v : QuayCreateSuperuserRequest)
  | createSecurityScannerKey (v : QuayCreateSecurityScannerKeyRequest)

/-- The dynamic type of the pointer passed to `do` as `v interface{}`. -/
inductive Target where
  | stringValue
  | quayConfig
  | registryStatus
  | quayStatusResponse
  | setupDatabaseResponse
  | securityScannerKey
  | configFileStatus
  deriving DecidableEq

/-- The type a target points to. -/
def Target.Result : Target → Type
  | .stringValue => StringValue
  | .quayConfig => QuayConfig
  | .registryStatus => RegistryStatus
  | .quayStatusResponse => QuayStatusResponse
  | .setupDatabaseResponse => SetupDatabaseResponse
  | .securityScannerKey => SecurityScannerKey
  | .configFileStatus => ConfigFileStatus

/-- The zero value of a target's type, as `var x T` declares it. -/
def Target.zero : (t : Target) → t.Result
  | .stringValue => ({ Value := [] } : StringValue)
  | .quayConfig => ({ Config := none } : QuayConfig)
  | .registryStatus => ({ Status := "" } : RegistryStatus)
  | .quayStatusResponse => ({ Status := false, Reason := "" } : QuayStatusResponse)
  | .setupDatabaseResponse => ({ Logs := [] } : SetupDatabaseResponse)
  | .securityScannerKey =>
    ({ Kid := "", Name := "", PrivateKey := "", PublicKey := "", Service := "" } :
      SecurityScannerKey)
  | .configFileStatus => ({ Exists := false } : ConfigFileStatus)

/-- The text behind a `*StringValue` target; no other target holds one. -/
def Target.text : (t : Target) → t.Result → Option Bytes
  | .stringValue, v => some (v : StringValue).Value
  | _, _ => none

/-- Go `http.Header`: a map from a name to its values. -/
abbrev Header := List (String × List String)

/-- Go `Header.Set`. -/
def Header.Set (h : Header) (key value : String) : Header :=
  mapSet h key [value]

/-- Go `Header.Add`. -/
def Header.Add (h : Header) (key value : String) : Header :=
  mapSet h key ((mapGet h key).getD [] ++ [value])

/-- Go `http.Request` as the client fills it: method, target, body and
headers. -/
structure Request where
  Method : String
  URL : String
  Body : Option Bytes
  Header : Header

/-- Go `http.Response` as the client reads it: the status code, the bytes its
body delivers and the error, if any, on which the reading of the body ends. -/
structure Response where
  StatusCode : Int
  Body : Bytes
  ReadError : GoError

/-- The library functions the client calls.

* `Parse` is `url.Parse`, the parsed URL kept as text, `none` when it fails;
* `ResolveReference base path` is the text of
  `base.ResolveReference(&url.URL{Path: path})`;
* `Encode` is `json.NewEncoder(buf).Encode`: the bytes written and the error;
* `NewRequest method url` is the error of `http.NewRequest`;
* `BasicAuth` is the credential text that `SetBasicAuth` writes after "Basic ";
* `CreateFormFile`, `FormData`, `Close` and `FormDataContentType` are the
  multipart writer: the error of opening the part, the finished body, the error
  of closing, and the content type;
* `Decode t v body readError` is `json.NewDecoder(body).Decode(v)` for a
  pointer `v` of type `t`: the value left behind the pointer and the error. -/
structure Library where
  Parse : String → Option String
  ResolveReference : String → String → String
  Encode : Body → Bytes × GoError
  NewRequest : String → String → GoError
  BasicAuth : String → String → String
  CreateFormFile : String → String → GoError
  FormData : String → String → Bytes → Bytes
  Close : String → String → Bytes → GoError
  FormDataContentType : String
  Decode : (t : Target) → t.Result → Bytes → GoError → t.Result × GoError

/-- Go `client.QuayClient`.  `BaseURL` is a pointer, `none` when it is `nil`;
`httpClient` is the `Do` method of the `*http.Client` over the state `σ` of
the registry: it answers a request with a response or with an error. -/
structure QuayClient (σ : Type) where
  BaseURL : Option String
  httpClient : Request → σ → Except String Response × σ
  Username : String
  Password : String

/-- One call of `httpClient.Do`: the request and what came back. -/
structure Roundtrip where
  request : Request
  result : Except String Response

/-- The registry's state and the exchanges made so far. -/
structure Wire (σ : Type) where
  server : σ
  log : List Roundtrip

/-- How a call ends: it returns, or the goroutine panics. -/
inductive Completion (α : Type) where
  | returned (a : α)
  | panicked (msg : String)

/-- The three results of an operation: the response, the decoded value and
the error. -/
structure Reply (α : Type) where
  resp : Option Response
  value : α
  err : GoError

/-- The message of a panic on a `nil` pointer. -/
def nilDereference : String :=
  "runtime error: invalid memory address or nil pointer dereference"

/-- Go `client.NewClient`; the error of `url.Parse` is dropped. -/
def NewClient {σ : Type} (L : Library)
    (httpClient : Request → σ → Except String Response × σ)
    (baseUrl username password : String) : QuayClient σ :=
  { httpClient := httpClient
    Username := username
    Password := password
    BaseURL := L.Parse baseUrl }

/-- Go `(*QuayClient).newRequest`: a request, an error, or a panic.
`ResolveReference` on a `nil` base panics, and so does `SetBasicAuth` on the
`nil` request that `http.NewRequest` returns beside an error. -/
def QuayClient.newRequest {σ : Type} (L : Library) (c : QuayClient σ)
    (method path : String) (body : Option Body) : Completion (Except String Request) :=
  match c.BaseURL with
  | none => .panicked nilDereference
  | some base =>
    let u := L.ResolveReference base path
    let buf : Option Bytes × GoError :=
      match body with
      | none => (none, none)
      | some b => (some (L.Encode b).1, (L.Encode b).2)
    match buf.2 with
    | some err => .returned (.error err)
    | none =>
      match L.NewRequest method u with
      | some _ => .panicked nilDereference
      | none =>
        let req : Request := { Method := method, URL := u, Body := buf.1, Header := [] }
        let req :=
          { req with
            Header := req.Header.Set "Authorization"
              ("Basic " ++ L.BasicAuth c.Username c.Password) }
        let req :=
          if body.isSome then
            { req with Header := req.Header.Set "Content-Type" "application/json" }
          else req
        let req := { req with Header := req.Header.Set "Accept" "application/json" }
        .returned (.ok req)

/-- Go `(*QuayClient).newFileUploadRequest`. -/
def QuayClient.newFileUploadRequest {σ : Type} (L : Library) (c : QuayClient σ)
    (method path fileName : String) (content : Bytes) :
    Completion (Except String Request) :=
  match c.BaseURL with
  | none => .panicked nilDereference
  | some base =>
    let u := L.ResolveReference base path
    match L.CreateFormFile "file" fileName with
    | some err => .returned (.error err)
    | none =>
      match L.Close "file" fileName content with
      | some err => .returned (.error err)
      | none =>
        let body := L.FormData "file" fileName content
        match L.NewRequest method u with
        | some _ => .panicked nilDereference
        | none =>
          let req : Request := { Method := method, URL := u, Body := some body, Header := [] }
          let req :=
            { req with
              Header := req.Header.Set "Authorization"
                ("Basic " ++ L.BasicAuth c.Username c.Password) }
          let req :=
            { req with Header := req.Header.Add "Content-Type" L.FormDataContentType }
          let req := { req with Header := req.Header.Add "Accept" "application/json" }
          .returned (.ok req)

/-- Go `(*QuayClient).do`: one call of `httpClient.Do`, then the body is read
whole into a `*StringValue` or decoded as JSON into any other target.  The
value behind the pointer `v` is returned beside the response and the error. -/
def QuayClient.do_ {σ : Type} (L : Library) (c : QuayClient σ) (req : Request)
    (t : Target) (v : t.Result) (w : Wire σ) : Reply t.Result × Wire σ :=
  let r := c.httpClient req w.server
  let w1 : Wire σ := { server := r.2, log := w.log ++ [{ request := req, result := r.1 }] }
  match r.1 with
  | .error err => ({ resp := none, value := v, err := some err }, w1)
  | .ok resp =>
    match t, v with
    | .stringValue, v =>
      match resp.ReadError with
      | some err => ({ resp := none, value := v, err := some err }, w1)
      | none =>
        ({ resp := some resp, value := ({ Value := resp.Body } : StringValue), err := none },
          w1)
    | t, v =>
      let d := L.Decode t v resp.Body resp.ReadError
      ({ resp := some resp, value := d.1, err := d.2 }, w1)

/-- Go `(*QuayClient).InitializationConfiguration`. -/
def QuayClient.InitializationConfiguration {σ : Type} (L : Library) (c : QuayClient σ)
    (w : Wire σ) : Completion (Reply StringValue) × Wire σ :=
  match c.newRequest L "POST" "/api/v1/configapp/initialization"
      (some (.stringValue { Value := [] })) with
  | .panicked msg => (.panicked msg, w)
  | .returned (.error err) =>
    (.returned { resp := none, value := { Value := [] }, err := some err }, w)
  | .returned (.ok req) =>
    let initializationResponse : StringValue := { Value := [] }
    let r := c.do_ L req .stringValue initializationResponse w
    (.returned r.1, r.2)

/-- Go `(*QuayClient).GetQuayConfiguration`. -/
def QuayClient.GetQuayConfiguration {σ : Type} (L : Library) (c : QuayClient σ)
    (w : Wire σ) : Completion (Reply QuayConfig) × Wire σ :=
  match c.newRequest L "GET" "/api/v1/superuser/config" none with
  | .panicked msg => (.panicked msg, w)
  | .returned (.error err) =>
    (.returned { resp := none, value := { Config := none }, err := some err }, w)
  | .returned (.ok req) =>
    let quayConfig : QuayConfig := { Config := none }
    let r := c.do_ L req .quayConfig quayConfig w
    (.returned r.1, r.2)

/-- Go `(*QuayClient).UpdateQuayConfiguration`. -/
def QuayClient.UpdateQuayConfiguration {σ : Type} (L : Library) (c : QuayClient σ)
    (config : QuayConfig) (w : Wire σ) : Completion (Reply QuayConfig) × Wire σ :=
  match c.newRequest L "PUT" "/api/v1/superuser/config" (some (.quayConfig config)) with
  | .panicked msg => (.panicked msg, w)
  | .returned (.error err) =>
    (.returned { resp := none, value := { Config := none }, err := some err }, w)
  | .returned (.ok req) =>
    let quayConfig : QuayConfig := { Config := none }
    let r := c.do_ L req .quayConfig quayConfig w
    (.returned r.1, r.2)

/-- Go `(*QuayClient).GetRegistryStatus`. -/
def QuayClient.GetRegistryStatus {σ : Type} (L : Library) (c : QuayClient σ)
    (w : Wire σ) : Completion (Reply RegistryStatus) × Wire σ :=
  match c.newRequest L "GET" "/api/v1/superuser/registrystatus" none with
  | .panicked msg => (.panicked msg, w)
  | .returned (.error err) =>
    (.returned { resp := none, value := { Status := "" }, err := some err }, w)
  | .returned (.ok req) =>
    let registryStatus : RegistryStatus := { Status := "" }
    let r := c.do_ L req .registryStatus registryStatus w
    (.returned r.1, r.2)

/-- Go `(*QuayClient).ValidateDatabase`. -/
def QuayClient.ValidateDatabase {σ : Type} (L : Library) (c : QuayClient σ)
    (config : QuayConfig) (w : Wire σ) : Completion (Reply QuayStatusResponse) × Wire σ :=
  match c.newRequest L "POST" "/api/v1/superuser/config/validate/database"
      (some (.quayConfig config)) with
  | .panicked msg => (.panicked msg, w)
  | .returned (.error err) =>
    (.returned { resp := none, value := { Status := false, Reason := "" }, err := some err }, w)
  | .returned (.ok req) =>
    let quayStatusResponse : QuayStatusResponse := { Status := false, Reason := "" }
    let r := c.do_ L req .quayStatusResponse quayStatusResponse w
    (.returned r.1, r.2)

/-- Go `(*QuayClient).ValidateComponent`. -/
def QuayClient.ValidateComponent {σ : Type} (L : Library) (c : QuayClient σ)
    (config : QuayConfig) (validationType : QuayValidationType) (w : Wire σ) :
    Completion (Reply QuayStatusResponse) × Wire σ :=
  match c.newRequest L "POST" ("/api/v1/superuser/config/validate/" ++ validationType)
      (some (.quayConfig config)) with
  | .panicked msg => (.panicked msg, w)
  | .returned (.error err) =>
    (.returned { resp := none, value := { Status := false, Reason := "" }, err := some err }, w)
  | .returned (.ok req) =>
    let quayStatusResponse : QuayStatusResponse := { Status := false, Reason := "" }
    let r := c.do_ L req .quayStatusResponse quayStatusResponse w
    (.returned r.1, r.2)

/-- Go `(*QuayClient).ValidateRedis`. -/
def QuayClient.ValidateRedis {σ : Type} (L : Library) (c : QuayClient σ)
    (config : QuayConfig) (w : Wire σ) : Completion (Reply QuayStatusResponse) × Wire σ :=
  match c.newRequest L "POST" "/api/v1/superuser/config/validate/redis"
      (some (.quayConfig config)) with
  | .panicked msg => (.panicked msg, w)
  | .returned (.error err) =>
    (.returned { resp := none, value := { Status := false, Reason := "" }, err := some err }, w)
  | .returned (.ok req) =>
    let quayStatusResponse : QuayStatusResponse := { Status := false, Reason := "" }
    let r := c.do_ L req .quayStatusResponse quayStatusResponse w
    (.returned r.1, r.2)

/-- Go `(*QuayClient).SetupDatabase`. -/
def QuayClient.SetupDatabase {σ : Type} (L : Library) (c : QuayClient σ)
    (w : Wire σ) : Completion (Reply SetupDatabaseResponse) × Wire σ :=
  match c.newRequest L "GET" "/api/v1/superuser/setupdb" none with
  | .panicked msg => (.panicked msg, w)
  | .returned (.error err) =>
    (.returned { resp := none, value := { Logs := [] }, err := some err }, w)
  | .returned (.ok req) =>
    let setupDatabaseResponse : SetupDatabaseResponse := { Logs := [] }
    let r := c.do_ L req .setupDatabaseResponse setupDatabaseResponse w
    (.returned r.1, r.2)

/-- Go `(*QuayClient).CreateSuperuser`. -/
def QuayClient.CreateSuperuser {σ : Type} (L : Library) (c : QuayClient σ)
    (config : QuayCreateSuperuserRequest) (w : Wire σ) :
    Completion (Reply QuayStatusResponse) × Wire σ :=
  match c.newRequest L "POST" "/api/v1/superuser/config/createsuperuser"
      (some (.createSuperuser config)) with
  | .panicked msg => (.panicked msg, w)
  | .returned (.error err) =>
    (.returned { resp := none, value := { Status := false, Reason := "" }, err := some err }, w)
  | .returned (.ok req) =>
    let quayStatusResponse : QuayStatusResponse := { Status := false, Reason := "" }
    let r := c.do_ L req .quayStatusResponse quayStatusResponse w
    (.returned r.1, r.2)

/-- Go `(*QuayClient).CreateSecurityScannerKey`. -/
def QuayClient.CreateSecurityScannerKey {σ : Type} (L : Library) (c : QuayClient σ)
    (config : QuayCreateSecurityScannerKeyRequest) (w : Wire σ) :
    Completion (Reply SecurityScannerKey) × Wire σ :=
  match c.newRequest L "POST" "/api/v1/superuser/keys"
      (some (.createSecurityScannerKey config)) with
  | .panicked msg => (.panicked msg, w)
  | .returned (.error err) =>
    (.returned { resp := none, value := Target.zero .securityScannerKey, err := some err }, w)
  | .returned (.ok req) =>
    let securityScannerKey : SecurityScannerKey := Target.zero .securityScannerKey
    let r := c.do_ L req .securityScannerKey securityScannerKey w
    (.returned r.1, r.2)

/-- Go `(*QuayClient).CompleteSetup`. -/
def QuayClient.CompleteSetup {σ : Type} (L : Library) (c : QuayClient σ)
    (w : Wire σ) : Completion (Reply StringValue) × Wire σ :=
  match c.newRequest L "POST" "/api/v1/kubernetes/config"
      (some (.stringValue { Value := [] })) with
  | .panicked msg => (.panicked msg, w)
  | .returned (.error err) =>
    (.returned { resp := none, value := { Value := [] }, err := some err }, w)
  | .returned (.ok req) =>
    let setupResponse : StringValue := { Value := [] }
    let r := c.do_ L req .stringValue setupResponse w
    (.returned r.1, r.2)

/-- Go `(*QuayClient).GetConfigFileStatus`. -/
def QuayClient.GetConfigFileStatus {σ : Type} (L : Library) (c : QuayClient σ)
    (fileName : String) (w : Wire σ) : Completion (Reply ConfigFileStatus) × Wire σ :=
  match c.newRequest L "GET" ("/api/v1/superuser/config/file/" ++ fileName) none with
  | .panicked msg => (.panicked msg, w)
  | .returned (.error err) =>
    (.returned { resp := none, value := { Exists := false }, err := some err }, w)
  | .returned (.ok req) =>
    let configFileStatus : ConfigFileStatus := { Exists := false }
    let r := c.do_ L req .configFileStatus configFileStatus w
    (.returned r.1, r.2)

/-- Go `(*QuayClient).UploadFileResource`. -/
def QuayClient.UploadFileResource {σ : Type} (L : Library) (c : QuayClient σ)
    (fileName : String) (content : Bytes) (w : Wire σ) :
    Completion (Reply QuayStatusResponse) × Wire σ :=
  match c.newFileUploadRequest L "POST" ("/api/v1/superuser/config/file/" ++ fileName)
      fileName content with
  | .panicked msg => (.panicked msg, w)
  | .returned (.error err) =>
    (.returned { resp := none, value := { Status := false, Reason := "" }, err := some err }, w)
  | .returned (.ok req) =>
    let quayStatusResponse : QuayStatusResponse := { Status := false, Reason := "" }
    let r := c.do_ L req .quayStatusResponse quayStatusResponse w
    (.returned r.1, r.2)

/-- The public operations of `QuayClient` with their arguments. -/
inductive Operation where
  | InitializationConfiguration
  | GetQuayConfiguration
  | UpdateQuayConfiguration (config : QuayConfig)
  | GetRegistryStatus
  | ValidateDatabase (config : QuayConfig)
  | ValidateComponent (config : QuayConfig) (validationType : QuayValidationType)
  | ValidateRedis (config : QuayConfig)
  | SetupDatabase
  | CreateSuperuser (config : QuayCreateSuperuserRequest)
  | CreateSecurityScannerKey (config : QuayCreateSecurityScannerKeyRequest)
  | CompleteSetup
  | GetConfigFileStatus (fileName : String)
  | UploadFileResource (fileName : String) (content : Bytes)

/-- The target an operation hands to `do`: a pointer to its result variable. -/
def Operation.target : Operation → Target
  | .InitializationConfiguration => .stringValue
  | .GetQuayConfiguration => .quayConfig
  | .UpdateQuayConfiguration _ => .quayConfig
  | .GetRegistryStatus => .registryStatus
  | .ValidateDatabase _ => .quayStatusResponse
  | .ValidateComponent _ _ => .quayStatusResponse
  | .ValidateRedis _ => .quayStatusResponse
  | .SetupDatabase => .setupDatabaseResponse
  | .CreateSuperuser _ => .quayStatusResponse
  | .CreateSecurityScannerKey _ => .securityScannerKey
  | .CompleteSetup => .stringValue
  | .GetConfigFileStatus _ => .configFileStatus
  | .UploadFileResource _ _ => .quayStatusResponse

/-- Invoke an operation. -/
def Operation.perform {σ : Type} (L : Library) (c : QuayClient σ) :
    (op : Operation) → Wire σ → Completion (Reply op.target.Result) × Wire σ
  | .InitializationConfiguration => c.InitializationConfiguration L
  | .GetQuayConfiguration => c.GetQuayConfiguration L
  | .UpdateQuayConfiguration config => c.UpdateQuayConfiguration L config
  | .GetRegistryStatus => c.GetRegistryStatus L
  | .ValidateDatabase config => c.ValidateDatabase L config
  | .ValidateComponent config validationType => c.ValidateComponent L config validationType
  | .ValidateRedis config => c.ValidateRedis L config
  | .SetupDatabase => c.SetupDatabase L
  | .CreateSuperuser config => c.CreateSuperuser L config
  | .CreateSecurityScannerKey config => c.CreateSecurityScannerKey L config
  | .CompleteSetup => c.CompleteSetup L
  | .GetConfigFileStatus fileName => c.GetConfigFileStatus L fileName
  | .UploadFileResource fileName content => c.UploadFileResource L fileName content

/-- The first statement of an operation: the call that builds its request. -/
def Operation.request {σ : Type} (L : Library) (c : QuayClient σ) :
    Operation → Completion (Except String Request)
  | .InitializationConfiguration =>
    c.newRequest L "POST" "/api/v1/configapp/initialization"
      (some (.stringValue { Value := [] }))
  | .GetQuayConfiguration => c.newRequest L "GET" "/api/v1/superuser/config" none
  | .UpdateQuayConfiguration config =>
    c.newRequest L "PUT" "/api/v1/superuser/config" (some (.quayConfig config))
  | .GetRegistryStatus => c.newRequest L "GET" "/api/v1/superuser/registrystatus" none
  | .ValidateDatabase config =>
    c.newRequest L "POST" "/api/v1/superuser/config/validate/database"
      (some (.quayConfig config))
  | .ValidateComponent config validationType =>
    c.newRequest L "POST" ("/api/v1/superuser/config/validate/" ++ validationType)
      (some (.quayConfig config))
  | .ValidateRedis config =>
    c.newRequest L "POST" "/api/v1/superuser/config/validate/redis"
      (some (.quayConfig config))
  | .SetupDatabase => c.newRequest L "GET" "/api/v1/superuser/setupdb" none
  | .CreateSuperuser config =>
    c.newRequest L "POST" "/api/v1/superuser/config/createsuperuser"
      (some (.createSuperuser config))
  | .CreateSecurityScannerKey config =>
    c.newRequest L "POST" "/api/v1/superuser/keys" (some (.createSecurityScannerKey config))
  | .CompleteSetup =>
    c.newRequest L "POST" "/api/v1/kubernetes/config" (some (.stringValue { Value := [] }))
  | .GetConfigFileStatus fileName =>
    c.newRequest L "GET" ("/api/v1/superuser/config/file/" ++ fileName) none
  | .UploadFileResource fileName content =>
    c.newFileUploadRequest L "POST" ("/api/v1/superuser/config/file/" ++ fileName)
      fileName content

/-- Modelled from the spec: the method the table of the HTTP surface lists for
an operation. -/
def Operation.tableMethod : Operation → String
  | .InitializationConfiguration => "POST"
  | .GetQuayConfiguration => "GET"
  | .UpdateQuayConfiguration _ => "PUT"
  | .GetRegistryStatus => "GET"
  | .ValidateDatabase _ => "POST"
  | .ValidateComponent _ _ => "POST"
  | .ValidateRedis _ => "POST"
  | .SetupDatabase => "GET"
  | .CreateSuperuser _ => "POST"
  | .CreateSecurityScannerKey _ => "POST"
  | .CompleteSetup => "POST"
  | .GetConfigFileStatus _ => "GET"
  | .UploadFileResource _ _ => "POST"

/-- Modelled from the spec: the path the table of the HTTP surface lists for
an operation, its placeholder filled with the operation's argument. -/
def Operation.tablePath : Operation → String
  | .InitializationConfiguration => "/configapp/initialization"
  | .GetQuayConfiguration => "/superuser/config"
  | .UpdateQuayConfiguration _ => "/superuser/config"
  | .GetRegistryStatus => "/superuser/registrystatus"
  | .ValidateDatabase _ => "/superuser/config/validate/database"
  | .ValidateComponent _ validationType => "/superuser/config/validate/" ++ validationType
  | .ValidateRedis _ => "/superuser/config/validate/redis"
  | .SetupDatabase => "/superuser/setupdb"
  | .CreateSuperuser _ => "/superuser/config/createsuperuser"
  | .CreateSecurityScannerKey _ => "/superuser/keys"
  | .CompleteSetup => "/kubernetes/config"
  | .GetConfigFileStatus fileName => "/superuser/config/file/" ++ fileName
  | .UploadFileResource fileName _ => "/superuser/config/file/" ++ fileName

/-! ### A sample client -/

/-- A stand-in for the libraries: a reference is resolved by appending its
path to a base that has none, and every request can be built.  The decoder
stands for the stream decoder of `encoding/json` on the bodies of the samples:
it knows one JSON value, the empty object; a body that opens with `{}` is
decoded from these two bytes, which set no field of the target, and the bytes
after them are not read; every other body is rejected with
"invalid character". -/
def sampleLibrary : Library where
  Parse baseUrl := some baseUrl
  ResolveReference base path := base ++ path
  Encode _ := ([123, 125, 10], none)
  NewRequest _ _ := none
  BasicAuth username password := username ++ ":" ++ password
  CreateFormFile _ _ := none
  FormData _ _ content := content
  Close _ _ _ := none
  FormDataContentType := "multipart/form-data"
  Decode _ v body readError :=
    match body, readError with
    | 123 :: 125 :: _, _ => (v, none)
    | _, _ => (v, some "invalid character")

/-- Status 200 with the body `ok`, two bytes that are not JSON. -/
def okResponse : Response :=
  { StatusCode := 200, Body := [111, 107], ReadError := none }

/-- A registry that counts the requests it has answered and answers each with
`okResponse`. -/
def sampleServer : Request → Nat → Except String Response × Nat :=
  fun _ n => (.ok okResponse, n + 1)

/-- Status 200 with the body `{}ok`: an empty JSON object followed by two
bytes, which as a whole is not valid JSON. -/
def trailingResponse : Response :=
  { StatusCode := 200, Body := [123, 125, 111, 107], ReadError := none }

/-- A registry that answers every request with `trailingResponse`. -/
def trailingServer : Request → Nat → Except String Response × Nat :=
  fun _ n => (.ok trailingResponse, n + 1)

/-- A registry that refuses every connection. -/
def refusingServer : Request → Nat → Except String Response × Nat :=
  fun _ n => (.error "connection refused", n + 1)

/-- The client `NewQuaySetupInstance` builds for the host
`example-quay-config`. -/
def sampleClient : QuayClient Nat :=
  NewClient sampleLibrary sampleServer "https://example-quay-config" "quayconfig" "quay"

/-- The sample client in front of the registry that answers `{}ok`. -/
def trailingClient : QuayClient Nat :=
  NewClient sampleLibrary trailingServer "https://example-quay-config" "quayconfig" "quay"

/-- The request `InitializationConfiguration` builds at the sample client. -/
def initializationRequest : Request :=
  { Method := "POST"
    URL := "https://example-quay-config/api/v1/configapp/initialization"
    Body := some [123, 125, 10]
    Header :=
      [("Accept", ["application/json"]), ("Content-Type", ["application/json"]),
        ("Authorization", ["Basic quayconfig:quay"])] }

/-- The request `GetRegistryStatus` builds at the sample client. -/
def statusRequest : Request :=
  { Method := "GET"
    URL := "https://example-quay-config/api/v1/superuser/registrystatus"
    Body := none
    Header := [("Accept", ["application/json"]), ("Authorization", ["Basic quayconfig:quay"])] }

end client

/-! ## The two convergence calls on an object store

`CreateOrUpdateResource` and `CreateResourceIfNotExists` are methods of the
reconciler base, a library that is not among the sources.  What they do to the
store is taken from the convergence engine of the spec. -/

/-- Modelled from the spec: how the store is addressed.  `place ns obj` is the
place of an object handed to a convergence call for the namespace `ns` (its
kind, namespace and name, which the manifest builders set); `locate` is the
place a lookup by kind, name and namespace reads; `view` is what a lookup fills
in from what it finds. -/
structure Places (ι : Type) where
  place : String → Object → ι
  locate : Kind → String → String → ι
  view : (kind : Kind) → Option Object → kind.Live

/-- Modelled from the spec: the store, the live object at each place. -/
abbrev Store (ι : Type) := ι → Option Object

/-- The store with `obj` at the place `k`. -/
def Store.put {ι : Type} [DecidableEq ι] (s : Store ι) (k : ι) (obj : Object) : Store ι :=
  fun k' => if k' = k then some obj else s k'

/-- Modelled from the spec: convergence in CreateOrUpdate mode ("absent →
create; present + CreateOrUpdate → overwrite and reconcile"). -/
def Store.createOrUpdate {ι : Type} [DecidableEq ι] (M : Places ι) (s : Store ι)
    (ns : String) (obj : Object) : Store ι :=
  Store.put s (M.place ns obj) obj

/-- Modelled from the spec: convergence in CreateIfAbsent mode ("absent →
create; present + CreateIfAbsent → success, no change"). -/
def Store.createIfNotExists {ι : Type} [DecidableEq ι] (M : Places ι) (s : Store ι)
    (ns : String) (obj : Object) : Store ι :=
  match s (M.place ns obj) with
  | some _ => s
  | none => Store.put s (M.place ns obj) obj

/-- The error of a lookup that finds nothing. -/
def notFound : ClusterError :=
  { Message := "not found", NotFound := true }

/-- Modelled from the spec: a cluster whose lookups read the store and whose
convergence calls act on it as their mode says; every other operation is
answered by `rest`. -/
def storeCluster {ι τ : Type} [DecidableEq ι] (M : Places ι) (rest : Orchestration τ) :
    Orchestration (Store ι × τ)
  | .Get kind name ns, (s, t) =>
    match s (M.locate kind name ns) with
    | some obj => ((M.view kind (some obj), none), (s, t))
    | none => ((M.view kind none, some notFound), (s, t))
  | .ListPods labelSelector ns, (s, t) =>
    ((rest (.ListPods labelSelector ns) t).1, (s, (rest (.ListPods labelSelector ns) t).2))
  | .CreateResourceIfNotExists _ ns obj, (s, t) =>
    (none, (Store.createIfNotExists M s ns obj, t))
  | .CreateOrUpdateResource _ ns obj, (s, t) =>
    (none, (Store.createOrUpdate M s ns obj, t))
  | .ExecIntoPod podName command containerName ns, (s, t) =>
    ((rest (.ExecIntoPod podName command containerName ns) t).1,
      (s, (rest (.ExecIntoPod podName command containerName ns) t).2))
  | .GetDeploymentStatus ns name, (s, t) =>
    ((rest (.GetDeploymentStatus ns name) t).1, (s, (rest (.GetDeploymentStatus ns name) t).2))
  | .Sleep duration, (s, t) =>
    ((rest (.Sleep duration) t).1, (s, (rest (.Sleep duration) t).2))

/-! ### A sample store -/

/-- The name under which the sample store keeps an object: the name of its
metadata, and for the workload of the cache the name `verifyDeployment` looks
it up by. -/
def Object.sampleName : Object → String
  | .secret definition => definition.Name
  | .credentialsSecret meta _ => meta.Name
  | .route definition => definition.ObjectMeta.Name
  | .securityContextConstraints _ => "anyuid"
  | .built _ builder meta =>
    if builder = "GetRedisDeploymentDefinition" then meta.Name ++ "-redis" else meta.Name

/-- What a lookup on the sample store fills in: the secret, route or allow
list found, and one available replica for a workload that exists. -/
def sampleView : (kind : Kind) → Option Object → kind.Live
  | .Secret, some (.secret definition) => definition
  | .Secret, _ => { Name := "", Namespace := "", Data := none }
  | .Deployment, some _ => { AvailableReplicas := 1 }
  | .Deployment, none => { AvailableReplicas := 0 }
  | .Route, some (.route definition) => definition
  | .Route, _ =>
    { ObjectMeta := { Name := "", Namespace := "" }, ToKind := "", ToName := "",
      TargetPort := 0, TLS := none, Host := "" }
  | .SecurityContextConstraints, some (.securityContextConstraints definition) => definition
  | .SecurityContextConstraints, _ => { Users := [] }
  | .ServiceAccount, _ => ()
  | .Role, _ => ()
  | .RoleBinding, _ => ()
  | .Service, _ => ()
  | .PersistentVolumeClaim, _ => ()

/-- The sample store keeps an object by kind, namespace and name. -/
def samplePlaces : Places (Kind × String × String) where
  place ns obj := (obj.kind, ns, obj.sampleName)
  locate kind name ns := (kind, ns, name)
  view := sampleView

/-- A service account `quay` that was edited by hand: it has the place of the
one the orchestrator builds and is another object. -/
def driftedServiceAccount : Object :=
  .built .ServiceAccount "edited by hand" { Name := "quay", Namespace := "registry" }

/-- A workload of the cache that was edited by hand. -/
def driftedRedisDeployment : Object :=
  .built .Deployment "edited by hand" { Name := "example-redis", Namespace := "registry" }

/-- A role that was edited by hand. -/
def driftedRole : Object :=
  .built .Role "edited by hand" { Name := "example", Namespace := "registry" }

/-- A store of the namespace `registry` that holds the three drifted objects
and nothing else. -/
def driftedStore : Store (Kind × String × String) :=
  fun k =>
    if k = (Kind.ServiceAccount, "registry", "quay") then some driftedServiceAccount
    else if k = (Kind.Deployment, "registry", "example-redis") then
      some driftedRedisDeployment
    else if k = (Kind.Role, "registry", "example") then some driftedRole
    else none

/-- The cluster of the drifted store; what is not a lookup or a convergence
call is answered like on the converged sample cluster. -/
def driftedCluster : Orchestration (Store (Kind × String × String) × Unit) :=
  storeCluster samplePlaces (answering readyCluster)

/-- The step issues the operation `op p` first, right after the log it starts
with, whatever the cluster holds or answers. -/
def IssuesFirst {σ α : Type} (step : Pass σ → α × Pass σ) (op : Pass σ → ClusterOp) : Prop :=
  ∀ p : Pass σ, ∃ (e : OpExchange) (rest : List OpExchange),
    (step p).2.log = p.log ++ e :: rest ∧ e.op = op p

/-- On every store, whatever it holds, the step leaves the object `obj q` at
its place. -/
def LeavesDesired {ι τ α : Type} [DecidableEq ι] (M : Places ι) (rest : Orchestration τ)
    (step : Orchestration (Store ι × τ) → Pass (Store ι × τ) → α × Pass (Store ι × τ))
    (obj : Pass (Store ι × τ) → Object) : Prop :=
  ∀ q : Pass (Store ι × τ),
    (step (storeCluster M rest) q).2.cluster.1
      (M.place q.quayConfiguration.QuayEcosystem.Namespace (obj q)) = some (obj q)
/-! ## Steps of a session -/

theorem exec_log {σ : Type} (cl : QuayClient σ) (c : Call) (w w' : World σ) (v : c.Ret)
    (e : GoError) (h : cl.exec c w = ((v, e), w')) :
    w'.log = w.log ++ [⟨c, v, e⟩] := by
  unfold QuayClient.exec at h
  simp only [Prod.mk.injEq] at h
  obtain ⟨h1, rfl⟩ := h
  simp [h1]

theorem take_script_base (K : Constants) (qc : QuayConfiguration)
    (b b' : List (String × Value)) (m : Nat) (hm : m ≤ 9) :
    (script K qc b).take m = (script K qc b').take m := by
  interval_cases m <;> rfl

theorem rereadConfig_append (log l : List Exchange) (h : 7 ≤ log.length) :
    rereadConfig (log ++ l) = rereadConfig log := by
  unfold rereadConfig
  rw [List.getElem?_append_left (by omega)]

theorem rereadConfig_short (log : List Exchange) (h : log.length ≤ 6) :
    rereadConfig log = none := by
  unfold rereadConfig
  rw [List.getElem?_eq_none (by omega)]

theorem Progress.rebase {K : Constants} {qc : QuayConfiguration} {b : List (String × Value)}
    {n : Nat} {log : List Exchange} (hp : Progress K qc b n log) (b' : List (String × Value))
    (hn : n ≤ 6) : Progress K qc b' n log where
  len := hp.len
  passed := hp.passed
  calls := by rw [hp.calls]; exact take_script_base K qc b b' n (by omega)
  base := fun h => by omega

theorem Progress.start (K : Constants) (qc : QuayConfiguration) (b : List (String × Value)) :
    Progress K qc b 0 [] where
  len := rfl
  passed := by simp
  calls := by simp
  base := fun h => by omega

theorem Progress.calls_snoc {K : Constants} {qc : QuayConfiguration}
    {b : List (String × Value)} {n : Nat} {log : List Exchange} (hp : Progress K qc b n log)
    (x : Exchange) (hx : (script K qc b)[n]? = some x.call) :
    (log ++ [x]).map Exchange.call = (script K qc b).take (n + 1) := by
  rw [List.map_append, hp.calls, List.take_succ, hx]
  rfl

theorem Progress.fail {K : Constants} {qc : QuayConfiguration} {b : List (String × Value)}
    {n : Nat} {log : List Exchange} (hp : Progress K qc b n log) (x : Exchange)
    (hx : (script K qc b)[n]? = some x.call) (hf : x.passed = false) :
    Session K qc (.returned (some (wrapError n x.failure))) (log ++ [x]) where
  outcome := by
    simp [outcomeOf, hf, hp.len]
  calls := by
    rw [hp.calls_snoc x hx, List.length_append, hp.len]
    by_cases h7 : 7 ≤ n
    · rw [rereadConfig_append _ _ (by rw [hp.len]; exact h7), hp.base h7]
      rfl
    · exact take_script_base K qc _ _ _ (by simp; omega)
  passed := by
    simpa using hp.passed
  nonempty := by simp
  stop := Or.inr (Or.inl ⟨x, by simp, hf⟩)
  base := fun h => by
    have h7 : 7 ≤ n := by simp [hp.len] at h; omega
    rw [rereadConfig_append _ _ (by rw [hp.len]; exact h7), hp.base h7]
    simp

theorem Progress.ok {K : Constants} {qc : QuayConfiguration} {b : List (String × Value)}
    {n : Nat} {log : List Exchange} (hp : Progress K qc b n log) (x : Exchange)
    (hx : (script K qc b)[n]? = some x.call) (hf : x.passed = true) (hn : n ≠ 6) :
    Progress K qc b (n + 1) (log ++ [x]) where
  len := by simp [hp.len]
  passed := by
    intro e he
    rcases List.mem_append.mp he with h | h
    · exact hp.passed e h
    · rw [List.mem_singleton.mp h]; exact hf
  calls := hp.calls_snoc x hx
  base := fun h => by
    have h7 : 7 ≤ n := by omega
    rw [rereadConfig_append _ _ (by rw [hp.len]; exact h7), hp.base h7]

theorem Progress.reread {K : Constants} {qc : QuayConfiguration} {b : List (String × Value)}
    {log : List Exchange} (hp : Progress K qc b 6 log) (v : QuayConfig)
    (b' : List (String × Value)) (hv : v.Config = some b') :
    Progress K qc b' 7 (log ++ [⟨.GetQuayConfiguration, v, none⟩]) where
  len := by simp [hp.len]
  passed := by
    intro e he
    rcases List.mem_append.mp he with h | h
    · exact hp.passed e h
    · rw [List.mem_singleton.mp h]; rfl
  calls := (hp.rebase b' (le_refl 6)).calls_snoc _ rfl
  base := fun _ => by
    unfold rereadConfig
    rw [List.getElem?_append_right (by rw [hp.len]), hp.len]
    simpa using hv

theorem Progress.nilMap {K : Constants} {qc : QuayConfiguration} {b : List (String × Value)}
    {log : List Exchange} (hp : Progress K qc b 6 log) (v : QuayConfig)
    (hv : v.Config = none) :
    Session K qc (.panicked "assignment to entry in nil map")
      (log ++ [⟨.GetQuayConfiguration, v, none⟩]) := by
  have hr : rereadConfig (log ++ [⟨.GetQuayConfiguration, v, none⟩]) = none := by
    unfold rereadConfig
    rw [List.getElem?_append_right (by rw [hp.len]), hp.len]
    simpa using hv
  exact {
    outcome := by simp [outcomeOf, Exchange.passed, hp.len]
    calls := by
      rw [hp.calls_snoc ⟨.GetQuayConfiguration, v, none⟩ rfl, List.length_append, hp.len]
      exact take_script_base K qc _ _ _ (by simp)
    passed := by simpa using hp.passed
    nonempty := by simp
    stop := Or.inr (Or.inr ⟨by simp [hp.len], hr⟩)
    base := fun h => by simp [hp.len] at h }

theorem Progress.done {K : Constants} {qc : QuayConfiguration} {b : List (String × Value)}
    {log : List Exchange} (hp : Progress K qc b 16 log) :
    Session K qc (.returned none) log := by
  have hne : log ≠ [] := by
    intro h; have := hp.len; rw [h] at this; simp at this
  obtain ⟨e, he⟩ : ∃ e, log.getLast? = some e := by
    cases h : log.getLast? with
    | none => exact absurd (List.getLast?_eq_none_iff.mp h) hne
    | some e => exact ⟨e, rfl⟩
  have hmem : e ∈ log := List.mem_of_getLast?_eq_some he
  exact {
    outcome := by simp [outcomeOf, he, hp.passed e hmem, hp.len]
    calls := by rw [hp.calls, hp.len, hp.base (by omega)]; rfl
    passed := fun x hx => hp.passed x (List.mem_of_mem_dropLast hx)
    nonempty := hne
    stop := Or.inl hp.len
    base := fun _ => by rw [hp.base (by omega)]; simp }

theorem validateComponent_step {σ : Type} {K : Constants} {qsi : QuaySetupInstance σ}
    {b : List (String × Value)} {n : Nat} {w : World σ}
    (hp : Progress K qsi.quayConfiguration b n w.log) (cfg : QuayConfig)
    (t : QuayValidationType) (hx : (script K qsi.quayConfiguration b)[n]? =
      some (.ValidateComponent cfg t)) (hn : n ≠ 6) :
    (∃ err, (validateComponent qsi cfg t w).1 = some err ∧
      Session K qsi.quayConfiguration (.returned (some (wrapError n err)))
        (validateComponent qsi cfg t w).2.log) ∨
    ((validateComponent qsi cfg t w).1 = none ∧
      Progress K qsi.quayConfiguration b (n + 1) (validateComponent qsi cfg t w).2.log) := by
  unfold validateComponent
  split
  · rename_i v err w' heq
    have hlog := exec_log _ _ _ _ _ _ heq
    refine Or.inl ⟨err, rfl, ?_⟩
    rw [show w'.log = w.log ++ [⟨.ValidateComponent cfg t, v, some err⟩] from hlog]
    exact hp.fail ⟨.ValidateComponent cfg t, v, some err⟩ hx rfl
  · rename_i v w' heq
    have hlog := exec_log _ _ _ _ _ _ heq
    cases hs : v.Status with
    | false =>
      refine Or.inl ⟨t ++ " Validation Failed: " ++ v.Reason, by simp [hs], ?_⟩
      simp only [hs, Bool.not_false, if_true]
      rw [show w'.log = w.log ++ [⟨.ValidateComponent cfg t, v, none⟩] from hlog]
      exact hp.fail ⟨.ValidateComponent cfg t, v, none⟩ hx (by simp [Exchange.passed, hs])
    | true =>
      refine Or.inr ⟨by simp [hs], ?_⟩
      simp only [hs, Bool.not_true, Bool.false_eq_true, if_false]
      rw [show w'.log = w.log ++ [⟨.ValidateComponent cfg t, v, none⟩] from hlog]
      exact hp.ok ⟨.ValidateComponent cfg t, v, none⟩ hx (by simp [Exchange.passed, hs]) hn

theorem validateComponents_step {σ : Type} {K : Constants} {qsi : QuaySetupInstance σ}
    {b : List (String × Value)} (cfg : QuayConfig) (ts : List QuayValidationType) :
    ∀ (n : Nat) (w : World σ) (rest : List Call),
      Progress K qsi.quayConfiguration b n w.log →
      9 ≤ n → n + ts.length ≤ 14 →
      (script K qsi.quayConfiguration b).drop n =
        ts.map (Call.ValidateComponent cfg) ++ rest →
      (∃ err, (validateComponents qsi cfg ts w).1 = some err ∧
        Session K qsi.quayConfiguration (.returned (some err))
          (validateComponents qsi cfg ts w).2.log) ∨
      ((validateComponents qsi cfg ts w).1 = none ∧
        Progress K qsi.quayConfiguration b (n + ts.length)
          (validateComponents qsi cfg ts w).2.log) := by
  induction ts with
  | nil =>
    intro n w rest hp _ _ _
    exact Or.inr ⟨rfl, hp⟩
  | cons t ts ih =>
    intro n w rest hp h9 h14 hs
    simp only [List.length_cons] at h14
    have hx : (script K qsi.quayConfiguration b)[n]? = some (.ValidateComponent cfg t) := by
      have h0 := congrArg (fun l => l[0]?) hs
      simp only [List.map_cons, List.cons_append, List.getElem?_cons_zero,
        List.getElem?_drop, Nat.add_zero] at h0
      exact h0
    have htl : (script K qsi.quayConfiguration b).drop (n + 1) =
        ts.map (Call.ValidateComponent cfg) ++ rest := by
      have h1 := congrArg List.tail hs
      simp only [List.map_cons, List.cons_append, List.tail_cons, List.tail_drop] at h1
      exact h1
    unfold validateComponents
    rcases validateComponent_step hp cfg t hx (by omega) with ⟨err, he, hsess⟩ | ⟨he, hp'⟩
    · rcases hv : validateComponent qsi cfg t w with ⟨r, w'⟩
      rw [hv] at he hsess
      simp only at he hsess
      subst he
      refine Or.inl ⟨"Failed to Validate Component: " ++ err, rfl, ?_⟩
      have hw : wrapError n err = "Failed to Validate Component: " ++ err := by
        unfold wrapError
        simp [show ¬ n = 3 by omega, show ¬ n = 4 by omega, show ¬ n = 5 by omega,
          show ¬ n = 6 by omega, show ¬ n = 7 by omega, h9, show n ≤ 13 by omega]
      rw [hw] at hsess
      exact hsess
    · rcases hv : validateComponent qsi cfg t w with ⟨r, w'⟩
      rw [hv] at he hp'
      simp only at he hp'
      subst he
      have := ih (n + 1) w' rest hp' (by omega) (by omega) htl
      simpa [Nat.add_assoc, Nat.add_comm 1] using this

theorem exec_fail {σ : Type} {K : Constants} {qc : QuayConfiguration}
    {b : List (String × Value)} {n : Nat} {cl : QuayClient σ} {c : Call} {w w' : World σ}
    {v : c.Ret} {err : String} (hp : Progress K qc b n w.log)
    (heq : cl.exec c w = ((v, some err), w')) (hx : (script K qc b)[n]? = some c) :
    SessionOf K qc (.returned (some (wrapError n err)), w') := by
  unfold SessionOf
  rw [show w'.log = w.log ++ [⟨c, v, some err⟩] from exec_log _ _ _ _ _ _ heq]
  have hf : (⟨c, v, some err⟩ : Exchange).passed = false := by cases c <;> rfl
  have hm : (⟨c, v, some err⟩ : Exchange).failure = err := by cases c <;> rfl
  have := hp.fail ⟨c, v, some err⟩ hx hf
  rw [hm] at this
  exact this

theorem exec_ok {σ : Type} {K : Constants} {qc : QuayConfiguration}
    {b : List (String × Value)} {n : Nat} {cl : QuayClient σ} {c : Call} {w w' : World σ}
    {v : c.Ret} (hp : Progress K qc b n w.log)
    (heq : cl.exec c w = ((v, none), w')) (hx : (script K qc b)[n]? = some c)
    (hpass : (⟨c, v, none⟩ : Exchange).passed = true) (hn : n ≠ 6) :
    Progress K qc b (n + 1) w'.log := by
  rw [show w'.log = w.log ++ [⟨c, v, none⟩] from exec_log _ _ _ _ _ _ heq]
  exact hp.ok ⟨c, v, none⟩ hx hpass hn

theorem validate_fail {σ : Type} {K : Constants} {qsi : QuaySetupInstance σ}
    {b : List (String × Value)} {n : Nat} {w w' : World σ} {cfg : QuayConfig}
    {t : QuayValidationType} {err : String}
    (hp : Progress K qsi.quayConfiguration b n w.log)
    (heq : validateComponent qsi cfg t w = (some err, w'))
    (hx : (script K qsi.quayConfiguration b)[n]? = some (.ValidateComponent cfg t))
    (hn : n ≠ 6) :
    SessionOf K qsi.quayConfiguration (.returned (some (wrapError n err)), w') := by
  rcases validateComponent_step hp cfg t hx hn with ⟨e, he, hs⟩ | ⟨he, _⟩
  · rw [heq] at he hs
    cases he
    exact hs
  · rw [heq] at he
    cases he

theorem validate_ok {σ : Type} {K : Constants} {qsi : QuaySetupInstance σ}
    {b : List (String × Value)} {n : Nat} {w w' : World σ} {cfg : QuayConfig}
    {t : QuayValidationType}
    (hp : Progress K qsi.quayConfiguration b n w.log)
    (heq : validateComponent qsi cfg t w = (none, w'))
    (hx : (script K qsi.quayConfiguration b)[n]? = some (.ValidateComponent cfg t))
    (hn : n ≠ 6) :
    Progress K qsi.quayConfiguration b (n + 1) w'.log := by
  rcases validateComponent_step hp cfg t hx hn with ⟨e, he, _⟩ | ⟨_, hp'⟩
  · rw [heq] at he
    cases he
  · rw [heq] at hp'
    exact hp'

theorem loop_fail {σ : Type} {K : Constants} {qsi : QuaySetupInstance σ}
    {b : List (String × Value)} {w w' : World σ} {cfg : QuayConfig}
    {ts : List QuayValidationType} {err : String} (rest : List Call)
    (hp : Progress K qsi.quayConfiguration b 9 w.log)
    (heq : validateComponents qsi cfg ts w = (some err, w'))
    (hlen : 9 + ts.length ≤ 14)
    (hx : (script K qsi.quayConfiguration b).drop 9 =
      ts.map (Call.ValidateComponent cfg) ++ rest) :
    SessionOf K qsi.quayConfiguration (.returned (some err), w') := by
  rcases validateComponents_step cfg ts 9 w rest hp (le_refl 9) hlen hx with
    ⟨e, he, hs⟩ | ⟨he, _⟩
  · rw [heq] at he hs
    cases he
    exact hs
  · rw [heq] at he
    cases he

theorem loop_ok {σ : Type} {K : Constants} {qsi : QuaySetupInstance σ}
    {b : List (String × Value)} {w w' : World σ} {cfg : QuayConfig}
    {ts : List QuayValidationType} (rest : List Call)
    (hp : Progress K qsi.quayConfiguration b 9 w.log)
    (heq : validateComponents qsi cfg ts w = (none, w'))
    (hlen : 9 + ts.length ≤ 14)
    (hx : (script K qsi.quayConfiguration b).drop 9 =
      ts.map (Call.ValidateComponent cfg) ++ rest) :
    Progress K qsi.quayConfiguration b (9 + ts.length) w'.log := by
  rcases validateComponents_step cfg ts 9 w rest hp (le_refl 9) hlen hx with
    ⟨e, he, _⟩ | ⟨_, hp'⟩
  · rw [heq] at he
    cases he
  · rw [heq] at hp'
    exact hp'

theorem SetupQuay_session {σ : Type} (K : Constants) (qsi : QuaySetupInstance σ) (s : σ) :
    SessionOf K qsi.quayConfiguration (runSetupQuay K qsi s) := by
  have hp0 : Progress K qsi.quayConfiguration [] 0 (World.mk s []).log :=
    Progress.start K qsi.quayConfiguration []
  unfold runSetupQuay SetupQuay
  simp only [assign]
  split
  · rename_i v err w' heq
    exact exec_fail hp0 heq rfl
  rename_i v0 w1 heq
  have hp1 := exec_ok hp0 heq rfl rfl (by decide)
  clear heq hp0
  split
  · rename_i v err w' heq
    exact exec_fail hp1 heq rfl
  rename_i v1 w2 heq
  have hp2 := exec_ok hp1 heq rfl rfl (by decide)
  clear heq hp1
  split
  · rename_i err w' heq
    exact validate_fail hp2 heq rfl (by decide)
  rename_i w3 heq
  have hp3 := validate_ok hp2 heq rfl (by decide)
  clear heq hp2
  split
  · rename_i v err w' heq
    exact exec_fail hp3 heq rfl
  rename_i v3 w4 heq
  have hp4 := exec_ok hp3 heq rfl rfl (by decide)
  clear heq hp3
  split
  · rename_i v err w' heq
    exact exec_fail hp4 heq rfl
  rename_i v4 w5 heq
  have hp5 := exec_ok hp4 heq rfl rfl (by decide)
  clear heq hp4
  split
  · rename_i v err w' heq
    exact exec_fail hp5 heq rfl
  rename_i v5 w6 heq
  have hp6 := exec_ok hp5 heq rfl rfl (by decide)
  clear heq hp5
  split
  · rename_i v err w' heq
    exact exec_fail hp6 heq rfl
  rename_i v6 w7 heq
  have hlog7 := exec_log _ _ _ _ _ _ heq
  clear heq
  split
  · rename_i hcfg
    unfold SessionOf
    rw [hlog7]
    exact hp6.nilMap v6 hcfg
  rename_i m hcfg
  have hp7 : Progress K qsi.quayConfiguration m 7 w7.log := by
    rw [hlog7]
    exact hp6.reread v6 m hcfg
  clear hlog7 hp6
  split
  · rename_i v err w' heq
    exact exec_fail hp7 heq rfl
  rename_i v7 w8 heq
  have hp8 := exec_ok hp7 heq rfl rfl (by decide)
  clear heq hp7
  split
  · rename_i v err w' heq
    exact exec_fail hp8 heq rfl
  rename_i v8 w9 heq
  have hp9 := exec_ok hp8 heq rfl rfl (by decide)
  clear heq hp8
  split
  · rename_i err w' heq
    exact loop_fail _ hp9 heq (by decide) rfl
  rename_i w14 heq
  have hp14 := loop_ok _ hp9 heq (by decide) rfl
  clear heq hp9
  split
  · rename_i v err w' heq
    exact exec_fail hp14 heq rfl
  rename_i v14 w15 heq
  have hp15 := exec_ok hp14 heq rfl rfl (by decide)
  clear heq hp14
  split
  · rename_i v err w' heq
    exact exec_fail hp15 heq rfl
  rename_i v15 w16 heq
  have hp16 := exec_ok hp15 heq rfl rfl (by decide)
  exact hp16.done


/-! ## What a finished session tells about its log -/

theorem Contains.rfl (s : String) : Contains s s :=
  List.infix_refl _

theorem Contains.after (a : String) {s r : String} (h : Contains s r) :
    Contains (a ++ s) r := by
  unfold Contains at *
  rw [String.data_append]
  exact h.trans (List.suffix_append _ _).isInfix

theorem contains_wrapError (i : Nat) (e : String) : Contains (wrapError i e) e := by
  unfold wrapError
  repeat' split
  all_goals first
    | exact Contains.rfl e
    | exact Contains.after _ (Contains.rfl e)

theorem Exchange.failure_of_err (x : Exchange) (e : String) (h : x.err = some e) :
    x.failure = e := by
  obtain ⟨c, v, err⟩ := x
  simp only at h
  subst h
  cases c <;> rfl

theorem Exchange.passed_of_err (x : Exchange) (e : String) (h : x.err = some e) :
    x.passed = false := by
  obtain ⟨c, v, err⟩ := x
  simp only at h
  subst h
  cases c <;> rfl

theorem Session.call_at {K : Constants} {qc : QuayConfiguration} {o : Outcome}
    {log : List Exchange} (h : Session K qc o log) {i : Nat} {x : Exchange}
    (hx : log[i]? = some x) :
    (script K qc ((rereadConfig log).getD []))[i]? = some x.call := by
  have hi : i < log.length := by
    by_contra hc
    rw [List.getElem?_eq_none (by omega)] at hx
    cases hx
  have h1 : (log.map Exchange.call)[i]? = some x.call := by
    rw [List.getElem?_map, hx]
    rfl
  rw [h.calls, List.getElem?_take_of_lt hi] at h1
  exact h1

theorem Session.stops_at {K : Constants} {qc : QuayConfiguration} {o : Outcome}
    {log : List Exchange} (h : Session K qc o log) {i : Nat} {x : Exchange}
    (hx : log[i]? = some x) (hf : x.passed = false) :
    log.length = i + 1 ∧ o = .returned (some (wrapError i x.failure)) := by
  have hi : i < log.length := by
    by_contra hc
    rw [List.getElem?_eq_none (by omega)] at hx
    cases hx
  have hlast : log.length = i + 1 := by
    by_contra hc
    have hlt : i < log.length - 1 := by omega
    have hmem : x ∈ log.dropLast := by
      rw [List.dropLast_eq_take]
      apply List.getElem?_mem (n := i)
      rw [List.getElem?_take_of_lt hlt]
      exact hx
    have := h.passed x hmem
    rw [hf] at this
    cases this
  refine ⟨hlast, ?_⟩
  have hgl : log.getLast? = some x := by
    rw [List.getLast?_eq_getElem?, hlast]
    simpa using hx
  rw [h.outcome]
  unfold outcomeOf
  rw [hgl]
  simp [hf, hlast]

theorem Session.passed_before {K : Constants} {qc : QuayConfiguration} {o : Outcome}
    {log : List Exchange} (h : Session K qc o log) {i : Nat} {x : Exchange}
    (hx : log[i]? = some x) (hi : i + 1 < log.length) : x.passed = true := by
  apply h.passed
  rw [List.dropLast_eq_take]
  apply List.getElem?_mem (n := i)
  rw [List.getElem?_take_of_lt (by omega)]
  exact hx


/-! ## Claims about `SetupQuay` -/

/-- C1: when the status probe and the initialize call succeed and the database
validation answers `status = false` with reason `r`, `SetupQuay` returns an
error whose message contains `r`, and its log ends with that validation: three
exchanges, none of them a create-superuser or a file upload. -/
theorem SetupQuay_database_validation_failed {σ : Type} (K : Constants)
    (qsi : QuaySetupInstance σ) (s s1 s2 s3 : σ) (v0 : RegistryStatus) (v1 : StringValue)
    (r : String)
    (h0 : qsi.setupClient .GetRegistryStatus s = ((v0, none), s1))
    (h1 : qsi.setupClient .InitializationConfiguration s1 = ((v1, none), s2))
    (h2 : qsi.setupClient (.ValidateComponent
        { Config := some (databaseDocument qsi.quayConfiguration) } DatabaseValidation) s2 =
      (({ Status := false, Reason := r }, none), s3)) :
    (∃ msg, (runSetupQuay K qsi s).1 = .returned (some msg) ∧ Contains msg r) ∧
    (runSetupQuay K qsi s).2.log =
      [⟨.GetRegistryStatus, v0, none⟩, ⟨.InitializationConfiguration, v1, none⟩,
       ⟨.ValidateComponent { Config := some (databaseDocument qsi.quayConfiguration) }
          DatabaseValidation, { Status := false, Reason := r }, none⟩] ∧
    (∀ e ∈ (runSetupQuay K qsi s).2.log,
      (∀ req, e.call ≠ .CreateSuperuser req) ∧
      (∀ name content, e.call ≠ .UploadFileResource name content)) := by
  have hrun : runSetupQuay K qsi s =
      (.returned (some (DatabaseValidation ++ " Validation Failed: " ++ r)),
       { server := s3, log :=
          [⟨.GetRegistryStatus, v0, none⟩, ⟨.InitializationConfiguration, v1, none⟩,
           ⟨.ValidateComponent { Config := some (databaseDocument qsi.quayConfiguration) }
              DatabaseValidation, { Status := false, Reason := r }, none⟩] }) := by
    unfold runSetupQuay SetupQuay
    simp only [QuayClient.exec, assign, validateComponent, h0, h1]
    unfold databaseDocument at h2
    simp [h2, databaseDocument]
  rw [hrun]
  refine ⟨⟨_, rfl, Contains.after _ (Contains.rfl r)⟩, rfl, ?_⟩
  intro e he
  simp only [List.mem_cons, List.mem_singleton, List.not_mem_nil, or_false] at he
  rcases he with rfl | rfl | rfl <;> exact ⟨fun _ h => (by cases h), fun _ _ h => (by cases h)⟩

/-- C1 at the sample session whose database validation is refused. -/
theorem SetupQuay_database_validation_failed_witness :
    (∃ msg, (runSetupQuay sampleConstants (sampleInstance (faultyRegistry databaseRefused))
        none).1 = .returned (some msg) ∧ Contains msg "connection refused") ∧
    (runSetupQuay sampleConstants (sampleInstance (faultyRegistry databaseRefused))
        none).2.log =
      [⟨.GetRegistryStatus, ⟨"config-db"⟩, none⟩,
       ⟨.InitializationConfiguration, ⟨[]⟩, none⟩,
       ⟨.ValidateComponent { Config := some (databaseDocument sampleConfiguration) }
          DatabaseValidation, { Status := false, Reason := "connection refused" }, none⟩] ∧
    (∀ e ∈ (runSetupQuay sampleConstants (sampleInstance (faultyRegistry databaseRefused))
        none).2.log,
      (∀ req, e.call ≠ .CreateSuperuser req) ∧
      (∀ name content, e.call ≠ .UploadFileResource name content)) :=
  SetupQuay_database_validation_failed sampleConstants
    (sampleInstance (faultyRegistry databaseRefused)) none none none none
    ⟨"config-db"⟩ ⟨[]⟩ "connection refused" rfl rfl rfl


theorem Contains.trans {a b c : String} (h1 : Contains a b) (h2 : Contains b c) :
    Contains a c :=
  List.IsInfix.trans h2 h1

theorem script_drop_nine (K : Constants) (qc : QuayConfiguration)
    (base : List (String × Value)) :
    (script K qc base).drop 9 =
      [ .ValidateComponent { Config := some (mergedDocument K qc base) } RedisValidation,
        .ValidateComponent { Config := some (mergedDocument K qc base) } RegistryValidation,
        .ValidateComponent { Config := some (mergedDocument K qc base) } TimeMachineValidation,
        .ValidateComponent { Config := some (mergedDocument K qc base) } AccessValidation,
        .ValidateComponent { Config := some (mergedDocument K qc base) } SslValidation,
        .UpdateQuayConfiguration { Config := some (finalDocument K qc base) },
        .CompleteSetup ] :=
  rfl

/-- C2: the operations `SetupQuay` issues are an initial part of the script,
and those from the tenth on an initial part of: validate redis,
registry-storage, time-machine, access, ssl (all on the merged document),
replace configuration, finalize.  When one of these
validations answers `status = false` without error, it is the last exchange of
the log (no later validation, push or finalize) and `SetupQuay` returns an
error whose message contains the reason of that answer. -/
theorem SetupQuay_validations_in_order {σ : Type} (K : Constants)
    (qsi : QuaySetupInstance σ) (s : σ) :
    (∃ base,
      (runSetupQuay K qsi s).2.log.map Exchange.call <+:
        script K qsi.quayConfiguration base ∧
      ((runSetupQuay K qsi s).2.log.drop 9).map Exchange.call <+:
      [ .ValidateComponent { Config := some (mergedDocument K qsi.quayConfiguration base) }
          RedisValidation,
        .ValidateComponent { Config := some (mergedDocument K qsi.quayConfiguration base) }
          RegistryValidation,
        .ValidateComponent { Config := some (mergedDocument K qsi.quayConfiguration base) }
          TimeMachineValidation,
        .ValidateComponent { Config := some (mergedDocument K qsi.quayConfiguration base) }
          AccessValidation,
        .ValidateComponent { Config := some (mergedDocument K qsi.quayConfiguration base) }
          SslValidation,
        .UpdateQuayConfiguration
          { Config := some (finalDocument K qsi.quayConfiguration base) },
        .CompleteSetup ]) ∧
    (∀ (i : Nat) (cfg : QuayConfig) (t : QuayValidationType) (v : QuayStatusResponse),
      9 ≤ i →
      (runSetupQuay K qsi s).2.log[i]? = some ⟨.ValidateComponent cfg t, v, none⟩ →
      v.Status = false →
      (runSetupQuay K qsi s).2.log.length = i + 1 ∧
      ∃ msg, (runSetupQuay K qsi s).1 = .returned (some msg) ∧ Contains msg v.Reason) := by
  have hs := SetupQuay_session K qsi s
  unfold SessionOf at hs
  constructor
  · refine ⟨(rereadConfig (runSetupQuay K qsi s).2.log).getD [], ?_, ?_⟩
    · rw [hs.calls]
      exact List.take_prefix _ _
    · rw [← script_drop_nine, List.map_drop, hs.calls, List.drop_take]
      exact List.take_prefix _ _
  · intro i cfg t v _ hx hv
    have hf : (⟨.ValidateComponent cfg t, v, none⟩ : Exchange).passed = false := by
      simp [Exchange.passed, hv]
    obtain ⟨hlen, ho⟩ := hs.stops_at hx hf
    refine ⟨hlen, _, ho, ?_⟩
    exact (contains_wrapError i _).trans (Contains.after _ (Contains.rfl v.Reason))

/-- C2 at the sample session whose TLS validation is rejected: the fourteen
exchanges end with the ssl validation and the error carries its reason. -/
theorem SetupQuay_validations_in_order_witness :
    (runSetupQuay sampleConstants (sampleInstance (faultyRegistry sslRejected))
      none).2.log.length = 13 + 1 ∧
    ∃ msg, (runSetupQuay sampleConstants (sampleInstance (faultyRegistry sslRejected))
      none).1 = .returned (some msg) ∧ Contains msg "certificate has expired" :=
  (SetupQuay_validations_in_order sampleConstants
    (sampleInstance (faultyRegistry sslRejected)) none).2 13
    { Config := some (mergedDocument sampleConstants sampleConfiguration
        (firstDocument sampleConfiguration)) }
    SslValidation { Status := false, Reason := "certificate has expired" }
    (by decide) rfl rfl


theorem mapGet_mapSet_self {β : Type} (m : List (String × β)) (k : String) (v : β) :
    mapGet (mapSet m k v) k = some v := by
  simp [mapSet, mapGet]

theorem mapGet_filter_ne {β : Type} (m : List (String × β)) (k k' : String) (h : k' ≠ k) :
    mapGet (m.filter (fun e => !decide (e.1 = k))) k' = mapGet m k' := by
  induction m with
  | nil => rfl
  | cons e m ih =>
    obtain ⟨a, b⟩ := e
    by_cases ha : a = k
    · have hk : ¬ a = k' := fun h' => h (h'.symm.trans ha)
      rw [List.filter_cons_of_neg (by simp [ha]), ih]
      simp [mapGet, hk]
    · rw [List.filter_cons_of_pos (by simp [ha])]
      by_cases hk : a = k'
      · simp [mapGet, hk]
      · simp [mapGet, hk, ih]

theorem mapGet_mapSet_ne {β : Type} (m : List (String × β)) (k k' : String) (v : β)
    (h : k' ≠ k) : mapGet (mapSet m k v) k' = mapGet m k' := by
  have hk : ¬ k = k' := fun h' => h h'.symm
  simp [mapSet, mapGet, hk, mapGet_filter_ne m k k' h]

theorem Exchange.validation_of_call (x : Exchange) (cfg : QuayConfig)
    (t : QuayValidationType) (hc : x.call = .ValidateComponent cfg t)
    (hp : x.passed = true) :
    ∃ v : QuayStatusResponse, x = ⟨.ValidateComponent cfg t, v, none⟩ ∧ v.Status = true := by
  obtain ⟨c, v, e⟩ := x
  simp only at hc
  subst hc
  simp only [Exchange.passed, Bool.and_eq_true, Option.isNone_iff_eq_none] at hp
  obtain ⟨he, hv⟩ := hp
  subst he
  exact ⟨v, rfl, hv⟩

/-- C3: a replace-configuration call of `SetupQuay` is either its fourth
operation, and then it carries the first document, which has no
`SETUP_COMPLETE` key, or its fifteenth, and then the document has
`SETUP_COMPLETE = true` and the five operations before it are the validations
redis, registry-storage, time-machine, access, ssl in this order, each answered
without error and with `status = true`. -/
theorem SetupQuay_setup_complete_after_validations {σ : Type} (K : Constants)
    (qsi : QuaySetupInstance σ) (s : σ) (i : Nat) (cfg : QuayConfig) (v : QuayConfig)
    (e : GoError)
    (hx : (runSetupQuay K qsi s).2.log[i]? = some ⟨.UpdateQuayConfiguration cfg, v, e⟩) :
    (i = 3 ∧ cfg.Config = some (firstDocument qsi.quayConfiguration) ∧
      mapGet (firstDocument qsi.quayConfiguration) "SETUP_COMPLETE" = none) ∨
    (i = 14 ∧ ∃ base,
      cfg.Config = some (finalDocument K qsi.quayConfiguration base) ∧
      mapGet (finalDocument K qsi.quayConfiguration base) "SETUP_COMPLETE" =
        some (.bool true) ∧
      ∀ (j : Nat) (t : QuayValidationType),
        [RedisValidation, RegistryValidation, TimeMachineValidation, AccessValidation,
          SslValidation][j]? = some t →
        ∃ r : QuayStatusResponse,
          (runSetupQuay K qsi s).2.log[9 + j]? =
            some ⟨.ValidateComponent
              { Config := some (mergedDocument K qsi.quayConfiguration base) } t, r, none⟩ ∧
          r.Status = true) := by
  have hs := SetupQuay_session K qsi s
  unfold SessionOf at hs
  have hc := hs.call_at hx
  have hi : i < 16 := by
    by_contra hcon
    rw [List.getElem?_eq_none (by simp [script]; omega)] at hc
    cases hc
  have hlen : i < (runSetupQuay K qsi s).2.log.length := by
    by_contra hcon
    rw [List.getElem?_eq_none (by omega)] at hx
    cases hx
  interval_cases i <;> simp only [script, List.getElem?_cons_zero, List.getElem?_cons_succ,
    Option.some.injEq, Call.UpdateQuayConfiguration.injEq, reduceCtorEq] at hc
  · subst hc
    refine Or.inl ⟨rfl, rfl, ?_⟩
    rfl
  · subst hc
    refine Or.inr ⟨rfl, _, rfl, mapGet_mapSet_self _ _ _, ?_⟩
    intro j t ht
    have hj : j < 5 := by
      by_contra hcon
      rw [List.getElem?_eq_none (by simp; omega)] at ht
      cases ht
    obtain ⟨x, hxj⟩ : ∃ x, (runSetupQuay K qsi s).2.log[9 + j]? = some x := by
      rw [List.getElem?_eq_getElem (by omega)]
      exact ⟨_, rfl⟩
    have hcall := hs.call_at hxj
    have hpass := hs.passed_before hxj (by omega)
    have hcj : x.call = .ValidateComponent
        { Config := some (mergedDocument K qsi.quayConfiguration
          ((rereadConfig (runSetupQuay K qsi s).2.log).getD [])) } t := by
      interval_cases j <;>
        simp only [script, List.getElem?_cons_zero, List.getElem?_cons_succ,
          Option.some.injEq] at hcall ht <;>
        rw [← hcall, ← ht]
    obtain ⟨r, hr, hst⟩ := x.validation_of_call _ _ hcj hpass
    exact ⟨r, by rw [hxj, hr], hst⟩


/-- C3 at the healthy sample session: its fifteenth exchange pushes the final
document. -/
theorem SetupQuay_setup_complete_after_validations_witness :
    (14 = 3 ∧
      (QuayConfig.mk (some (finalDocument sampleConstants sampleConfiguration
        (firstDocument sampleConfiguration)))).Config =
        some (firstDocument (sampleInstance healthyRegistry).quayConfiguration) ∧
      mapGet (firstDocument (sampleInstance healthyRegistry).quayConfiguration)
        "SETUP_COMPLETE" = none) ∨
    (14 = 14 ∧ ∃ base,
      (QuayConfig.mk (some (finalDocument sampleConstants sampleConfiguration
        (firstDocument sampleConfiguration)))).Config =
        some (finalDocument sampleConstants
          (sampleInstance healthyRegistry).quayConfiguration base) ∧
      mapGet (finalDocument sampleConstants
        (sampleInstance healthyRegistry).quayConfiguration base) "SETUP_COMPLETE" =
        some (.bool true) ∧
      ∀ (j : Nat) (t : QuayValidationType),
        [RedisValidation, RegistryValidation, TimeMachineValidation, AccessValidation,
          SslValidation][j]? = some t →
        ∃ r : QuayStatusResponse,
          (runSetupQuay sampleConstants (sampleInstance healthyRegistry) none).2.log[9 + j]? =
            some ⟨.ValidateComponent
              { Config := some (mergedDocument sampleConstants
                (sampleInstance healthyRegistry).quayConfiguration base) } t, r, none⟩ ∧
          r.Status = true) :=
  SetupQuay_setup_complete_after_validations sampleConstants (sampleInstance healthyRegistry)
    none 14
    { Config := some (finalDocument sampleConstants sampleConfiguration
        (firstDocument sampleConfiguration)) }
    { Config := some (finalDocument sampleConstants sampleConfiguration
        (firstDocument sampleConfiguration)) }
    none rfl


/-! ## The storage declarations -/

/-- The entry the storage loop writes for one backend. -/
theorem setupStorage_cons (K : Constants) (rb : RegistryBackend) (bs : List RegistryBackend)
    (acc : List (String × Value)) :
    setupStorage K (rb :: bs) acc =
      setupStorage K bs (mapSet acc rb.Name (.arr
        (match rb.RegistryBackendSource.Local with
         | some l => [Value.str K.RegistryStorageTypeLocalStorageName, Value.localSource l]
         | none => []))) := by
  rw [setupStorage]
  cases h : rb.RegistryBackendSource.Local <;> simp [IsZeroOfUnderlyingTypePtr]

theorem mapSet_of_not_mem {β : Type} (m : List (String × β)) (k : String) (v : β)
    (h : k ∉ mapKeys m) : mapSet m k v = (k, v) :: m := by
  unfold mapSet
  congr 1
  rw [List.filter_eq_self]
  intro e he
  have : e.1 ≠ k := fun hk => h (by rw [← hk]; exact List.mem_map_of_mem Prod.fst he)
  simpa using this

theorem setupStorage_eq (K : Constants) (bs : List RegistryBackend) :
    ∀ acc : List (String × Value),
      (bs.map RegistryBackend.Name).Nodup →
      (∀ n ∈ bs.map RegistryBackend.Name, n ∉ mapKeys acc) →
      setupStorage K bs acc =
        (bs.map fun rb => (rb.Name, Value.arr
          (match rb.RegistryBackendSource.Local with
           | some l => [Value.str K.RegistryStorageTypeLocalStorageName, Value.localSource l]
           | none => []))).reverse ++ acc := by
  induction bs with
  | nil => intro acc _ _; rfl
  | cons rb bs ih =>
    intro acc hnd hdis
    rw [setupStorage_cons, mapSet_of_not_mem _ _ _ (hdis rb.Name (by simp))]
    rw [List.map_cons, List.nodup_cons] at hnd
    rw [ih _ hnd.2]
    · simp
    · intro n hn hmem
      simp only [mapKeys, List.map_cons, List.mem_cons] at hmem
      rcases hmem with h | h
      · exact hnd.1 (h ▸ hn)
      · exact hdis n (by simp only [List.map_cons, List.mem_cons]; exact Or.inr hn) h

theorem mapGet_of_mem {β : Type} (m : List (String × β)) (k : String) (v : β)
    (hnd : (mapKeys m).Nodup) (h : (k, v) ∈ m) : mapGet m k = some v := by
  induction m with
  | nil => cases h
  | cons e m ih =>
    obtain ⟨a, b⟩ := e
    simp only [mapKeys, List.map_cons, List.nodup_cons] at hnd
    rcases List.mem_cons.mp h with h | h
    · cases h
      simp [mapGet]
    · have hne : ¬ a = k := by
        intro hak
        exact hnd.1 (hak ▸ List.mem_map_of_mem Prod.fst h)
      simp only [mapGet, hne, if_false]
      exact ih hnd.2 h


/-- C4: with pairwise distinct backend names and the driver name `LocalStorage`,
the document of the last replace-configuration call (the fifteenth operation)
has a `DISTRIBUTED_STORAGE_CONFIG` mapping whose keys are the backend names, each
once, and the entry of a backend with a local source is the two-element list of
the driver name and that local source. -/
theorem SetupQuay_storage_config {σ : Type} (K : Constants) (qsi : QuaySetupInstance σ)
    (s : σ) (cfg : QuayConfig) (v : QuayConfig) (e : GoError)
    (hname : K.RegistryStorageTypeLocalStorageName = "LocalStorage")
    (hnd : (qsi.quayConfiguration.QuayEcosystem.Spec.Quay.RegistryBackends.map
      RegistryBackend.Name).Nodup)
    (hx : (runSetupQuay K qsi s).2.log[14]? = some ⟨.UpdateQuayConfiguration cfg, v, e⟩) :
    ∃ doc dsc, cfg.Config = some doc ∧
      mapGet doc "DISTRIBUTED_STORAGE_CONFIG" = some (.obj dsc) ∧
      (mapKeys dsc).Perm
        (qsi.quayConfiguration.QuayEcosystem.Spec.Quay.RegistryBackends.map
          RegistryBackend.Name) ∧
      ∀ rb ∈ qsi.quayConfiguration.QuayEcosystem.Spec.Quay.RegistryBackends,
        ∀ l, rb.RegistryBackendSource.Local = some l →
          mapGet dsc rb.Name = some (.arr [.str "LocalStorage", .localSource l]) := by
  have hs := SetupQuay_session K qsi s
  unfold SessionOf at hs
  have hc := hs.call_at hx
  simp only [script, List.getElem?_cons_zero, List.getElem?_cons_succ,
    Option.some.injEq, Call.UpdateQuayConfiguration.injEq] at hc
  subst hc
  have hst := setupStorage_eq K
    qsi.quayConfiguration.QuayEcosystem.Spec.Quay.RegistryBackends [] hnd
    (fun n _ h => by simp [mapKeys] at h)
  rw [List.append_nil] at hst
  refine ⟨_, setupStorage K
    qsi.quayConfiguration.QuayEcosystem.Spec.Quay.RegistryBackends [], rfl, ?_, ?_, ?_⟩
  · rw [finalDocument, mapGet_mapSet_ne _ _ _ _ (by decide),
      mapGet_mapSet_ne _ _ _ _ (by decide), mergedDocument, mapGet_mapSet_self]
  · rw [hst, mapKeys, List.map_reverse, List.map_map]
    exact List.reverse_perm _
  · intro rb hrb l hl
    have hkeys : (mapKeys (setupStorage K
        qsi.quayConfiguration.QuayEcosystem.Spec.Quay.RegistryBackends [])).Nodup := by
      rw [hst, mapKeys, List.map_reverse, List.map_map, List.nodup_reverse]
      exact hnd
    apply mapGet_of_mem _ _ _ hkeys
    rw [hst, List.mem_reverse, List.mem_map]
    refine ⟨rb, hrb, ?_⟩
    simp [hl, hname]

/-- C4 at the healthy sample session, whose only backend is `local1` at
`/datastorage`. -/
theorem SetupQuay_storage_config_witness :
    ∃ doc dsc,
      (QuayConfig.mk (some (finalDocument sampleConstants sampleConfiguration
        (firstDocument sampleConfiguration)))).Config = some doc ∧
      mapGet doc "DISTRIBUTED_STORAGE_CONFIG" = some (.obj dsc) ∧
      (mapKeys dsc).Perm
        ((sampleInstance healthyRegistry).quayConfiguration.QuayEcosystem.Spec.Quay.RegistryBackends.map
          RegistryBackend.Name) ∧
      ∀ rb ∈ (sampleInstance healthyRegistry).quayConfiguration.QuayEcosystem.Spec.Quay.RegistryBackends,
        ∀ l, rb.RegistryBackendSource.Local = some l →
          mapGet dsc rb.Name = some (.arr [.str "LocalStorage", .localSource l]) :=
  SetupQuay_storage_config sampleConstants (sampleInstance healthyRegistry) none
    { Config := some (finalDocument sampleConstants sampleConfiguration
        (firstDocument sampleConfiguration)) }
    { Config := some (finalDocument sampleConstants sampleConfiguration
        (firstDocument sampleConfiguration)) }
    none rfl (by decide) rfl


/-! ## The first document -/

theorem firstDocument_keys (qc : QuayConfiguration) :
    mapKeys (firstDocument qc) =
      ["SERVER_HOSTNAME", "USER_EVENTS_REDIS", "BUILDLOGS_REDIS", "DB_URI"] :=
  rfl

theorem redisDocument_host (qc : QuayConfiguration) :
    mapGet (redisDocument qc) "host" = some (.str qc.RedisHostname) := by
  unfold redisDocument
  cases qc.RedisPort <;> rfl

theorem redisDocument_port (qc : QuayConfiguration) :
    mapGet (redisDocument qc) "port" = qc.RedisPort.map Value.num := by
  unfold redisDocument
  cases qc.RedisPort <;> rfl

theorem redisDocument_keys (qc : QuayConfiguration) :
    mapKeys (redisDocument qc) =
      match qc.RedisPort with
      | some _ => ["port", "host"]
      | none => ["host"] := by
  unfold redisDocument
  cases qc.RedisPort <;> rfl

/-- C5: the fourth operation of `SetupQuay` is its first replace-configuration
call (status probe, initialize and the database validation come before it), and
its document has exactly the keys `DB_URI`, `BUILDLOGS_REDIS`,
`USER_EVENTS_REDIS` and `SERVER_HOSTNAME`: `DB_URI` is
`postgresql://<username>:<password>@<server>/<database>` of the context, both
cache keys hold the same mapping with `host` the context's cache hostname and a
`port` entry exactly when the context's cache port is set, and `SERVER_HOSTNAME`
is the context's registry hostname. -/
theorem SetupQuay_first_document {σ : Type} (K : Constants) (qsi : QuaySetupInstance σ)
    (s : σ) (cfg : QuayConfig) (v : QuayConfig) (e : GoError)
    (hx : (runSetupQuay K qsi s).2.log[3]? = some ⟨.UpdateQuayConfiguration cfg, v, e⟩) :
    ((runSetupQuay K qsi s).2.log.take 3).map Exchange.call =
      [.GetRegistryStatus, .InitializationConfiguration,
       .ValidateComponent { Config := some (databaseDocument qsi.quayConfiguration) }
         DatabaseValidation] ∧
    ∃ doc redis, cfg.Config = some doc ∧
      (mapKeys doc).Perm ["DB_URI", "BUILDLOGS_REDIS", "USER_EVENTS_REDIS", "SERVER_HOSTNAME"] ∧
      mapGet doc "DB_URI" = some (.str ("postgresql://"
        ++ qsi.quayConfiguration.QuayDatabase.Username ++ ":"
        ++ qsi.quayConfiguration.QuayDatabase.Password ++ "@"
        ++ qsi.quayConfiguration.QuayDatabase.Server ++ "/"
        ++ qsi.quayConfiguration.QuayDatabase.Database)) ∧
      mapGet doc "BUILDLOGS_REDIS" = some (.obj redis) ∧
      mapGet doc "USER_EVENTS_REDIS" = some (.obj redis) ∧
      mapGet doc "SERVER_HOSTNAME" = some (.str qsi.quayConfiguration.QuayHostname) ∧
      mapGet redis "host" = some (.str qsi.quayConfiguration.RedisHostname) ∧
      mapGet redis "port" = qsi.quayConfiguration.RedisPort.map Value.num ∧
      (mapKeys redis).Perm
        (match qsi.quayConfiguration.RedisPort with
         | some _ => ["host", "port"]
         | none => ["host"]) := by
  have hs := SetupQuay_session K qsi s
  unfold SessionOf at hs
  have hc := hs.call_at hx
  simp only [script, List.getElem?_cons_zero, List.getElem?_cons_succ,
    Option.some.injEq, Call.UpdateQuayConfiguration.injEq] at hc
  subst hc
  have hlen : 3 < (runSetupQuay K qsi s).2.log.length := by
    by_contra hcon
    rw [List.getElem?_eq_none (by omega)] at hx
    cases hx
  constructor
  · rw [List.map_take, hs.calls, List.take_take, Nat.min_eq_left (by omega)]
    rfl
  · refine ⟨firstDocument qsi.quayConfiguration, redisDocument qsi.quayConfiguration,
      rfl, ?_, rfl, rfl, rfl, rfl, redisDocument_host _, redisDocument_port _, ?_⟩
    · rw [firstDocument_keys]
      decide
    · rw [redisDocument_keys]
      cases qsi.quayConfiguration.RedisPort
      · exact List.Perm.refl _
      · exact List.Perm.swap _ _ _

/-- C5 at the healthy sample session. -/
theorem SetupQuay_first_document_witness :
    ((runSetupQuay sampleConstants (sampleInstance healthyRegistry) none).2.log.take 3).map
        Exchange.call =
      [.GetRegistryStatus, .InitializationConfiguration,
       .ValidateComponent
         { Config := some (databaseDocument (sampleInstance healthyRegistry).quayConfiguration) }
         DatabaseValidation] ∧
    ∃ doc redis, (QuayConfig.mk (some (firstDocument sampleConfiguration))).Config = some doc ∧
      (mapKeys doc).Perm ["DB_URI", "BUILDLOGS_REDIS", "USER_EVENTS_REDIS", "SERVER_HOSTNAME"] ∧
      mapGet doc "DB_URI" = some (.str ("postgresql://"
        ++ (sampleInstance healthyRegistry).quayConfiguration.QuayDatabase.Username ++ ":"
        ++ (sampleInstance healthyRegistry).quayConfiguration.QuayDatabase.Password ++ "@"
        ++ (sampleInstance healthyRegistry).quayConfiguration.QuayDatabase.Server ++ "/"
        ++ (sampleInstance healthyRegistry).quayConfiguration.QuayDatabase.Database)) ∧
      mapGet doc "BUILDLOGS_REDIS" = some (.obj redis) ∧
      mapGet doc "USER_EVENTS_REDIS" = some (.obj redis) ∧
      mapGet doc "SERVER_HOSTNAME" =
        some (.str (sampleInstance healthyRegistry).quayConfiguration.QuayHostname) ∧
      mapGet redis "host" =
        some (.str (sampleInstance healthyRegistry).quayConfiguration.RedisHostname) ∧
      mapGet redis "port" =
        (sampleInstance healthyRegistry).quayConfiguration.RedisPort.map Value.num ∧
      (mapKeys redis).Perm
        (match (sampleInstance healthyRegistry).quayConfiguration.RedisPort with
         | some _ => ["host", "port"]
         | none => ["host"]) :=
  SetupQuay_first_document sampleConstants (sampleInstance healthyRegistry) none
    { Config := some (firstDocument sampleConfiguration) }
    { Config := some (firstDocument sampleConfiguration) } none rfl


/-! ## The status probe and the order of a complete session -/

theorem Session.first {K : Constants} {qc : QuayConfiguration} {o : Outcome}
    {log : List Exchange} (h : Session K qc o log) :
    ∃ (st : RegistryStatus) (e : GoError), log[0]? = some ⟨.GetRegistryStatus, st, e⟩ := by
  obtain ⟨x, hx⟩ : ∃ x, log[0]? = some x := by
    cases hl : log with
    | nil => exact absurd hl h.nonempty
    | cons a l => exact ⟨a, by simp⟩
  have hc := h.call_at hx
  obtain ⟨c, v, e⟩ := x
  simp only [script, List.getElem?_cons_zero, Option.some.injEq] at hc
  subst hc
  exact ⟨v, e, hx⟩

/-- C6, counterexample: the probe of the sample registry reports `ready`, and
`SetupQuay` issues the initialize call next and runs to the end without error. -/
theorem SetupQuay_ignores_probe_status :
    (faultyRegistry probeReady .GetRegistryStatus none).1 = (⟨"ready"⟩, none) ∧
    ((runSetupQuay sampleConstants (sampleInstance (faultyRegistry probeReady))
      none).2.log.map Exchange.call)[1]? = some .InitializationConfiguration ∧
    (runSetupQuay sampleConstants (sampleInstance (faultyRegistry probeReady)) none).1 =
      .returned none :=
  ⟨rfl, rfl, rfl⟩

/-- C6, amended: the first exchange of `SetupQuay` is the status probe; when
the probe returns an error, `SetupQuay` returns that error and issues nothing
else; when it returns no error, the initialize call is issued next, whatever
status the response reports. -/
theorem SetupQuay_probe_gate {σ : Type} (K : Constants) (qsi : QuaySetupInstance σ) (s : σ) :
    ∃ (st : RegistryStatus) (e : GoError),
      (runSetupQuay K qsi s).2.log[0]? = some ⟨.GetRegistryStatus, st, e⟩ ∧
      (∀ err, e = some err →
        (runSetupQuay K qsi s).1 = .returned (some err) ∧
        (runSetupQuay K qsi s).2.log.length = 1) ∧
      (e = none → ∃ y, (runSetupQuay K qsi s).2.log[1]? = some y ∧
        y.call = .InitializationConfiguration) := by
  have hs := SetupQuay_session K qsi s
  unfold SessionOf at hs
  obtain ⟨st, e, hx⟩ := hs.first
  refine ⟨st, e, hx, ?_, ?_⟩
  · intro err he
    subst he
    obtain ⟨hlen, ho⟩ := hs.stops_at hx rfl
    exact ⟨ho, hlen⟩
  · intro he
    subst he
    have hlen : 2 ≤ (runSetupQuay K qsi s).2.log.length := by
      rcases hs.stop with h16 | ⟨y, hy, hyf⟩ | ⟨h7, _⟩
      · omega
      · by_contra hcon
        have h1 : (runSetupQuay K qsi s).2.log.length = 1 := by
          have := List.length_pos.mpr hs.nonempty
          omega
        rw [List.getLast?_eq_getElem?, h1, hx] at hy
        cases hy
        cases hyf
      · omega
    obtain ⟨y, hy⟩ : ∃ y, (runSetupQuay K qsi s).2.log[1]? = some y := by
      rw [List.getElem?_eq_getElem (by omega)]
      exact ⟨_, rfl⟩
    refine ⟨y, hy, ?_⟩
    have hc := hs.call_at hy
    simp only [script, List.getElem?_cons_zero, List.getElem?_cons_succ,
      Option.some.injEq] at hc
    exact hc.symm


/-- A session in which every exchange passed and the read-configuration call
returned a document that is not `nil` runs to the end: no error, and the
operations are the sixteen of the script, in order. -/
theorem SetupQuay_complete_session {σ : Type} (K : Constants) (qsi : QuaySetupInstance σ)
    (s : σ) (hpass : ∀ x ∈ (runSetupQuay K qsi s).2.log, x.passed = true)
    (hcfg : ∀ (v : QuayConfig) (e : GoError),
      (runSetupQuay K qsi s).2.log[6]? = some ⟨.GetQuayConfiguration, v, e⟩ →
      v.Config ≠ none) :
    (runSetupQuay K qsi s).1 = .returned none ∧
    ∃ base, (runSetupQuay K qsi s).2.log.map Exchange.call =
      script K qsi.quayConfiguration base := by
  have hs := SetupQuay_session K qsi s
  unfold SessionOf at hs
  have hlen : (runSetupQuay K qsi s).2.log.length = 16 := by
    rcases hs.stop with h16 | ⟨y, hy, hyf⟩ | ⟨h7, hnone⟩
    · exact h16
    · have := hpass y (List.mem_of_getLast?_eq_some hy)
      rw [hyf] at this
      cases this
    · exfalso
      obtain ⟨x, hx⟩ : ∃ x, (runSetupQuay K qsi s).2.log[6]? = some x := by
        rw [List.getElem?_eq_getElem (by omega)]
        exact ⟨_, rfl⟩
      have hc := hs.call_at hx
      obtain ⟨c, v, e⟩ := x
      simp only [script, List.getElem?_cons_zero, List.getElem?_cons_succ,
        Option.some.injEq] at hc
      subst hc
      apply hcfg v e hx
      simpa [rereadConfig, hx] using hnone
  obtain ⟨y, hy⟩ : ∃ y, (runSetupQuay K qsi s).2.log.getLast? = some y := by
    cases h : (runSetupQuay K qsi s).2.log.getLast? with
    | none => exact absurd (List.getLast?_eq_none_iff.mp h) hs.nonempty
    | some y => exact ⟨y, rfl⟩
  constructor
  · rw [hs.outcome]
    unfold outcomeOf
    rw [hy]
    simp [hpass y (List.mem_of_getLast?_eq_some hy), hlen]
  · refine ⟨(rereadConfig (runSetupQuay K qsi s).2.log).getD [], ?_⟩
    rw [hs.calls, hlen]
    rfl

/-- C7, failing input: the read-configuration call of the sample registry
decodes a body whose `config` is `null`.  Every call returns without error, and
`SetupQuay` panics after the seventh instead of returning. -/
theorem SetupQuay_null_config_panics :
    (∀ x ∈ (runSetupQuay sampleConstants (sampleInstance (faultyRegistry configNull))
      none).2.log, x.err = none) ∧
    (runSetupQuay sampleConstants (sampleInstance (faultyRegistry configNull)) none).1 =
      .panicked "assignment to entry in nil map" ∧
    (runSetupQuay sampleConstants (sampleInstance (faultyRegistry configNull))
      none).2.log.map Exchange.call =
      (script sampleConstants sampleConfiguration []).take 7 := by
  refine ⟨?_, rfl, rfl⟩
  intro x hx
  have hlog : (runSetupQuay sampleConstants (sampleInstance (faultyRegistry configNull))
      none).2.log.map Exchange.err = List.replicate 7 none := rfl
  have hmem : x.err ∈ (runSetupQuay sampleConstants
      (sampleInstance (faultyRegistry configNull)) none).2.log.map Exchange.err :=
    List.mem_map_of_mem _ hx
  rw [hlog] at hmem
  exact (List.mem_replicate.mp hmem).2


/-! ## Transport and decode errors -/

/-- C8, counterexample: the status probe of the sample registry fails with
"connection refused", and the error `SetupQuay` returns is that message alone,
with no text that names the operation. -/
theorem SetupQuay_probe_error_unwrapped :
    (faultyRegistry probeUnreachable .GetRegistryStatus none).1.2 =
      some "connection refused" ∧
    (runSetupQuay sampleConstants (sampleInstance (faultyRegistry probeUnreachable))
      none).1 = .returned (some "connection refused") :=
  ⟨rfl, rfl⟩

/-- C8, amended: when the exchange with index `i` of a session returns the
error `e`, it is the last exchange, its operation is the one the script has at
`i`, and `SetupQuay` returns an error whose message contains `e`: it is
`wrapError i e`, that is `e` after a text naming the operation for the replace
calls, the migrations, the superuser, the read of the configuration, the upload
of the private key, the five later validations and the finalize call, and `e`
itself for the other steps. -/
theorem SetupQuay_transport_error {σ : Type} (K : Constants) (qsi : QuaySetupInstance σ)
    (s : σ) (i : Nat) (x : Exchange) (e : String)
    (hx : (runSetupQuay K qsi s).2.log[i]? = some x) (he : x.err = some e) :
    (runSetupQuay K qsi s).2.log.length = i + 1 ∧
    (∃ base, (script K qsi.quayConfiguration base)[i]? = some x.call) ∧
    ∃ msg, (runSetupQuay K qsi s).1 = .returned (some msg) ∧ Contains msg e ∧
      msg = wrapError i e := by
  have hs := SetupQuay_session K qsi s
  unfold SessionOf at hs
  obtain ⟨hlen, ho⟩ := hs.stops_at hx (x.passed_of_err e he)
  rw [x.failure_of_err e he] at ho
  exact ⟨hlen, ⟨_, hs.call_at hx⟩, _, ho, contains_wrapError i e, rfl⟩

/-- C8, amended, at the sample session whose migrations call fails. -/
theorem SetupQuay_transport_error_witness :
    (runSetupQuay sampleConstants (sampleInstance (faultyRegistry migrationsFailed))
      none).2.log.length = 4 + 1 ∧
    (∃ base, (script sampleConstants
      (sampleInstance (faultyRegistry migrationsFailed)).quayConfiguration base)[4]? =
        some (Exchange.mk .SetupDatabase ⟨[]⟩ (some "unexpected EOF")).call) ∧
    ∃ msg, (runSetupQuay sampleConstants (sampleInstance (faultyRegistry migrationsFailed))
      none).1 = .returned (some msg) ∧ Contains msg "unexpected EOF" ∧
      msg = wrapError 4 "unexpected EOF" :=
  SetupQuay_transport_error sampleConstants (sampleInstance (faultyRegistry migrationsFailed))
    none 4 ⟨.SetupDatabase, ⟨[]⟩, some "unexpected EOF"⟩ "unexpected EOF" rfl rfl


/-! ## Claims about `ManageQuayEcosystemCertificates` -/

theorem isQuayCertificatesConfigured_iff (K : Constants) (secret : Secret) :
    isQuayCertificatesConfigured K (some secret) = true ↔
      (∃ c, readData secret.Data K.QuayAppConfigSSLCertificateSecretKey = some c ∧ c ≠ []) ∧
      (∃ p, readData secret.Data K.QuayAppConfigSSLPrivateKeySecretKey = some p ∧ p ≠ []) := by
  unfold isQuayCertificatesConfigured
  cases hc : readData secret.Data K.QuayAppConfigSSLCertificateSecretKey with
  | none => simp [IsZeroOfUnderlyingTypePtr, hc]
  | some c =>
    cases hp : readData secret.Data K.QuayAppConfigSSLPrivateKeySecretKey with
    | none => simp [IsZeroOfUnderlyingTypePtr, hc, hp]
    | some p =>
      cases c <;> cases p <;> simp [IsZeroOfUnderlyingTypePtr, hc, hp]

/-- C9: when the lookup returns the app config secret with a non-empty
certificate entry `c` and a non-empty private-key entry `p`, and the stack spec
names no certificate secret, `ManageQuayEcosystemCertificates` issues the lookup
and one write and nothing else (no key generation); the secret it writes has
the entries `c` and `p`, and so has the context afterwards. -/
theorem ManageQuayEcosystemCertificates_reuses {σ : Type} (K : Constants)
    (cluster : Cluster σ) (qc : QuayConfiguration) (s s1 : σ) (secret : Secret)
    (c p : Bytes)
    (hget : cluster (.GetSecret (GetConfigMapSecretName qc.QuayEcosystem)
      qc.QuayEcosystem.Namespace) s = ((secret, none), s1))
    (hc : readData secret.Data K.QuayAppConfigSSLCertificateSecretKey = some c)
    (hcne : c ≠ [])
    (hp : readData secret.Data K.QuayAppConfigSSLPrivateKeySecretKey = some p)
    (hpne : p ≠ [])
    (hname : qc.QuayEcosystem.Spec.Quay.SslCertificatesSecretName = "") :
    ∃ written : Secret,
      (runCertificates K cluster qc s).2.2.log.map ClusterExchange.call =
        [.GetSecret (GetConfigMapSecretName qc.QuayEcosystem) qc.QuayEcosystem.Namespace,
         .CreateOrUpdateResource qc.QuayEcosystem qc.QuayEcosystem.Namespace written] ∧
      readData written.Data K.QuayAppConfigSSLCertificateSecretKey = some c ∧
      readData written.Data K.QuayAppConfigSSLPrivateKeySecretKey = some p ∧
      (runCertificates K cluster qc s).2.1.QuaySslCertificate = c ∧
      (runCertificates K cluster qc s).2.1.QuaySslPrivateKey = p := by
  have hconf : isQuayCertificatesConfigured K (some secret) = true :=
    (isQuayCertificatesConfigured_iff K secret).mpr ⟨⟨c, hc, hcne⟩, ⟨p, hp, hpne⟩⟩
  have hkeys : mapGet (mapSet (mapSet
      (match secret.Data with
        | none => []
        | some data => data) K.QuayAppConfigSSLPrivateKeySecretKey p)
      K.QuayAppConfigSSLCertificateSecretKey c) K.QuayAppConfigSSLPrivateKeySecretKey =
      some p := by
    by_cases hk : K.QuayAppConfigSSLPrivateKeySecretKey = K.QuayAppConfigSSLCertificateSecretKey
    · rw [hk] at hp
      rw [hc] at hp
      cases hp
      rw [hk, mapGet_mapSet_self]
    · rw [mapGet_mapSet_ne _ _ _ _ hk, mapGet_mapSet_self]
  refine ⟨{ secret with Data := some (mapSet (mapSet
      (match secret.Data with
        | none => []
        | some data => data) K.QuayAppConfigSSLPrivateKeySecretKey p)
      K.QuayAppConfigSSLCertificateSecretKey c) }, ?_, mapGet_mapSet_self _ _ _, hkeys, ?_, ?_⟩
  all_goals
    unfold runCertificates ManageQuayEcosystemCertificates
    simp only [Cluster.exec, hget, hconf, hname, IsZeroOfUnderlyingTypeString, hc, hp,
      Option.getD_some, Bool.not_true, Bool.false_eq_true, if_false, decide_True, if_true]
    split <;> rename_i heq <;> simp only [Prod.mk.injEq] at heq <;>
      obtain ⟨_, rfl⟩ := heq <;> simp

/-- C9 at the sample cluster whose secret holds the pair `[1]`, `[2]`. -/
theorem ManageQuayEcosystemCertificates_reuses_witness :
    ∃ written : Secret,
      (runCertificates sampleConstants sampleCluster sampleConfiguration
        (some [("ssl.cert", [1]), ("ssl.key", [2])])).2.2.log.map ClusterExchange.call =
        [.GetSecret (GetConfigMapSecretName sampleConfiguration.QuayEcosystem)
           sampleConfiguration.QuayEcosystem.Namespace,
         .CreateOrUpdateResource sampleConfiguration.QuayEcosystem
           sampleConfiguration.QuayEcosystem.Namespace written] ∧
      readData written.Data sampleConstants.QuayAppConfigSSLCertificateSecretKey = some [1] ∧
      readData written.Data sampleConstants.QuayAppConfigSSLPrivateKeySecretKey = some [2] ∧
      (runCertificates sampleConstants sampleCluster sampleConfiguration
        (some [("ssl.cert", [1]), ("ssl.key", [2])])).2.1.QuaySslCertificate = [1] ∧
      (runCertificates sampleConstants sampleCluster sampleConfiguration
        (some [("ssl.cert", [1]), ("ssl.key", [2])])).2.1.QuaySslPrivateKey = [2] :=
  ManageQuayEcosystemCertificates_reuses sampleConstants sampleCluster sampleConfiguration
    (some [("ssl.cert", [1]), ("ssl.key", [2])]) (some [("ssl.cert", [1]), ("ssl.key", [2])])
    { Name := "quay-enterprise-config-secret", Namespace := "registry",
      Data := some [("ssl.cert", [1]), ("ssl.key", [2])] }
    [1] [2] rfl rfl (List.cons_ne_nil _ _) rfl (List.cons_ne_nil _ _) rfl

/-- C10: when the lookup returns the app config secret without a non-empty
certificate entry or without a non-empty private-key entry, the stack spec names
no certificate secret, the two entry names differ and the generator returns the
pair `c`, `p`, then `ManageQuayEcosystemCertificates` issues the lookup, one key
generation for the host `QuayEnterprise` with the context's registry hostname
as its only alternate name, and one write; the secret it writes has the
entries `c` and `p`, and so has the context afterwards. -/
theorem ManageQuayEcosystemCertificates_generates {σ : Type} (K : Constants)
    (cluster : Cluster σ) (qc : QuayConfiguration) (s s1 s2 : σ) (secret : Secret)
    (c p : Bytes)
    (hget : cluster (.GetSecret (GetConfigMapSecretName qc.QuayEcosystem)
      qc.QuayEcosystem.Namespace) s = ((secret, none), s1))
    (hmiss : ¬ ((∃ c, readData secret.Data K.QuayAppConfigSSLCertificateSecretKey = some c ∧
        c ≠ []) ∧
      (∃ p, readData secret.Data K.QuayAppConfigSSLPrivateKeySecretKey = some p ∧ p ≠ [])))
    (hname : qc.QuayEcosystem.Spec.Quay.SslCertificatesSecretName = "")
    (hk : K.QuayAppConfigSSLPrivateKeySecretKey ≠ K.QuayAppConfigSSLCertificateSecretKey)
    (hgen : cluster (.GenerateSelfSignedCertKey K.QuayEnterprise [] [qc.QuayHostname]) s1 =
      ((c, p, none), s2)) :
    ∃ written : Secret,
      (runCertificates K cluster qc s).2.2.log.map ClusterExchange.call =
        [.GetSecret (GetConfigMapSecretName qc.QuayEcosystem) qc.QuayEcosystem.Namespace,
         .GenerateSelfSignedCertKey K.QuayEnterprise [] [qc.QuayHostname],
         .CreateOrUpdateResource qc.QuayEcosystem qc.QuayEcosystem.Namespace written] ∧
      readData written.Data K.QuayAppConfigSSLCertificateSecretKey = some c ∧
      readData written.Data K.QuayAppConfigSSLPrivateKeySecretKey = some p ∧
      (runCertificates K cluster qc s).2.1.QuaySslCertificate = c ∧
      (runCertificates K cluster qc s).2.1.QuaySslPrivateKey = p := by
  have hconf : isQuayCertificatesConfigured K (some secret) = false := by
    cases h : isQuayCertificatesConfigured K (some secret) with
    | false => rfl
    | true => exact absurd ((isQuayCertificatesConfigured_iff K secret).mp h) hmiss
  refine ⟨{ secret with Data := some (mapSet (mapSet
      (match secret.Data with
        | none => []
        | some data => data) K.QuayAppConfigSSLPrivateKeySecretKey p)
      K.QuayAppConfigSSLCertificateSecretKey c) }, ?_, mapGet_mapSet_self _ _ _, ?_, ?_, ?_⟩
  · unfold runCertificates ManageQuayEcosystemCertificates
    simp only [Cluster.exec, hget, hconf, hname, IsZeroOfUnderlyingTypeString, hgen,
      Bool.not_false, if_true, decide_True]
    split <;> rename_i heq <;> simp only [Prod.mk.injEq] at heq <;>
      obtain ⟨_, rfl⟩ := heq <;> simp
  · show mapGet _ _ = _
    rw [mapGet_mapSet_ne _ _ _ _ hk, mapGet_mapSet_self]
  · unfold runCertificates ManageQuayEcosystemCertificates
    simp only [Cluster.exec, hget, hconf, hname, IsZeroOfUnderlyingTypeString, hgen,
      Bool.not_false, if_true, decide_True]
    split <;> rename_i heq <;> simp only [Prod.mk.injEq] at heq <;>
      obtain ⟨_, rfl⟩ := heq <;> simp
  · unfold runCertificates ManageQuayEcosystemCertificates
    simp only [Cluster.exec, hget, hconf, hname, IsZeroOfUnderlyingTypeString, hgen,
      Bool.not_false, if_true, decide_True]
    split <;> rename_i heq <;> simp only [Prod.mk.injEq] at heq <;>
      obtain ⟨_, rfl⟩ := heq <;> simp

/-- C10 at the sample cluster whose secret has no data. -/
theorem ManageQuayEcosystemCertificates_generates_witness :
    ∃ written : Secret,
      (runCertificates sampleConstants sampleCluster sampleConfiguration
        none).2.2.log.map ClusterExchange.call =
        [.GetSecret (GetConfigMapSecretName sampleConfiguration.QuayEcosystem)
           sampleConfiguration.QuayEcosystem.Namespace,
         .GenerateSelfSignedCertKey sampleConstants.QuayEnterprise []
           [sampleConfiguration.QuayHostname],
         .CreateOrUpdateResource sampleConfiguration.QuayEcosystem
           sampleConfiguration.QuayEcosystem.Namespace written] ∧
      readData written.Data sampleConstants.QuayAppConfigSSLCertificateSecretKey =
        some [10, 11] ∧
      readData written.Data sampleConstants.QuayAppConfigSSLPrivateKeySecretKey =
        some [12, 13] ∧
      (runCertificates sampleConstants sampleCluster sampleConfiguration
        none).2.1.QuaySslCertificate = [10, 11] ∧
      (runCertificates sampleConstants sampleCluster sampleConfiguration
        none).2.1.QuaySslPrivateKey = [12, 13] :=
  ManageQuayEcosystemCertificates_generates sampleConstants sampleCluster sampleConfiguration
    none none none
    { Name := "quay-enterprise-config-secret", Namespace := "registry", Data := none }
    [10, 11] [12, 13] rfl
    (fun h => by obtain ⟨⟨c, hc, _⟩, _⟩ := h; cases hc)
    rfl (by decide) rfl


/-- C11: when the stack spec names a certificate secret, no exchange of
`ManageQuayEcosystemCertificates` is a key generation, whatever the cluster
answers; and when the lookup returns the app config secret, the step issues the
lookup and one write, the context keeps its certificate and key, and the secret
written carries the context's certificate under the certificate name and, the
two entry names being different, the context's key under the key name. -/
theorem ManageQuayEcosystemCertificates_user_supplied {σ : Type} (K : Constants)
    (cluster : Cluster σ) (qc : QuayConfiguration) (s : σ)
    (hname : qc.QuayEcosystem.Spec.Quay.SslCertificatesSecretName ≠ "")
    (hk : K.QuayAppConfigSSLPrivateKeySecretKey ≠ K.QuayAppConfigSSLCertificateSecretKey) :
    (∀ x ∈ (runCertificates K cluster qc s).2.2.log,
      ∀ host ips names, x.call ≠ .GenerateSelfSignedCertKey host ips names) ∧
    (∀ (secret : Secret) (s1 : σ),
      cluster (.GetSecret (GetConfigMapSecretName qc.QuayEcosystem)
        qc.QuayEcosystem.Namespace) s = ((secret, none), s1) →
      ∃ written : Secret,
        (runCertificates K cluster qc s).2.2.log.map ClusterExchange.call =
          [.GetSecret (GetConfigMapSecretName qc.QuayEcosystem) qc.QuayEcosystem.Namespace,
           .CreateOrUpdateResource qc.QuayEcosystem qc.QuayEcosystem.Namespace written] ∧
        readData written.Data K.QuayAppConfigSSLCertificateSecretKey =
          some qc.QuaySslCertificate ∧
        readData written.Data K.QuayAppConfigSSLPrivateKeySecretKey =
          some qc.QuaySslPrivateKey ∧
        (runCertificates K cluster qc s).2.1 = qc) := by
  have hz : IsZeroOfUnderlyingTypeString
      qc.QuayEcosystem.Spec.Quay.SslCertificatesSecretName = false := by
    simp [IsZeroOfUnderlyingTypeString, hname]
  rcases hget : cluster (.GetSecret (GetConfigMapSecretName qc.QuayEcosystem)
      qc.QuayEcosystem.Namespace) s with ⟨⟨secret, e⟩, s1⟩
  rcases hw : cluster (.CreateOrUpdateResource qc.QuayEcosystem qc.QuayEcosystem.Namespace
      { secret with Data := some (mapSet (mapSet
        (match secret.Data with
          | none => []
          | some data => data) K.QuayAppConfigSSLPrivateKeySecretKey qc.QuaySslPrivateKey)
        K.QuayAppConfigSSLCertificateSecretKey qc.QuaySslCertificate) }) s1 with ⟨r, s2⟩
  cases e with
  | some err =>
    constructor
    · intro x hx host ips names
      unfold runCertificates ManageQuayEcosystemCertificates at hx
      simp only [Cluster.exec, hget] at hx
      split at hx <;> simp at hx <;> subst hx <;> simp
    · intro secret' s1' h
      cases h
  | none =>
    have hrun : (runCertificates K cluster qc s).2.2.log.map ClusterExchange.call =
          [.GetSecret (GetConfigMapSecretName qc.QuayEcosystem) qc.QuayEcosystem.Namespace,
           .CreateOrUpdateResource qc.QuayEcosystem qc.QuayEcosystem.Namespace
            { secret with Data := some (mapSet (mapSet
              (match secret.Data with
                | none => []
                | some data => data) K.QuayAppConfigSSLPrivateKeySecretKey
                  qc.QuaySslPrivateKey)
              K.QuayAppConfigSSLCertificateSecretKey qc.QuaySslCertificate) }] ∧
        (runCertificates K cluster qc s).2.1 = qc := by
      unfold runCertificates ManageQuayEcosystemCertificates
      simp only [Cluster.exec, hget, hz, Bool.false_eq_true, if_false, ite_self, hw]
      cases r <;> simp
    constructor
    · intro x hx host ips names hc
      have hmem : x.call ∈ (runCertificates K cluster qc s).2.2.log.map ClusterExchange.call :=
        List.mem_map_of_mem _ hx
      rw [hrun.1, hc] at hmem
      simp at hmem
    · intro secret' s1' h
      cases h
      refine ⟨_, hrun.1, mapGet_mapSet_self _ _ _, ?_, hrun.2⟩
      show mapGet _ _ = _
      rw [mapGet_mapSet_ne _ _ _ _ hk, mapGet_mapSet_self]


/-- C11 at the sample context with the certificate secret `custom-tls` named
in the spec. -/
theorem ManageQuayEcosystemCertificates_user_supplied_witness :
    (∀ x ∈ (runCertificates sampleConstants sampleCluster suppliedConfiguration
        none).2.2.log,
      ∀ host ips names, x.call ≠ .GenerateSelfSignedCertKey host ips names) ∧
    (∀ (secret : Secret) (s1 : Option (List (String × Bytes))),
      sampleCluster (.GetSecret (GetConfigMapSecretName suppliedConfiguration.QuayEcosystem)
        suppliedConfiguration.QuayEcosystem.Namespace) none = ((secret, none), s1) →
      ∃ written : Secret,
        (runCertificates sampleConstants sampleCluster suppliedConfiguration
          none).2.2.log.map ClusterExchange.call =
          [.GetSecret (GetConfigMapSecretName suppliedConfiguration.QuayEcosystem)
             suppliedConfiguration.QuayEcosystem.Namespace,
           .CreateOrUpdateResource suppliedConfiguration.QuayEcosystem
             suppliedConfiguration.QuayEcosystem.Namespace written] ∧
        readData written.Data sampleConstants.QuayAppConfigSSLCertificateSecretKey =
          some suppliedConfiguration.QuaySslCertificate ∧
        readData written.Data sampleConstants.QuayAppConfigSSLPrivateKeySecretKey =
          some suppliedConfiguration.QuaySslPrivateKey ∧
        (runCertificates sampleConstants sampleCluster suppliedConfiguration none).2.1 =
          suppliedConfiguration) :=
  ManageQuayEcosystemCertificates_user_supplied sampleConstants sampleCluster
    suppliedConfiguration none (by decide) (by decide)

/-- C12, counterexample: the secret of the sample cluster already holds the
pair `[1]`, `[2]` that the pass stores, and `ManageQuayEcosystemCertificates`
still issues a write of the secret. -/
theorem ManageQuayEcosystemCertificates_writes_anyway :
    (runCertificates sampleConstants sampleCluster sampleConfiguration
      (some [("ssl.cert", [1]), ("ssl.key", [2])])).2.2.log.map ClusterExchange.call =
      [.GetSecret "quay-enterprise-config-secret" "registry",
       .CreateOrUpdateResource sampleEcosystem "registry"
         { Name := "quay-enterprise-config-secret", Namespace := "registry",
           Data := some [("ssl.cert", [1]), ("ssl.key", [2])] }] :=
  rfl

/-- C12, amended: when the lookup returns the app config secret with non-empty
certificate and key entries and the stack spec names no certificate secret,
`ManageQuayEcosystemCertificates` issues exactly one write, of a secret with the
same name and namespace whose data, read at any entry name, equals the data the
secret held: the write stores what was there. -/
theorem ManageQuayEcosystemCertificates_rewrites_same_data {σ : Type} (K : Constants)
    (cluster : Cluster σ) (qc : QuayConfiguration) (s s1 : σ) (secret : Secret)
    (c p : Bytes)
    (hget : cluster (.GetSecret (GetConfigMapSecretName qc.QuayEcosystem)
      qc.QuayEcosystem.Namespace) s = ((secret, none), s1))
    (hc : readData secret.Data K.QuayAppConfigSSLCertificateSecretKey = some c)
    (hcne : c ≠ [])
    (hp : readData secret.Data K.QuayAppConfigSSLPrivateKeySecretKey = some p)
    (hpne : p ≠ [])
    (hname : qc.QuayEcosystem.Spec.Quay.SslCertificatesSecretName = "") :
    ∃ written : Secret,
      (runCertificates K cluster qc s).2.2.log.map ClusterExchange.call =
        [.GetSecret (GetConfigMapSecretName qc.QuayEcosystem) qc.QuayEcosystem.Namespace,
         .CreateOrUpdateResource qc.QuayEcosystem qc.QuayEcosystem.Namespace written] ∧
      written.Name = secret.Name ∧ written.Namespace = secret.Namespace ∧
      ∀ k, readData written.Data k = readData secret.Data k := by
  have hconf : isQuayCertificatesConfigured K (some secret) = true :=
    (isQuayCertificatesConfigured_iff K secret).mpr ⟨⟨c, hc, hcne⟩, ⟨p, hp, hpne⟩⟩
  refine ⟨{ secret with Data := some (mapSet (mapSet
      (match secret.Data with
        | none => []
        | some data => data) K.QuayAppConfigSSLPrivateKeySecretKey p)
      K.QuayAppConfigSSLCertificateSecretKey c) }, ?_, rfl, rfl, ?_⟩
  · unfold runCertificates ManageQuayEcosystemCertificates
    simp only [Cluster.exec, hget, hconf, hname, IsZeroOfUnderlyingTypeString, hc, hp,
      Option.getD_some, Bool.not_true, Bool.false_eq_true, if_false, decide_True, if_true]
    split <;> rename_i heq <;> simp only [Prod.mk.injEq] at heq <;>
      obtain ⟨_, rfl⟩ := heq <;> simp
  · intro k
    cases hd : secret.Data with
    | none => rw [hd] at hc; cases hc
    | some m =>
      rw [hd] at hc hp
      show mapGet _ k = mapGet m k
      by_cases hkc : k = K.QuayAppConfigSSLCertificateSecretKey
      · subst hkc
        rw [mapGet_mapSet_self]
        exact hc.symm
      · rw [mapGet_mapSet_ne _ _ _ _ hkc]
        by_cases hkp : k = K.QuayAppConfigSSLPrivateKeySecretKey
        · subst hkp
          rw [mapGet_mapSet_self]
          exact hp.symm
        · rw [mapGet_mapSet_ne _ _ _ _ hkp]

/-- C12, amended, at the sample cluster whose secret holds the pair `[1]`,
`[2]`. -/
theorem ManageQuayEcosystemCertificates_rewrites_same_data_witness :
    ∃ written : Secret,
      (runCertificates sampleConstants sampleCluster sampleConfiguration
        (some [("ssl.cert", [1]), ("ssl.key", [2])])).2.2.log.map ClusterExchange.call =
        [.GetSecret (GetConfigMapSecretName sampleConfiguration.QuayEcosystem)
           sampleConfiguration.QuayEcosystem.Namespace,
         .CreateOrUpdateResource sampleConfiguration.QuayEcosystem
           sampleConfiguration.QuayEcosystem.Namespace written] ∧
      written.Name = "quay-enterprise-config-secret" ∧ written.Namespace = "registry" ∧
      ∀ k, readData written.Data k =
        readData (some [("ssl.cert", [1]), ("ssl.key", [2])]) k :=
  ManageQuayEcosystemCertificates_rewrites_same_data sampleConstants sampleCluster
    sampleConfiguration
    (some [("ssl.cert", [1]), ("ssl.key", [2])]) (some [("ssl.cert", [1]), ("ssl.key", [2])])
    { Name := "quay-enterprise-config-secret", Namespace := "registry",
      Data := some [("ssl.cert", [1]), ("ssl.key", [2])] }
    [1] [2] rfl rfl (List.cons_ne_nil _ _) rfl (List.cons_ne_nil _ _) rfl


/-! ## Claims about the readiness verifier and the secret steps -/

/-- C13, counterexample: the deployment read back has no available replica,
the watch reports it scaled, and `verifyDeployment` reports ready. -/
theorem verifyDeployment_ready_without_replica :
    ((answering scalingCluster) (.Get .Deployment "example-redis" "registry") ()).1 =
      ({ AvailableReplicas := 0 }, none) ∧
    (verifyDeployment (answering scalingCluster) "example-redis" "registry"
      (startPass sampleConfiguration ())).1 = (none, none) :=
  ⟨rfl, rfl⟩

/-- C13, amended: a failed lookup is returned as the error; after a lookup
without error `verifyDeployment` reports ready (no requeue instruction, no
error) if and only if the available replica count is 1 or the deployment watch
reports the deployment scaled, and otherwise it returns the requeue instruction
with a delay of 5 seconds and no error.  The watch is asked only when the count
is not 1. -/
theorem verifyDeployment_outcome {σ : Type} (env : Orchestration σ) (name ns : String)
    (p : Pass σ) :
    (∀ d err s1, env (.Get .Deployment name ns) p.cluster = ((d, some err), s1) →
      (verifyDeployment env name ns p).1 = (none, some err)) ∧
    (∀ (d : Deployment) s1 scaled s2,
      env (.Get .Deployment name ns) p.cluster = ((d, none), s1) →
      env (.GetDeploymentStatus ns name) s1 = (scaled, s2) →
      ((verifyDeployment env name ns p).1 = (none, none) ↔
        (d.AvailableReplicas = 1 ∨ scaled = true)) ∧
      (¬ (d.AvailableReplicas = 1 ∨ scaled = true) →
        (verifyDeployment env name ns p).1 =
          (some { Requeue := true, RequeueAfter := 5000000000 }, none)) ∧
      (d.AvailableReplicas = 1 →
        (verifyDeployment env name ns p).2.log.map OpExchange.op =
          p.log.map OpExchange.op ++ [.Get .Deployment name ns])) := by
  constructor
  · intro d err s1 hget
    unfold verifyDeployment
    simp [Orchestration.exec, hget]
  · intro d s1 scaled s2 hget hscaled
    unfold verifyDeployment
    simp only [Orchestration.exec, hget, hscaled]
    by_cases h1 : d.AvailableReplicas = 1
    · simp [h1]
    · cases scaled <;> simp [h1, Second]


/-- C17: each of the four secret steps (app config, scanner config, scanner
trust-CA, scanner signing key) looks its secret up by name; when the lookup
reports not-found it issues exactly one create of a secret with that name and
no data; when the secret exists it issues no write and returns no error; on any
other lookup error it returns that error and issues no write. -/
theorem secret_steps_create_if_absent {σ : Type} (env : Orchestration σ)
    (meta : ObjectMeta) :
    CreatesEmptySecretIfAbsent env meta "quay-enterprise-config-secret"
      (createQuayConfigSecret env meta) ∧
    CreatesEmptySecretIfAbsent env meta "clair-config-secret"
      (createClairConfigSecret env meta) ∧
    CreatesEmptySecretIfAbsent env meta "clair-trust-ca-secret"
      (createClairTrustCASecret env meta) ∧
    CreatesEmptySecretIfAbsent env meta "security-scanner-key-secret"
      (createSecurityScannerKeySecret env meta) := by
  refine ⟨?_, ?_, ?_, ?_⟩
  · intro p found e s1 hget
    refine ⟨?_, ?_, ?_⟩
    · intro he
      subst he
      unfold createQuayConfigSecret
      simp [Orchestration.exec, GetConfigMapSecretName, hget]
    · intro err he hnf
      subst he
      unfold createQuayConfigSecret
      simp [Orchestration.exec, GetConfigMapSecretName, hget, hnf]
    · intro err he hnf r s2 hcreate
      subst he
      unfold createQuayConfigSecret
      simp [Orchestration.exec, GetConfigMapSecretName, hget, hnf, GetSecretDefinition,
        hcreate]
  · intro p found e s1 hget
    refine ⟨?_, ?_, ?_⟩
    · intro he
      subst he
      unfold createClairConfigSecret
      simp [Orchestration.exec, GetClairConfigSecretName, hget]
    · intro err he hnf
      subst he
      unfold createClairConfigSecret
      simp [Orchestration.exec, GetClairConfigSecretName, hget, hnf]
    · intro err he hnf r s2 hcreate
      subst he
      unfold createClairConfigSecret
      simp [Orchestration.exec, GetClairConfigSecretName, hget, hnf, GetSecretDefinition,
        hcreate]
  · intro p found e s1 hget
    refine ⟨?_, ?_, ?_⟩
    · intro he
      subst he
      unfold createClairTrustCASecret
      simp [Orchestration.exec, GetClairTrustCASecretName, hget]
    · intro err he hnf
      subst he
      unfold createClairTrustCASecret
      simp [Orchestration.exec, GetClairTrustCASecretName, hget, hnf]
    · intro err he hnf r s2 hcreate
      subst he
      unfold createClairTrustCASecret
      simp [Orchestration.exec, GetClairTrustCASecretName, hget, hnf, GetSecretDefinition,
        hcreate]
  · intro p found e s1 hget
    refine ⟨?_, ?_, ?_⟩
    · intro he
      subst he
      unfold createSecurityScannerKeySecret
      simp [Orchestration.exec, GetSecurityScannerKeySecretName, hget]
    · intro err he hnf
      subst he
      unfold createSecurityScannerKeySecret
      simp [Orchestration.exec, GetSecurityScannerKeySecretName, hget, hnf]
    · intro err he hnf r s2 hcreate
      subst he
      unfold createSecurityScannerKeySecret
      simp [Orchestration.exec, GetSecurityScannerKeySecretName, hget, hnf,
        GetSecretDefinition, hcreate]


/-- C18, failing input: the extension listing of the sample cluster contains
`pg_trgm`, and `configurePostgreSQL` still issues the `CREATE EXTENSION pg_trgm`
statement and the `create database clair` statement: the listing is searched
for `pg_trim`. -/
theorem configurePostgreSQL_creates_listed_extension :
    stringsContains readyCluster.stdout "pg_trgm" = true ∧
    stringsContains readyCluster.stdout "pg_trim" = false ∧
    (configurePostgreSQL sampleProvisioning (answering readyCluster) sampleMeta
      (startPass sampleConfiguration ())).2.log.map OpExchange.op =
      [.ListPods "quay-enterprise-component=quay-database" "registry",
       .ExecIntoPod "example-quay-postgresql-1-abcde"
         ("echo \"SELECT * FROM pg_available_extensions\" | "
           ++ "/opt/rh/rh-postgresql96/root/usr/bin/psql -d quay") "" "registry",
       .ExecIntoPod "example-quay-postgresql-1-abcde"
         ("echo \"CREATE EXTENSION pg_trgm\" | "
           ++ "/opt/rh/rh-postgresql96/root/usr/bin/psql -d quay") "" "registry",
       .ExecIntoPod "example-quay-postgresql-1-abcde"
         ("echo \"create database clair\" | "
           ++ "/opt/rh/rh-postgresql96/root/usr/bin/psql -d quay") "" "registry"] :=
  ⟨rfl, rfl, rfl⟩

/-! ## Every step issues only `Emitted` operations -/

theorem Run.refl {σ : Type} (b : Prop) (p : Pass σ) : Run b p p :=
  ⟨rfl, [], by simp, by simp⟩

theorem Run.andThen {σ : Type} {b : Prop} {p q r : Pass σ} (h1 : Run b p q) (h2 : Run b q r) : Run b p r := by
  obtain ⟨hs1, e1, hl1, he1⟩ := h1
  obtain ⟨hs2, e2, hl2, he2⟩ := h2
  refine ⟨hs2.trans hs1, e1 ++ e2, by rw [hl2, hl1, List.append_assoc], ?_⟩
  intro e he
  rcases List.mem_append.mp he with h | h
  · exact he1 e h
  · rw [← hs1]; exact he2 e h

theorem Run.step {σ : Type} {b : Prop} {env : Orchestration σ} {p0 p q : Pass σ} {op : ClusterOp}
    {r : op.Ret} (hp : Run b p0 p) (heq : env.exec op p = (r, q))
    (h : Emitted p.quayConfiguration.QuayEcosystem.Spec b op) : Run b p0 q := by
  refine hp.andThen ?_
  unfold Orchestration.exec at heq
  simp only [Prod.mk.injEq] at heq
  obtain ⟨_, rfl⟩ := heq
  exact ⟨rfl, [_], rfl, by simpa using h⟩

theorem Run.exec {σ : Type} {b : Prop} {p0 p : Pass σ} (hp : Run b p0 p) (env : Orchestration σ)
    {op : ClusterOp} (h : Emitted p.quayConfiguration.QuayEcosystem.Spec b op) :
    Run b p0 (env.exec op p).2 :=
  hp.step rfl h

theorem Run.spec {σ : Type} {b : Prop} {p q : Pass σ} (h : Run b p q) :
    q.quayConfiguration.QuayEcosystem.Spec = p.quayConfiguration.QuayEcosystem.Spec := h.1

theorem Run.of_eq {σ α : Type} {b : Prop} {f : Pass σ → α × Pass σ} (h : ∀ p, Run b p (f p).2)
    {p q : Pass σ} {r : α} (heq : f p = (r, q)) : Run b p q := by
  have := h p
  rw [heq] at this
  exact this

theorem verifyDeployment_run {σ : Type} {b : Prop} (env : Orchestration σ) (name ns : String)
    (p : Pass σ) : Run b p (verifyDeployment env name ns p).2 := by
  unfold verifyDeployment
  split
  · rename_i h
    exact (Run.refl b p).step h (.get _ _ _)
  · rename_i h
    have h1 := (Run.refl b p).step h (.get _ _ _)
    split
    · split
      rename_i h2
      have h3 := h1.step h2 (.watch _ _)
      split <;> exact h3
    · exact h1

theorem Run.of_val {σ α : Type} {b : Prop} {p q : Pass σ} {x : α × Pass σ} {r : α} (h : Run b p x.2)
    (heq : x = (r, q)) : Run b p q := by
  subst heq
  exact h

theorem Run.context {σ : Type} {b : Prop} {p q : Pass σ}
    (hs : q.quayConfiguration.QuayEcosystem.Spec = p.quayConfiguration.QuayEcosystem.Spec)
    (hl : q.log = p.log) : Run b p q :=
  ⟨hs, [], by simp [hl], by simp⟩

theorem createQuayConfigSecret_run {σ : Type} {b : Prop} (env : Orchestration σ) (meta : ObjectMeta)
    (p : Pass σ) : Run b p (createQuayConfigSecret env meta p).2 := by
  unfold createQuayConfigSecret
  dsimp only
  split
  · rename_i h
    have h1 := (Run.refl b p).step h (.get _ _ _)
    split
    · exact h1.exec env (.emptySecret _ _ _)
    · exact h1
  · rename_i h
    exact (Run.refl b p).step h (.get _ _ _)

theorem createClairConfigSecret_run {σ : Type} {b : Prop} (env : Orchestration σ) (meta : ObjectMeta)
    (p : Pass σ) : Run b p (createClairConfigSecret env meta p).2 := by
  unfold createClairConfigSecret
  dsimp only
  split
  · rename_i h
    have h1 := (Run.refl b p).step h (.get _ _ _)
    split
    · exact h1.exec env (.emptySecret _ _ _)
    · exact h1
  · rename_i h
    exact (Run.refl b p).step h (.get _ _ _)

theorem createClairTrustCASecret_run {σ : Type} {b : Prop} (env : Orchestration σ) (meta : ObjectMeta)
    (p : Pass σ) : Run b p (createClairTrustCASecret env meta p).2 := by
  unfold createClairTrustCASecret
  dsimp only
  split
  · rename_i h
    have h1 := (Run.refl b p).step h (.get _ _ _)
    split
    · exact h1.exec env (.emptySecret _ _ _)
    · exact h1
  · rename_i h
    exact (Run.refl b p).step h (.get _ _ _)

theorem createSecurityScannerKeySecret_run {σ : Type} {b : Prop} (env : Orchestration σ) (meta : ObjectMeta)
    (p : Pass σ) : Run b p (createSecurityScannerKeySecret env meta p).2 := by
  unfold createSecurityScannerKeySecret
  dsimp only
  split
  · rename_i h
    have h1 := (Run.refl b p).step h (.get _ _ _)
    split
    · exact h1.exec env (.emptySecret _ _ _)
    · exact h1
  · rename_i h
    exact (Run.refl b p).step h (.get _ _ _)

theorem createRBAC_run {σ : Type} {b : Prop} (env : Orchestration σ) (meta : ObjectMeta)
    (p : Pass σ) : Run b p (createRBAC env meta p).2 := by
  unfold createRBAC
  dsimp only
  split
  · rename_i h
    exact (Run.refl b p).step h (.role _ _ _)
  · rename_i h
    have h1 := (Run.refl b p).step h (.role _ _ _)
    split <;> rename_i h2 <;> exact h1.step h2 (.roleBinding _ _ _)

theorem createServiceAccount_run {σ : Type} {b : Prop} (env : Orchestration σ) (name : String)
    (meta : ObjectMeta) (p : Pass σ) : Run b p (createServiceAccount env name meta p).2 := by
  unfold createServiceAccount
  dsimp only
  split
  · rename_i h
    have h1 := (Run.refl b p).step h (.get _ _ _)
    split
    · exact h1.exec env (.serviceAccount _ _ _)
    · exact h1
  · rename_i h
    exact (Run.refl b p).step h (.get _ _ _)

theorem createServiceAccounts_run {σ : Type} {b : Prop} (P : ProvisioningConstants)
    (env : Orchestration σ) (meta : ObjectMeta) (p : Pass σ) :
    Run b p (createServiceAccounts P env meta p).2 := by
  unfold createServiceAccounts
  dsimp only
  have hfirst : Run b p
      (if IsZeroOfUnderlyingTypeString p.quayConfiguration.QuayEcosystem.Spec.Redis.Hostname
        then createServiceAccount env P.RedisServiceAccount meta p else (none, p)).2 := by
    split
    · exact createServiceAccount_run env _ meta p
    · exact Run.refl b p
  split
  · rename_i h
    exact hfirst.of_val h
  · rename_i h
    have h1 := hfirst.of_val h
    split <;> rename_i h2 <;>
      exact h1.andThen (Run.of_val (createServiceAccount_run env _ meta _) h2)

theorem configureAnyUIDSCC_run {σ : Type} {b : Prop} (P : ProvisioningConstants)
    (env : Orchestration σ) (name : String) (meta : ObjectMeta) (p : Pass σ) :
    Run b p (configureAnyUIDSCC P env name meta p).2 := by
  unfold configureAnyUIDSCC
  dsimp only
  split
  · rename_i h
    exact (Run.refl b p).step h (.get _ _ _)
  · rename_i h
    have h1 := (Run.refl b p).step h (.get _ _ _)
    split
    · split <;> rename_i h2 <;> exact h1.step h2 (.allowList _ _)
    · exact h1

theorem configureAnyUIDSCCs_run {σ : Type} {b : Prop} (P : ProvisioningConstants)
    (env : Orchestration σ) (meta : ObjectMeta) (p : Pass σ) :
    Run b p (configureAnyUIDSCCs P env meta p).2 := by
  unfold configureAnyUIDSCCs
  split <;> rename_i h <;> exact Run.of_val (configureAnyUIDSCC_run P env _ meta p) h

theorem createRedisService_run {σ : Type} {b : Prop} (env : Orchestration σ) (meta : ObjectMeta)
    (p : Pass σ)
    (hz : IsZeroOfUnderlyingTypeString p.quayConfiguration.QuayEcosystem.Spec.Redis.Hostname
      = true) : Run b p (createRedisService env meta p).2 := by
  unfold createRedisService
  dsimp only
  split <;> rename_i h <;> exact (Run.refl b p).step h (.redisService hz _ _ _)

theorem redisDeployment_run {σ : Type} {b : Prop} (env : Orchestration σ) (meta : ObjectMeta)
    (p : Pass σ)
    (hz : IsZeroOfUnderlyingTypeString p.quayConfiguration.QuayEcosystem.Spec.Redis.Hostname
      = true) : Run b p (redisDeployment env meta p).2 := by
  unfold redisDeployment
  dsimp only
  split
  · rename_i h
    exact (Run.refl b p).step h (.redisDeployment hz _ _ _)
  · rename_i h
    have h1 := (Run.refl b p).step h (.redisDeployment hz _ _ _)
    exact (h1.exec env .pause).andThen (verifyDeployment_run env _ _ _)

theorem applyDatabaseResources_run {σ : Type} {b : Prop} (env : Orchestration σ)
    (resources : List Object) (p : Pass σ)
    (hr : ∀ resource ∈ resources, ∀ (o : Option QuayEcosystem) (ns : String),
      Emitted p.quayConfiguration.QuayEcosystem.Spec b
        (.CreateResourceIfNotExists o ns resource)) :
    Run b p (applyDatabaseResources env resources p).2 := by
  induction resources generalizing p with
  | nil => exact Run.refl b p
  | cons resource more ih =>
    unfold applyDatabaseResources
    split
    · rename_i h
      exact (Run.refl b p).step h (hr resource (List.mem_cons_self _ _) _ _)
    · rename_i h
      have h1 := (Run.refl b p).step h (hr resource (List.mem_cons_self _ _) _ _)
      refine h1.andThen (ih _ ?_)
      intro r hmem o ns
      rw [h1.spec]
      exact hr r (List.mem_cons_of_mem _ hmem) o ns

theorem createQuayService_run {σ : Type} {b : Prop} (env : Orchestration σ) (meta : ObjectMeta)
    (p : Pass σ) : Run b p (createQuayService env meta p).2 := by
  unfold createQuayService
  dsimp only
  split <;> rename_i h <;> exact (Run.refl b p).step h (.quayService _ _ _)

theorem createQuayConfigService_run {σ : Type} {b : Prop} (env : Orchestration σ) (meta : ObjectMeta)
    (p : Pass σ) : Run b p (createQuayConfigService env meta p).2 := by
  unfold createQuayConfigService
  dsimp only
  split <;> rename_i h <;> exact (Run.refl b p).step h (.quayConfigService _ _ _)

theorem createClairService_run {σ : Type} {b : Prop} (env : Orchestration σ) (meta : ObjectMeta)
    (p : Pass σ) : Run b p (createClairService env meta p).2 := by
  unfold createClairService
  dsimp only
  split <;> rename_i h <;> exact (Run.refl b p).step h (.clairService _ _ _)

theorem createQuayConfigRoute_run {σ : Type} {b : Prop} (env : Orchestration σ) (meta : ObjectMeta)
    (p : Pass σ) : Run b p (createQuayConfigRoute env meta p).2 := by
  unfold createQuayConfigRoute
  dsimp only
  split <;> rename_i h <;> exact (Run.refl b p).step h (.route _ _ _)

theorem quayDeployment_run {σ : Type} {b : Prop} (env : Orchestration σ) (meta : ObjectMeta)
    (p : Pass σ) : Run b p (quayDeployment env meta p).2 := by
  unfold quayDeployment
  dsimp only
  split <;> rename_i h <;> exact (Run.refl b p).step h (.quayDeployment _ _ _)

theorem clairDeployment_run {σ : Type} {b : Prop} (env : Orchestration σ) (meta : ObjectMeta)
    (p : Pass σ) : Run b p (clairDeployment env meta p).2 := by
  unfold clairDeployment
  dsimp only
  split <;> rename_i h <;> exact (Run.refl b p).step h (.clairDeployment _ _ _)

theorem createQuayDatabase_run {σ : Type} {b : Prop} (P : ProvisioningConstants)
    (env : Orchestration σ) (meta : ObjectMeta) (p : Pass σ)
    (hz : IsZeroOfUnderlyingTypeString
      p.quayConfiguration.QuayEcosystem.Spec.Quay.Database.Server = true) :
    Run b p (createQuayDatabase P env meta p).2 := by
  unfold createQuayDatabase
  cases hv : p.quayConfiguration.ValidProvidedQuayDatabaseSecret <;>
    cases hs : IsZeroOfUnderlyingTypeString
      p.quayConfiguration.QuayEcosystem.Spec.Quay.Database.VolumeSize <;>
    simp only [hv, hs, Bool.not_false, Bool.not_true, if_true, if_false, List.nil_append,
      Bool.false_eq_true] <;>
    split
  all_goals rename_i q h
  all_goals
    have h1 : Run b p q := by
      refine Run.andThen ?_ (Run.of_val (applyDatabaseResources_run env _ _ ?_) h)
      · exact Run.context rfl rfl
      simp only [List.forall_mem_append, List.forall_mem_singleton]
      repeat' apply And.intro
      all_goals
        intro o ns
        first
        | exact .databaseSecret hz _ _ _ _
        | exact .databaseVolume hz _ _ _
        | exact .databaseService hz _ _ _
        | exact .databaseDeployment hz _ _ _
    first
    | exact h1
    | exact (h1.exec env .pause).andThen (verifyDeployment_run env _ _ _)

theorem configurePostgreSQL_run {σ : Type} {b : Prop} (P : ProvisioningConstants)
    (env : Orchestration σ) (meta : ObjectMeta) (p : Pass σ)
    (hz : IsZeroOfUnderlyingTypeString
      p.quayConfiguration.QuayEcosystem.Spec.Quay.Database.Server = true) (hb : b) :
    Run b p (configurePostgreSQL P env meta p).2 := by
  unfold configurePostgreSQL
  split
  · rename_i h
    exact (Run.refl b p).step h (.listPods hz hb _ _)
  · rename_i h
    have h1 := (Run.refl b p).step h (.listPods hz hb _ _)
    have hz1 := hz
    rw [← h1.spec] at hz1
    split
    · exact h1
    · split
      rename_i h2
      have h3 := h1.step h2 (.execIntoPod hz1 hb _ _ _ _)
      have hz3 := hz
      rw [← h3.spec] at hz3
      split
      · exact h3
      · split
        · exact h3
        · split
          rename_i h4
          have h5 := h3.step h4 (.execIntoPod hz3 hb _ _ _ _)
          have hz5 := hz
          rw [← h5.spec] at hz5
          split
          · exact h5
          · split
            rename_i h6
            have h7 := h5.step h6 (.execIntoPod hz5 hb _ _ _ _)
            split <;> exact h7

theorem createQuayRoute_run {σ : Type} {b : Prop} (env : Orchestration σ) (meta : ObjectMeta)
    (p : Pass σ) : Run b p (createQuayRoute env meta p).2 := by
  unfold createQuayRoute
  dsimp only
  split
  · rename_i h
    exact (Run.refl b p).step h (.route _ _ _)
  · rename_i h
    have h1 := ((Run.refl b p).step h (.route _ _ _)).exec env .pause
    split
    · rename_i h2
      exact h1.step h2 (.get _ _ _)
    · rename_i h2
      exact (h1.step h2 (.get _ _ _)).andThen (Run.context rfl rfl)

theorem createClairRoute_run {σ : Type} {b : Prop} (env : Orchestration σ) (meta : ObjectMeta)
    (p : Pass σ) : Run b p (createClairRoute env meta p).2 := by
  unfold createClairRoute
  dsimp only
  split
  · rename_i h
    exact (Run.refl b p).step h (.route _ _ _)
  · rename_i h
    have h1 := ((Run.refl b p).step h (.route _ _ _)).exec env .pause
    split
    · rename_i h2
      exact h1.step h2 (.get _ _ _)
    · rename_i h2
      exact (h1.step h2 (.get _ _ _)).andThen (Run.context rfl rfl)

theorem quayRegistryStorageLoop_run {σ : Type} {b : Prop} (env : Orchestration σ) (meta : ObjectMeta)
    (backends : List RegistryBackend) (p : Pass σ) :
    Run b p (quayRegistryStorageLoop env meta backends p).2 := by
  induction backends generalizing p meta with
  | nil => exact Run.refl b p
  | cons backend more ih =>
    unfold quayRegistryStorageLoop
    dsimp only
    split
    · split
      · rename_i h
        exact (Run.refl b p).step h (.registryVolume _ _ _)
      · rename_i h
        exact ((Run.refl b p).step h (.registryVolume _ _ _)).andThen (ih _ _)
    · exact ih meta p

theorem quayRegistryStorage_run {σ : Type} {b : Prop} (env : Orchestration σ) (meta : ObjectMeta)
    (p : Pass σ) : Run b p (quayRegistryStorage env meta p).2 :=
  quayRegistryStorageLoop_run env meta _ p

theorem quayConfigDeployment_run {σ : Type} {b : Prop} (P : ProvisioningConstants)
    (env : Orchestration σ) (meta : ObjectMeta) (p : Pass σ) :
    Run b p (quayConfigDeployment P env meta p).2 := by
  unfold quayConfigDeployment
  dsimp only
  have hsecret : Run b p
      (if (!p.quayConfiguration.ValidProvidedQuayConfigPasswordSecret) = true then
        env.exec (.CreateOrUpdateResource (some p.quayConfiguration.QuayEcosystem)
          p.quayConfiguration.QuayEcosystem.Namespace
          (GetSecretDefinitionFromCredentialsMap
            (GetQuayConfigResourcesName p.quayConfiguration.QuayEcosystem) meta
            P.DefaultQuayConfigCredentials)) p
      else (none, p)).2 := by
    split
    · exact (Run.refl b p).exec env (.configSecret _ _ _ _)
    · exact Run.refl b p
  split
  · rename_i h
    exact hsecret.of_val h
  · rename_i h
    have h1 := hsecret.of_val h
    split <;> rename_i h2 <;> exact h1.step h2 (.quayConfigDeployment _ _ _)

theorem DeployClair_run {σ : Type} {b : Prop} (env : Orchestration σ) (meta : ObjectMeta)
    (p : Pass σ) : Run b p (DeployClair env meta p).2 := by
  unfold DeployClair
  dsimp only
  split
  · rename_i h
    exact Run.of_val (clairDeployment_run env meta p) h
  · rename_i h
    exact ((Run.of_val (clairDeployment_run env meta p) h).exec env .pause).andThen
      (verifyDeployment_run env _ _ _)

theorem DeployQuayConfiguration_run {σ : Type} {b : Prop} (P : ProvisioningConstants)
    (env : Orchestration σ) (meta : ObjectMeta) (p : Pass σ) :
    Run b p (DeployQuayConfiguration P env meta p).2 := by
  unfold DeployQuayConfiguration
  dsimp only
  split
  · rename_i h
    exact Run.of_val (quayConfigDeployment_run P env meta p) h
  · rename_i h
    exact ((Run.of_val (quayConfigDeployment_run P env meta p) h).exec env .pause).andThen
      (verifyDeployment_run env _ _ _)

theorem DeployQuay_run {σ : Type} {b : Prop} (env : Orchestration σ) (meta : ObjectMeta)
    (p : Pass σ) : Run b p (DeployQuay env meta p).2 := by
  unfold DeployQuay
  dsimp only
  split
  · rename_i h
    exact Run.of_val (quayDeployment_run env meta p) h
  · rename_i h
    split
    · exact ((Run.of_val (quayDeployment_run env meta p) h).exec env .pause).andThen
        (verifyDeployment_run env _ _ _)
    · exact Run.of_val (quayDeployment_run env meta p) h

theorem errorPhase_run {σ : Type} {b : Prop} {step : Pass σ → Option ClusterError × Pass σ}
    (h : ∀ p, Run b p (step p).2) (p : Pass σ) : Run b p (errorPhase step p).2 := by
  unfold errorPhase
  split <;> rename_i heq <;> exact Run.of_val (h p) heq

theorem redisPhase_run {σ : Type} {b : Prop} (env : Orchestration σ) (meta : ObjectMeta)
    (p : Pass σ) : Run b p (redisPhase env meta p).2 := by
  unfold redisPhase
  split
  · rename_i hz
    split
    · rename_i h
      exact Run.of_val (createRedisService_run env meta p hz) h
    · rename_i h
      have h1 : Run b p _ := Run.of_val (createRedisService_run env meta p hz) h
      have hz1 := hz
      rw [← h1.spec] at hz1
      split <;> rename_i h2 <;>
        exact h1.andThen (Run.of_val (redisDeployment_run env meta _ hz1) h2)
  · exact Run.refl b p

theorem databasePhase_run {σ : Type} {b : Prop} (hb : b) (P : ProvisioningConstants)
    (env : Orchestration σ) (meta : ObjectMeta) (p : Pass σ) :
    Run b p (databasePhase P env meta p).2 := by
  unfold databasePhase
  split
  · rename_i hz
    split
    · rename_i h
      exact Run.of_val (createQuayDatabase_run P env meta p hz) h
    · rename_i h
      exact Run.of_val (createQuayDatabase_run P env meta p hz) h
    · rename_i h
      have h1 : Run b p _ := Run.of_val (createQuayDatabase_run P env meta p hz) h
      have hz1 := hz
      rw [← h1.spec] at hz1
      split <;> rename_i h2 <;>
        exact h1.andThen (Run.of_val (configurePostgreSQL_run P env meta _ hz1 hb) h2)
  · exact Run.refl b p

theorem storagePhase_run {σ : Type} {b : Prop} (env : Orchestration σ) (meta : ObjectMeta)
    (p : Pass σ) : Run b p (storagePhase env meta p).2 := by
  unfold storagePhase
  split
  · exact errorPhase_run (quayRegistryStorage_run env meta) p
  · exact Run.refl b p

theorem runPhases_run {σ : Type} {b : Prop} (phases : List (Phase σ))
    (h : ∀ phase ∈ phases, ∀ p, Run b p (phase p).2) (p : Pass σ) :
    Run b p (runPhases phases p).2 := by
  induction phases generalizing p with
  | nil => exact Run.refl b p
  | cons phase more ih =>
    unfold runPhases
    split
    · rename_i heq
      exact Run.of_val (h phase (List.mem_cons_self _ _) p) heq
    · rename_i heq
      exact (Run.of_val (h phase (List.mem_cons_self _ _) p) heq).andThen
        (ih (fun ph hph => h ph (List.mem_cons_of_mem _ hph)) _)

theorem corePhases_run {σ : Type} {b : Prop} (hb : b) (P : ProvisioningConstants)
    (env : Orchestration σ) (meta : ObjectMeta) :
    ∀ phase ∈ corePhases P env meta, ∀ p : Pass σ, Run b p (phase p).2 := by
  intro phase hmem
  simp only [corePhases, List.mem_cons, List.mem_singleton, List.not_mem_nil, or_false]
    at hmem
  rcases hmem with h | h | h | h | h | h | h | h | h | h | h | h | h | h | h | h <;> subst h
  · exact errorPhase_run (createQuayConfigSecret_run env meta)
  · exact errorPhase_run (createClairConfigSecret_run env meta)
  · exact errorPhase_run (createSecurityScannerKeySecret_run env meta)
  · exact errorPhase_run (createClairTrustCASecret_run env meta)
  · exact errorPhase_run (createRBAC_run env meta)
  · exact errorPhase_run (createServiceAccounts_run P env meta)
  · exact errorPhase_run (configureAnyUIDSCCs_run P env meta)
  · exact redisPhase_run env meta
  · exact databasePhase_run hb P env meta
  · exact errorPhase_run (createQuayService_run env meta)
  · exact errorPhase_run (createQuayConfigService_run env meta)
  · exact errorPhase_run (createClairService_run env meta)
  · exact errorPhase_run (createQuayRoute_run env meta)
  · exact errorPhase_run (createQuayConfigRoute_run env meta)
  · exact errorPhase_run (createClairRoute_run env meta)
  · exact storagePhase_run env meta

/-! ## `CoreResourceDeployment` phase by phase -/

theorem CoreResourceDeployment_eq_runPhases {σ : Type} (P : ProvisioningConstants)
    (env : Orchestration σ) (metaObject : ObjectMeta) (p : Pass σ) :
    CoreResourceDeployment P env metaObject p =
      runPhases (corePhases P env metaObject) p := by
  unfold CoreResourceDeployment corePhases
  simp only [runPhases, errorPhase]
  rcases h : createQuayConfigSecret env metaObject p with ⟨_ | err, p1⟩
  swap
  · rfl
  dsimp only
  clear h
  rcases h : createClairConfigSecret env metaObject p1 with ⟨_ | err, p2⟩
  swap
  · rfl
  dsimp only
  clear h
  rcases h : createSecurityScannerKeySecret env metaObject p2 with ⟨_ | err, p3⟩
  swap
  · rfl
  dsimp only
  clear h
  rcases h : createClairTrustCASecret env metaObject p3 with ⟨_ | err, p4⟩
  swap
  · rfl
  dsimp only
  clear h
  rcases h : createRBAC env metaObject p4 with ⟨_ | err, p5⟩
  swap
  · rfl
  dsimp only
  clear h
  rcases h : createServiceAccounts P env metaObject p5 with ⟨_ | err, p6⟩
  swap
  · rfl
  dsimp only
  clear h
  rcases h : configureAnyUIDSCCs P env metaObject p6 with ⟨_ | err, p7⟩
  swap
  · rfl
  dsimp only
  clear h
  rcases h : redisPhase env metaObject p7 with ⟨_ | returned, p8⟩
  swap
  · have h2 := h
    unfold redisPhase at h2
    rw [h2]
  have h2 := h
  unfold redisPhase at h2
  rw [h2]
  clear h h2
  dsimp only
  rcases h : databasePhase P env metaObject p8 with ⟨_ | returned, p9⟩
  swap
  · have h2 := h
    unfold databasePhase at h2
    rw [h2]
  have h2 := h
  unfold databasePhase at h2
  rw [h2]
  clear h h2
  dsimp only
  rcases h : createQuayService env metaObject p9 with ⟨_ | err, p10⟩
  swap
  · rfl
  dsimp only
  clear h
  rcases h : createQuayConfigService env metaObject p10 with ⟨_ | err, p11⟩
  swap
  · rfl
  dsimp only
  clear h
  rcases h : createClairService env metaObject p11 with ⟨_ | err, p12⟩
  swap
  · rfl
  dsimp only
  clear h
  rcases h : createQuayRoute env metaObject p12 with ⟨_ | err, p13⟩
  swap
  · rfl
  dsimp only
  clear h
  rcases h : createQuayConfigRoute env metaObject p13 with ⟨_ | err, p14⟩
  swap
  · rfl
  dsimp only
  clear h
  rcases h : createClairRoute env metaObject p14 with ⟨_ | err, p15⟩
  swap
  · rfl
  dsimp only
  clear h
  unfold storagePhase errorPhase
  by_cases hc : (!IsZeroOfUnderlyingTypePtr
      p15.quayConfiguration.QuayEcosystem.Spec.Quay.RegistryStorage) = true
  · rw [if_pos hc, if_pos hc]
    rcases h : quayRegistryStorage env metaObject p15 with ⟨_ | err, p16⟩ <;> rfl
  · rw [if_neg hc, if_neg hc]

/-! ## `CoreResourceDeployment`: what a step that returns does to the pass -/

theorem runPhases_advance {σ : Type} (phases : List (Phase σ)) (k : Nat) (p pk : Pass σ)
    (h : advance phases k p = some pk) :
    runPhases phases p = runPhases (phases.drop k) pk := by
  induction k generalizing phases p with
  | zero =>
    cases phases <;> simp only [advance, Option.some.injEq] at h <;> subst h <;> rfl
  | succ k ih =>
    cases phases with
    | nil => simp [advance] at h
    | cons phase more =>
      simp only [advance] at h
      rcases hphase : phase p with ⟨_ | r, q⟩
      · rw [hphase] at h
        simp only [runPhases, hphase, List.drop_succ_cons]
        exact ih more q h
      · rw [hphase] at h
        simp at h

theorem runPhases_returns {σ : Type} (phases : List (Phase σ)) (k : Nat) (p pk q : Pass σ)
    (phase : Phase σ) (returned : Returned) (h : advance phases k p = some pk)
    (hk : phases[k]? = some phase) (hret : phase pk = (some returned, q)) :
    runPhases phases p = (returned, q) := by
  rw [runPhases_advance phases k p pk h]
  have hdrop : phases.drop k = phase :: phases.drop (k + 1) := by
    have hlt : k < phases.length := by
      rcases Nat.lt_or_ge k phases.length with hlt | hge
      · exact hlt
      · rw [List.getElem?_eq_none hge] at hk
        cases hk
    rw [List.getElem?_eq_getElem hlt] at hk
    cases hk
    exact List.drop_eq_getElem_cons hlt
  rw [hdrop]
  simp only [runPhases, hret]

theorem advance_run {σ : Type} {b : Prop} (phases : List (Phase σ))
    (hrun : ∀ phase ∈ phases, ∀ p, Run b p (phase p).2) (k : Nat) (p pk : Pass σ)
    (h : advance phases k p = some pk) : Run b p pk := by
  induction k generalizing phases p with
  | zero =>
    cases phases <;> simp only [advance, Option.some.injEq] at h <;> subst h <;>
      exact Run.refl b _
  | succ k ih =>
    cases phases with
    | nil => simp [advance] at h
    | cons phase more =>
      simp only [advance] at h
      rcases hphase : phase p with ⟨_ | r, q⟩
      · rw [hphase] at h
        exact (Run.of_val (hrun phase (List.mem_cons_self _ _) p) hphase).andThen
          (ih more (fun ph hph => hrun ph (List.mem_cons_of_mem _ hph)) q h)
      · rw [hphase] at h
        simp at h

/-- C14, the failing input and the sibling path.  On a cluster whose cache
workload has no available replica and whose watch gives up, with an external
database server in the spec: the readiness check of the cache workload returns
the requeue instruction, yet `CoreResourceDeployment` returns `(nil, nil)` and
goes on to converge the services and routes of the later phases.  The database
block does what the claim says: when `createQuayDatabase` returns a requeue
instruction, the pass returns it from the state that call left. -/
theorem CoreResourceDeployment_drops_cache_requeue :
    (advance (corePhases sampleProvisioning (answering freshCluster) sampleMeta) 7
        (startPass externalDatabaseConfiguration ())).map
      (fun p7 => (redisDeployment (answering freshCluster) sampleMeta
        (createRedisService (answering freshCluster) sampleMeta p7).2).1) =
      some (some { Requeue := true, RequeueAfter := 5000000000 }, none) ∧
    (CoreResourceDeployment sampleProvisioning (answering freshCluster) sampleMeta
      (startPass externalDatabaseConfiguration ())).1 = (none, none) ∧
    ((CoreResourceDeployment sampleProvisioning (answering freshCluster) sampleMeta
      (startPass externalDatabaseConfiguration ())).2.log.map OpExchange.op).drop 16 =
      [.CreateResourceIfNotExists (some externalDatabaseConfiguration.QuayEcosystem)
         "registry" (.built .Service "GetRedisServiceDefinition" sampleMeta),
       .CreateResourceIfNotExists (some externalDatabaseConfiguration.QuayEcosystem)
         "registry" (.built .Deployment "GetRedisDeploymentDefinition" sampleMeta),
       .Sleep 2000000000,
       .Get .Deployment "example-redis" "registry",
       .GetDeploymentStatus "registry" "example-redis",
       .CreateResourceIfNotExists (some externalDatabaseConfiguration.QuayEcosystem)
         "registry" (.built .Service "GetQuayServiceDefinition" sampleMeta),
       .CreateResourceIfNotExists (some externalDatabaseConfiguration.QuayEcosystem)
         "registry" (.built .Service "GetQuayConfigServiceDefinition" sampleMeta),
       .CreateResourceIfNotExists (some externalDatabaseConfiguration.QuayEcosystem)
         "registry" (.built .Service "GetClairServiceDefinition" sampleMeta),
       .CreateOrUpdateResource (some externalDatabaseConfiguration.QuayEcosystem)
         "registry" (.route (GetQuayRouteDefinition
           { Name := "example-quay", Namespace := "registry" }
           externalDatabaseConfiguration.QuayEcosystem)),
       .Sleep 2000000000,
       .Get .Route "example-quay" "registry"] ++
      ((CoreResourceDeployment sampleProvisioning (answering freshCluster) sampleMeta
        (startPass externalDatabaseConfiguration ())).2.log.map OpExchange.op).drop 27 ∧
    ∀ (σ : Type) (P : ProvisioningConstants) (env : Orchestration σ)
      (metaObject : ObjectMeta) (p p8 q : Pass σ) (createDatabaseResult : Result),
      advance (corePhases P env metaObject) 8 p = some p8 →
      IsZeroOfUnderlyingTypeString
        p8.quayConfiguration.QuayEcosystem.Spec.Quay.Database.Server = true →
      createQuayDatabase P env metaObject p8 = ((some createDatabaseResult, none), q) →
      CoreResourceDeployment P env metaObject p = ((some createDatabaseResult, none), q) := by
  refine ⟨rfl, rfl, rfl, ?_⟩
  intro σ P env metaObject p p8 q createDatabaseResult h8 hz hdb
  rw [CoreResourceDeployment_eq_runPhases]
  refine runPhases_returns _ 8 p p8 q (databasePhase P env metaObject) _ h8 rfl ?_
  unfold databasePhase
  rw [if_pos hz, hdb]

/-- C15.  When the first `k` phases of `CoreResourceDeployment` let the pass go
on and phase `k` returns an error, `CoreResourceDeployment` returns that error
from the very state the failing phase left: the log ends with the exchanges of
that phase and holds no lookup, write or remote command of a later one.  Inside
the two blocks the same holds step by step: an error of `createRedisService`
ends the cache block before `redisDeployment`, an error of `createQuayDatabase`
ends the database block before `configurePostgreSQL`, each from the state the
failing step left. -/
theorem CoreResourceDeployment_aborts_on_error {σ : Type} (P : ProvisioningConstants)
    (env : Orchestration σ) (metaObject : ObjectMeta) (p pk q : Pass σ) (k : Nat)
    (phase : Phase σ) (result : Option Result) (err : ClusterError)
    (hbefore : advance (corePhases P env metaObject) k p = some pk)
    (hphase : (corePhases P env metaObject)[k]? = some phase)
    (herr : phase pk = (some (result, some err), q)) :
    CoreResourceDeployment P env metaObject p = ((result, some err), q) ∧
    (∀ (p1 q1 : Pass σ) (e : ClusterError),
      createRedisService env metaObject p1 = (some e, q1) →
      redisPhase env metaObject p1 =
        if IsZeroOfUnderlyingTypeString
            p1.quayConfiguration.QuayEcosystem.Spec.Redis.Hostname
        then (some (none, some e), q1) else (none, p1)) ∧
    (∀ (p1 q1 : Pass σ) (r : Option Result) (e : ClusterError),
      createQuayDatabase P env metaObject p1 = ((r, some e), q1) →
      databasePhase P env metaObject p1 =
        if IsZeroOfUnderlyingTypeString
            p1.quayConfiguration.QuayEcosystem.Spec.Quay.Database.Server
        then (some (none, some e), q1) else (none, p1)) := by
  refine ⟨?_, ?_, ?_⟩
  · rw [CoreResourceDeployment_eq_runPhases]
    exact runPhases_returns _ k p pk q phase _ hbefore hphase herr
  · intro p1 q1 e h
    unfold redisPhase
    rw [h]
  · intro p1 q1 r e h
    unfold databasePhase
    rw [h]
    cases r <;> rfl

/-- C15, witness: on a cluster that refuses every write of a service, the first
seven phases pass, the cache block fails at its service, and the pass returns
that error. -/
theorem CoreResourceDeployment_aborts_on_error_witness :
    (CoreResourceDeployment sampleProvisioning (refusing .Service freshCluster) sampleMeta
      (startPass sampleConfiguration ())).1 = (none, some forbidden) ∧
    ((CoreResourceDeployment sampleProvisioning (refusing .Service freshCluster) sampleMeta
      (startPass sampleConfiguration ())).2.log.map OpExchange.op).drop 16 =
      [.CreateResourceIfNotExists (some sampleEcosystem) "registry"
        (.built .Service "GetRedisServiceDefinition" sampleMeta)] := by
  have h := (CoreResourceDeployment_aborts_on_error sampleProvisioning
    (refusing .Service freshCluster) sampleMeta (startPass sampleConfiguration ())
    ((runPhases ((corePhases sampleProvisioning (refusing .Service freshCluster)
        sampleMeta).take 7) (startPass sampleConfiguration ())).2)
    ((redisPhase (refusing .Service freshCluster) sampleMeta
      ((runPhases ((corePhases sampleProvisioning (refusing .Service freshCluster)
        sampleMeta).take 7) (startPass sampleConfiguration ())).2)).2)
    7 (redisPhase (refusing .Service freshCluster) sampleMeta) none forbidden
    rfl rfl rfl).1
  rw [h]
  exact ⟨rfl, rfl⟩

/-! ## What the operations of a pass look like -/

theorem Run.ops {σ : Type} {b : Prop} {p q : Pass σ} (h : Run b p q) (Q : ClusterOp → Prop)
    (hQ : ∀ op, Emitted p.quayConfiguration.QuayEcosystem.Spec b op → Q op) :
    ∃ exchanges : List OpExchange, q.log = p.log ++ exchanges ∧
      ∀ e ∈ exchanges, Q e.op := by
  obtain ⟨_, ex, hlog, hex⟩ := h
  exact ⟨ex, hlog, fun e he => hQ e.op (hex e he)⟩

theorem CoreResourceDeployment_run {σ : Type} (P : ProvisioningConstants)
    (env : Orchestration σ) (metaObject : ObjectMeta) (p : Pass σ) :
    Run True p (CoreResourceDeployment P env metaObject p).2 := by
  rw [CoreResourceDeployment_eq_runPhases]
  exact runPhases_run _ (corePhases_run trivial P env metaObject) p

theorem Emitted.followsTable {spec : QuayEcosystemSpec} {b : Prop} {op : ClusterOp}
    (h : Emitted spec b op) : op.followsTable = true := by
  cases h <;> rfl

theorem Emitted.pause_duration {spec : QuayEcosystemSpec} {b : Prop} {op : ClusterOp}
    (h : Emitted spec b op) : ∀ d : Nat, op = .Sleep d → d = 2 * Second := by
  intro d hd
  cases h <;> cases hd
  rfl

theorem verifyDeployment_requeue {σ : Type} (env : Orchestration σ) (name ns : String)
    (p : Pass σ) (r : Result) (h : (verifyDeployment env name ns p).1.1 = some r) :
    r = { Requeue := true, RequeueAfter := Second * 5 } := by
  unfold verifyDeployment at h
  split at h
  · cases h
  · split at h
    · split at h
      split at h
      · simp only [Option.some.injEq] at h
        exact h.symm
      · cases h
    · cases h

/-! ## The managed cache and the managed database -/

theorem Emitted.managed {spec : QuayEcosystemSpec} {b : Prop} {op : ClusterOp}
    (h : Emitted spec b op) :
    (IsZeroOfUnderlyingTypeString spec.Redis.Hostname = false → op.convergesCache = false) ∧
    (IsZeroOfUnderlyingTypeString spec.Quay.Database.Server = false →
      op.convergesDatabase = false ∧ op.bootstraps = false) := by
  cases h <;> refine ⟨fun hc => ?_, fun hd => ?_⟩ <;>
    first
    | rfl
    | exact ⟨rfl, rfl⟩
    | simp_all

theorem Emitted.no_bootstrap {spec : QuayEcosystemSpec} {op : ClusterOp}
    (h : Emitted spec False op) : op.bootstraps = false := by
  cases h <;> first | rfl | contradiction

theorem Orchestration.exec_eq {σ : Type} {env : Orchestration σ} {op : ClusterOp}
    {p q : Pass σ} {r : op.Ret} (h : env.exec op p = (r, q)) :
    q.log = p.log ++ [⟨op, r⟩] ∧ q.quayConfiguration = p.quayConfiguration := by
  unfold Orchestration.exec at h
  simp only [Prod.mk.injEq] at h
  obtain ⟨rfl, rfl⟩ := h
  exact ⟨rfl, rfl⟩

theorem runPhases_cons_log {σ : Type} {b : Prop} (phase : Phase σ) (more : List (Phase σ))
    (hrun : ∀ ph ∈ more, ∀ p, Run b p (ph p).2) (p : Pass σ) :
    ∃ exchanges : List OpExchange,
      (runPhases (phase :: more) p).2.log = (phase p).2.log ++ exchanges := by
  unfold runPhases
  rcases hphase : phase p with ⟨_ | r, q⟩
  · obtain ⟨_, ex, hlog, _⟩ := runPhases_run more hrun q
    exact ⟨ex, hlog⟩
  · exact ⟨[], by simp⟩

theorem redisDeployment_head {σ : Type} (env : Orchestration σ) (meta : ObjectMeta)
    (p : Pass σ) :
    ∃ (e : OpExchange) (rest : List OpExchange),
      (redisDeployment env meta p).2.log = p.log ++ e :: rest ∧
      e.op = .CreateResourceIfNotExists (some p.quayConfiguration.QuayEcosystem)
        p.quayConfiguration.QuayEcosystem.Namespace
        (.built .Deployment "GetRedisDeploymentDefinition" meta) := by
  unfold redisDeployment
  dsimp only
  rcases h : env.exec (.CreateResourceIfNotExists (some p.quayConfiguration.QuayEcosystem)
      p.quayConfiguration.QuayEcosystem.Namespace
      (.built .Deployment "GetRedisDeploymentDefinition" meta)) p with ⟨_ | err, q⟩
  · dsimp only
    obtain ⟨_, ex, hlog, _⟩ := ((Run.refl True q).exec env .pause).andThen
      (verifyDeployment_run (b := True) env
        (GetRedisResourcesName
          (env.exec (.Sleep (2 * Second)) q).2.quayConfiguration.QuayEcosystem)
        (env.exec (.Sleep (2 * Second)) q).2.quayConfiguration.QuayEcosystem.Namespace
        (env.exec (.Sleep (2 * Second)) q).2)
    refine ⟨⟨.CreateResourceIfNotExists (some p.quayConfiguration.QuayEcosystem)
      p.quayConfiguration.QuayEcosystem.Namespace
      (.built .Deployment "GetRedisDeploymentDefinition" meta), none⟩, ex, ?_, rfl⟩
    rw [hlog, (Orchestration.exec_eq h).1, List.append_assoc]
    rfl
  · dsimp only
    refine ⟨⟨.CreateResourceIfNotExists (some p.quayConfiguration.QuayEcosystem)
      p.quayConfiguration.QuayEcosystem.Namespace
      (.built .Deployment "GetRedisDeploymentDefinition" meta), some err⟩, [], ?_, rfl⟩
    rw [(Orchestration.exec_eq h).1]

theorem redisPhase_head {σ : Type} (env : Orchestration σ) (meta : ObjectMeta)
    (p : Pass σ)
    (hz : IsZeroOfUnderlyingTypeString p.quayConfiguration.QuayEcosystem.Spec.Redis.Hostname
      = true) :
    ∃ (e : OpExchange) (rest : List OpExchange),
      (redisPhase env meta p).2.log = p.log ++ e :: rest ∧
      e.op = .CreateResourceIfNotExists (some p.quayConfiguration.QuayEcosystem)
        p.quayConfiguration.QuayEcosystem.Namespace
        (.built .Service "GetRedisServiceDefinition" meta) ∧
      ((createRedisService env meta p).1 = none →
        ∃ (e2 : OpExchange) (rest2 : List OpExchange), rest = e2 :: rest2 ∧
          e2.op = .CreateResourceIfNotExists (some p.quayConfiguration.QuayEcosystem)
            p.quayConfiguration.QuayEcosystem.Namespace
            (.built .Deployment "GetRedisDeploymentDefinition" meta)) := by
  unfold redisPhase
  rw [if_pos hz]
  unfold createRedisService
  dsimp only
  rcases h : env.exec (.CreateResourceIfNotExists (some p.quayConfiguration.QuayEcosystem)
      p.quayConfiguration.QuayEcosystem.Namespace
      (.built .Service "GetRedisServiceDefinition" meta)) p with ⟨_ | err, q⟩
  · dsimp only
    obtain ⟨hlog, hctx⟩ := Orchestration.exec_eq h
    obtain ⟨e2, rest2, hlog2, hop2⟩ := redisDeployment_head env meta q
    refine ⟨⟨.CreateResourceIfNotExists (some p.quayConfiguration.QuayEcosystem)
      p.quayConfiguration.QuayEcosystem.Namespace
      (.built .Service "GetRedisServiceDefinition" meta), none⟩, e2 :: rest2, ?_, rfl,
      fun _ => ⟨e2, rest2, rfl, ?_⟩⟩
    · have : (match redisDeployment env meta q with
          | ((redisDeploymentResult, some err), p) =>
            ((some (redisDeploymentResult, some err) : Option Returned), p)
          | ((_, none), p) => (none, p)).2 = (redisDeployment env meta q).2 := by
        split <;> rename_i h2 <;> rw [h2]
      rw [this, hlog2, hlog, List.append_assoc]
      rfl
    · rw [hop2, hctx]
  · dsimp only
    refine ⟨⟨.CreateResourceIfNotExists (some p.quayConfiguration.QuayEcosystem)
      p.quayConfiguration.QuayEcosystem.Namespace
      (.built .Service "GetRedisServiceDefinition" meta), some err⟩, [], ?_, rfl,
      fun hnone => ?_⟩
    · rw [(Orchestration.exec_eq h).1]
    · cases hnone

theorem configurePostgreSQL_head {σ : Type} (P : ProvisioningConstants)
    (env : Orchestration σ) (meta : ObjectMeta) (p : Pass σ)
    (hz : IsZeroOfUnderlyingTypeString
      p.quayConfiguration.QuayEcosystem.Spec.Quay.Database.Server = true) :
    ∃ (e : OpExchange) (rest : List OpExchange),
      (configurePostgreSQL P env meta p).2.log = p.log ++ e :: rest ∧
      e.op.bootstraps = true := by
  have hafter : Run True
      (env.exec (.ListPods (P.LabelCompoentKey ++ "=" ++ P.LabelComponentQuayDatabaseValue)
        p.quayConfiguration.QuayEcosystem.Namespace) p).2
      (configurePostgreSQL P env meta p).2 := by
    unfold configurePostgreSQL
    split
    · rename_i h
      rw [h]
      exact Run.refl True _
    · rename_i pods q h
      rw [h]
      have hz1 := hz
      rw [← (Orchestration.exec_eq h).2] at hz1
      have h1 := Run.refl True q
      dsimp only
      split
      · exact h1
      · split
        rename_i h2
        have h3 := h1.step h2 (.execIntoPod hz1 trivial _ _ _ _)
        have hz3 := hz1
        rw [← h3.spec] at hz3
        split
        · exact h3
        · split
          · exact h3
          · split
            rename_i h4
            have h5 := h3.step h4 (.execIntoPod hz3 trivial _ _ _ _)
            have hz5 := hz1
            rw [← h5.spec] at hz5
            split
            · exact h5
            · split
              rename_i h6
              have h7 := h5.step h6 (.execIntoPod hz5 trivial _ _ _ _)
              split <;> exact h7
  obtain ⟨_, ex, hlog, _⟩ := hafter
  refine ⟨⟨.ListPods (P.LabelCompoentKey ++ "=" ++ P.LabelComponentQuayDatabaseValue)
    p.quayConfiguration.QuayEcosystem.Namespace,
    (env (.ListPods (P.LabelCompoentKey ++ "=" ++ P.LabelComponentQuayDatabaseValue)
      p.quayConfiguration.QuayEcosystem.Namespace) p.cluster).1⟩, ex, ?_, rfl⟩
  rw [hlog]
  simp [Orchestration.exec]

theorem applyDatabaseResources_log {σ : Type} (env : Orchestration σ)
    (resources : List Object) (p : Pass σ) :
    ∃ exchanges : List OpExchange,
      (applyDatabaseResources env resources p).2.log = p.log ++ exchanges := by
  induction resources generalizing p with
  | nil => exact ⟨[], by simp [applyDatabaseResources]⟩
  | cons resource more ih =>
    unfold applyDatabaseResources
    split
    · rename_i h
      exact ⟨_, (Orchestration.exec_eq h).1⟩
    · rename_i q h
      obtain ⟨ex, hex⟩ := ih q
      exact ⟨_ :: ex, by rw [hex, (Orchestration.exec_eq h).1, List.append_assoc]; rfl⟩

theorem applyDatabaseResources_head {σ : Type} (env : Orchestration σ) (resource : Object)
    (more : List Object) (p : Pass σ) :
    ∃ (e : OpExchange) (rest : List OpExchange),
      (applyDatabaseResources env (resource :: more) p).2.log = p.log ++ e :: rest ∧
      e.op = .CreateResourceIfNotExists (some p.quayConfiguration.QuayEcosystem)
        p.quayConfiguration.QuayEcosystem.Namespace resource := by
  unfold applyDatabaseResources
  rcases h : env.exec (.CreateResourceIfNotExists (some p.quayConfiguration.QuayEcosystem)
      p.quayConfiguration.QuayEcosystem.Namespace resource) p with ⟨_ | err, q⟩
  · dsimp only
    obtain ⟨ex, hex⟩ := applyDatabaseResources_log env more q
    refine ⟨⟨.CreateResourceIfNotExists (some p.quayConfiguration.QuayEcosystem)
      p.quayConfiguration.QuayEcosystem.Namespace resource, none⟩, ex, ?_, rfl⟩
    rw [hex, (Orchestration.exec_eq h).1, List.append_assoc]
    rfl
  · dsimp only
    refine ⟨⟨.CreateResourceIfNotExists (some p.quayConfiguration.QuayEcosystem)
      p.quayConfiguration.QuayEcosystem.Namespace resource, some err⟩, [], ?_, rfl⟩
    rw [(Orchestration.exec_eq h).1]

theorem createQuayDatabase_head {σ : Type} (P : ProvisioningConstants)
    (env : Orchestration σ) (meta : ObjectMeta) (p : Pass σ) :
    ∃ (e : OpExchange) (rest : List OpExchange),
      (createQuayDatabase P env meta p).2.log = p.log ++ e :: rest ∧
      e.op.convergesDatabase = true := by
  unfold createQuayDatabase
  cases hv : p.quayConfiguration.ValidProvidedQuayDatabaseSecret <;>
    cases hs : IsZeroOfUnderlyingTypeString
      p.quayConfiguration.QuayEcosystem.Spec.Quay.Database.VolumeSize <;>
    simp only [hv, hs, Bool.not_false, Bool.not_true, if_true, if_false, List.nil_append,
      Bool.false_eq_true, List.singleton_append, List.cons_append] <;>
    split
  all_goals rename_i q h
  all_goals
    obtain ⟨e, rest, hlog, hop⟩ := applyDatabaseResources_head env _ _ _
    rw [h] at hlog
    dsimp only at hlog
  all_goals
    first
    | exact ⟨e, rest, hlog, by rw [hop]; rfl⟩
    | (obtain ⟨_, ex, hex, _⟩ := ((Run.refl True q).exec env .pause).andThen
        (verifyDeployment_run (b := True) env
          (UpdateMetaWithName meta
            (GetQuayDatabaseName P p.quayConfiguration.QuayEcosystem)).Name
          (env.exec (.Sleep (2 * Second)) q).2.quayConfiguration.QuayEcosystem.Namespace
          (env.exec (.Sleep (2 * Second)) q).2)
       exact ⟨e, rest ++ ex, by rw [hex, hlog, List.append_assoc]; rfl, by rw [hop]; rfl⟩)

theorem errorPhase_state {σ : Type} (step : Pass σ → Option ClusterError × Pass σ)
    (p : Pass σ) : (errorPhase step p).2 = (step p).2 := by
  unfold errorPhase
  split <;> rename_i h <;> rw [h]

/-- C20, counterexample: the spec names no external database server and the
database workload is not ready; `CoreResourceDeployment` converges the database
objects, returns the requeue instruction, and runs no step of the
database-extension bootstrap in that pass. -/
theorem CoreResourceDeployment_defers_bootstrap :
    IsZeroOfUnderlyingTypeString
      sampleConfiguration.QuayEcosystem.Spec.Quay.Database.Server = true ∧
    (CoreResourceDeployment sampleProvisioning (answering freshCluster) sampleMeta
      (startPass sampleConfiguration ())).1 =
      (some { Requeue := true, RequeueAfter := 5000000000 }, none) ∧
    ((CoreResourceDeployment sampleProvisioning (answering freshCluster) sampleMeta
      (startPass sampleConfiguration ())).2.log.map OpExchange.op).drop 21 =
      [.CreateResourceIfNotExists (some sampleEcosystem) "registry"
         (.credentialsSecret { Name := "example-quay-postgresql", Namespace := "registry" }
           [("database-username", "quay"), ("database-password", "quay"),
            ("database-name", "quay")]),
       .CreateResourceIfNotExists (some sampleEcosystem) "registry"
         (.built .Service "GetDatabaseServiceResourceDefinition"
           { Name := "example-quay-postgresql", Namespace := "registry" }),
       .CreateResourceIfNotExists (some sampleEcosystem) "registry"
         (.built .Deployment "GetDatabaseDeploymentDefinition"
           { Name := "example-quay-postgresql", Namespace := "registry" }),
       .Sleep 2000000000,
       .Get .Deployment "example-quay-postgresql" "registry",
       .GetDeploymentStatus "registry" "example-quay-postgresql"] ∧
    (CoreResourceDeployment sampleProvisioning (answering freshCluster) sampleMeta
      (startPass sampleConfiguration ())).2.log.any (fun e => e.op.bootstraps) = false :=
  ⟨rfl, rfl, rfl, rfl⟩

/-- C20, amended.  In a pass of `CoreResourceDeployment`: (1) with an external
cache hostname in the spec no object of the managed cache is converged, and with
an external database server no object of the managed database is converged and
no step of the bootstrap is run; (2) with no external cache hostname, a pass
that gets through the seven phases before the cache block converges the cache
service next, and the cache workload right after it when that write succeeds;
(3) with no external database server, a pass that gets through the eight phases
before the database block converges a database object next, and it runs the
bootstrap exactly when `createQuayDatabase` returns neither an error nor a
requeue instruction, that is when every write succeeded and the workload is
ready. -/
theorem CoreResourceDeployment_managed_phases {σ : Type} (P : ProvisioningConstants)
    (env : Orchestration σ) (metaObject : ObjectMeta) (p : Pass σ) :
    (∃ exchanges : List OpExchange,
      (CoreResourceDeployment P env metaObject p).2.log = p.log ++ exchanges ∧
      (IsZeroOfUnderlyingTypeString
          p.quayConfiguration.QuayEcosystem.Spec.Redis.Hostname = false →
        ∀ e ∈ exchanges, e.op.convergesCache = false) ∧
      (IsZeroOfUnderlyingTypeString
          p.quayConfiguration.QuayEcosystem.Spec.Quay.Database.Server = false →
        ∀ e ∈ exchanges, e.op.convergesDatabase = false ∧ e.op.bootstraps = false)) ∧
    (∀ p7 : Pass σ, advance (corePhases P env metaObject) 7 p = some p7 →
      IsZeroOfUnderlyingTypeString
        p.quayConfiguration.QuayEcosystem.Spec.Redis.Hostname = true →
      ∃ (e : OpExchange) (rest : List OpExchange),
        (CoreResourceDeployment P env metaObject p).2.log = p7.log ++ e :: rest ∧
        e.op = .CreateResourceIfNotExists (some p7.quayConfiguration.QuayEcosystem)
          p7.quayConfiguration.QuayEcosystem.Namespace
          (.built .Service "GetRedisServiceDefinition" metaObject) ∧
        ((createRedisService env metaObject p7).1 = none →
          ∃ (e2 : OpExchange) (rest2 : List OpExchange), rest = e2 :: rest2 ∧
            e2.op = .CreateResourceIfNotExists (some p7.quayConfiguration.QuayEcosystem)
              p7.quayConfiguration.QuayEcosystem.Namespace
              (.built .Deployment "GetRedisDeploymentDefinition" metaObject))) ∧
    (∀ p8 : Pass σ, advance (corePhases P env metaObject) 8 p = some p8 →
      IsZeroOfUnderlyingTypeString
        p.quayConfiguration.QuayEcosystem.Spec.Quay.Database.Server = true →
      ∃ (e : OpExchange) (rest : List OpExchange),
        (CoreResourceDeployment P env metaObject p).2.log = p8.log ++ e :: rest ∧
        e.op.convergesDatabase = true ∧
        ((∃ e2 ∈ e :: rest, e2.op.bootstraps = true) ↔
          (createQuayDatabase P env metaObject p8).1 = (none, none))) := by
  refine ⟨?_, ?_, ?_⟩
  · obtain ⟨_, ex, hlog, hex⟩ := CoreResourceDeployment_run P env metaObject p
    exact ⟨ex, hlog, fun hc e he => (hex e he).managed.1 hc,
      fun hd e he => (hex e he).managed.2 hd⟩
  · intro p7 h7 hz
    have hrun7 : Run True p p7 :=
      advance_run _ (corePhases_run trivial P env metaObject) 7 p p7 h7
    have hz7 := hz
    rw [← hrun7.spec] at hz7
    rw [CoreResourceDeployment_eq_runPhases, runPhases_advance _ 7 p p7 h7]
    have hdrop : (corePhases P env metaObject).drop 7 =
        redisPhase env metaObject :: (corePhases P env metaObject).drop 8 := rfl
    rw [hdrop]
    obtain ⟨ex, hex⟩ := runPhases_cons_log (b := True) (redisPhase env metaObject)
      ((corePhases P env metaObject).drop 8)
      (fun ph hph => corePhases_run trivial P env metaObject ph (List.mem_of_mem_drop hph))
      p7
    obtain ⟨e, rest, hlog, hop, hnext⟩ := redisPhase_head env metaObject p7 hz7
    refine ⟨e, rest ++ ex, by rw [hex, hlog, List.append_assoc]; rfl, hop, fun hnone => ?_⟩
    obtain ⟨e2, rest2, hrest, hop2⟩ := hnext hnone
    exact ⟨e2, rest2 ++ ex, by rw [hrest]; rfl, hop2⟩
  · intro p8 h8 hz
    have hrun8 : Run True p p8 :=
      advance_run _ (corePhases_run trivial P env metaObject) 8 p p8 h8
    have hz8 := hz
    rw [← hrun8.spec] at hz8
    rw [CoreResourceDeployment_eq_runPhases, runPhases_advance _ 8 p p8 h8]
    have hdrop : (corePhases P env metaObject).drop 8 =
        databasePhase P env metaObject :: (corePhases P env metaObject).drop 9 := rfl
    rw [hdrop]
    obtain ⟨e, rest, hlog, hop⟩ := createQuayDatabase_head P env metaObject p8
    obtain ⟨hspec, ex0, hlog0, hno⟩ :=
      createQuayDatabase_run (b := False) P env metaObject p8 hz8
    have hex0 : ex0 = e :: rest := List.append_cancel_left (hlog0.symm.trans hlog)
    subst hex0
    rcases hdb : createQuayDatabase P env metaObject p8 with ⟨⟨r, err⟩, q⟩
    rw [hdb] at hlog hspec
    dsimp only at hlog hspec
    have hquiet : ¬ ∃ e2 ∈ e :: rest, e2.op.bootstraps = true := by
      rintro ⟨e2, he2, hb2⟩
      rw [(hno e2 he2).no_bootstrap] at hb2
      cases hb2
    rcases err with _ | err
    · rcases r with _ | r
      · have hphase : databasePhase P env metaObject p8 =
            errorPhase (configurePostgreSQL P env metaObject) q := by
          unfold databasePhase errorPhase
          rw [if_pos hz8, hdb]
        obtain ⟨ex, hex⟩ := runPhases_cons_log (b := True) (databasePhase P env metaObject)
          ((corePhases P env metaObject).drop 9)
          (fun ph hph =>
            corePhases_run trivial P env metaObject ph (List.mem_of_mem_drop hph))
          p8
        have hzq := hz8
        rw [← hspec] at hzq
        obtain ⟨e1, rest1, hlog1, hop1⟩ := configurePostgreSQL_head P env metaObject q hzq
        rw [hphase, errorPhase_state, hlog1, hlog] at hex
        refine ⟨e, rest ++ e1 :: rest1 ++ ex, by rw [hex]; simp, hop, ?_⟩
        refine ⟨fun _ => rfl, fun _ => ⟨e1, ?_, hop1⟩⟩
        simp
      · have hphase : databasePhase P env metaObject p8 = (some (some r, none), q) := by
          unfold databasePhase
          rw [if_pos hz8, hdb]
        refine ⟨e, rest, ?_, hop, ?_⟩
        · unfold runPhases
          rw [hphase]
          exact hlog
        · exact ⟨fun h => absurd h hquiet, fun h => by cases h⟩
    · have hphase : databasePhase P env metaObject p8 = (some (none, some err), q) := by
        unfold databasePhase
        rw [if_pos hz8, hdb]
        cases r <;> rfl
      refine ⟨e, rest, ?_, hop, ?_⟩
      · unfold runPhases
        rw [hphase]
        exact hlog
      · exact ⟨fun h => absurd h hquiet, fun h => by cases h⟩

/-! ## Resource names -/

/-- C25.  Every resource-name function returns the same string for two stack
descriptions with the same name (and the same backend name, for a storage
volume), whatever their other fields hold; the registry, scanner, configuration
UI and cache names are the stack name followed by `-quay`, `-clair`,
`-quay-config` and `-redis`, and a storage volume name is the stack name, a
hyphen and the backend name. -/
theorem resource_names_depend_on_name (P : ProvisioningConstants) (a b : QuayEcosystem)
    (registryBackendName : String) (h : a.Name = b.Name) :
    GetGenericResourcesName a = GetGenericResourcesName b ∧
    GetQuayResourcesName a = GetQuayResourcesName b ∧
    GetClairResourcesName a = GetClairResourcesName b ∧
    GetQuayConfigResourcesName a = GetQuayConfigResourcesName b ∧
    GetRedisResourcesName a = GetRedisResourcesName b ∧
    GetConfigMapSecretName a = GetConfigMapSecretName b ∧
    GetClairConfigSecretName a = GetClairConfigSecretName b ∧
    GetSecurityScannerKeySecretName a = GetSecurityScannerKeySecretName b ∧
    GetClairTrustCASecretName a = GetClairTrustCASecretName b ∧
    GetQuayExtraCertsSecretName a = GetQuayExtraCertsSecretName b ∧
    GetQuayDatabaseName P a = GetQuayDatabaseName P b ∧
    GetClairDatabaseName P a = GetClairDatabaseName P b ∧
    GetQuayRegistryStorageName a = GetQuayRegistryStorageName b ∧
    GetRegistryStorageVolumeName a registryBackendName =
      GetRegistryStorageVolumeName b registryBackendName ∧
    GetQuayResourcesName a = a.Name ++ "-quay" ∧
    GetClairResourcesName a = a.Name ++ "-clair" ∧
    GetQuayConfigResourcesName a = a.Name ++ "-quay-config" ∧
    GetRedisResourcesName a = a.Name ++ "-redis" ∧
    GetRegistryStorageVolumeName a registryBackendName =
      a.Name ++ "-" ++ registryBackendName := by
  simp only [GetGenericResourcesName, GetQuayResourcesName, GetClairResourcesName,
    GetQuayConfigResourcesName, GetRedisResourcesName, GetConfigMapSecretName,
    GetClairConfigSecretName, GetSecurityScannerKeySecretName, GetClairTrustCASecretName,
    GetQuayExtraCertsSecretName, GetQuayDatabaseName, GetClairDatabaseName,
    GetQuayRegistryStorageName, GetRegistryStorageVolumeName, h, and_self]

/-- C25 at the sample stack and the stack that names a certificate secret: the
two have the same name and differ in their spec. -/
theorem resource_names_depend_on_name_witness :
    sampleEcosystem.Spec.Quay.SslCertificatesSecretName ≠
      suppliedEcosystem.Spec.Quay.SslCertificatesSecretName ∧
    GetQuayResourcesName sampleEcosystem = GetQuayResourcesName suppliedEcosystem ∧
    GetQuayResourcesName sampleEcosystem = "example-quay" ∧
    GetRegistryStorageVolumeName sampleEcosystem "local1" = "example-local1" :=
  ⟨by decide,
   (resource_names_depend_on_name sampleProvisioning sampleEcosystem suppliedEcosystem
     "local1" rfl).2.1,
   rfl, rfl⟩

/-! ## `PrepareForSetup` -/

/-- C27, failing input and the rule behind it.  The stack spec sets the cache
port 6380 and the context has none yet: after `PrepareForSetup` the context
still has no cache port, and the cache entry `SetupQuay` writes has a host and
no port.  In general the port of the spec is copied only when it is not set:
with a port in the spec the context keeps the port it had, and with none the
context ends with none. -/
theorem PrepareForSetup_keeps_old_cache_port :
    portConfiguration.QuayEcosystem.Spec.Redis.Port = some 6380 ∧
    (PrepareForSetup sampleProvisioning portConfiguration).2.RedisPort = none ∧
    mapGet (firstDocument (PrepareForSetup sampleProvisioning portConfiguration).2)
      "BUILDLOGS_REDIS" = some (.obj [("host", .str "example-redis")]) ∧
    (∀ (P : ProvisioningConstants) (quayConfiguration : QuayConfiguration) (port : Int),
      quayConfiguration.QuayEcosystem.Spec.Redis.Port = some port →
      (PrepareForSetup P quayConfiguration).2.RedisPort = quayConfiguration.RedisPort) ∧
    (∀ (P : ProvisioningConstants) (quayConfiguration : QuayConfiguration),
      quayConfiguration.QuayEcosystem.Spec.Redis.Port = none →
      (PrepareForSetup P quayConfiguration).2.RedisPort = none) := by
  refine ⟨rfl, rfl, rfl, ?_, ?_⟩
  · intro P quayConfiguration port h
    simp [PrepareForSetup, IsZeroOfUnderlyingTypePtr, h]
  · intro P quayConfiguration h
    simp [PrepareForSetup, IsZeroOfUnderlyingTypePtr, h]

/-- C29.  `PrepareForSetup` returns no error and leaves the configuration UI
hostname, the database server and the cache hostname of the context equal to
the value of the stack spec when that value is not empty, and otherwise to the
derived name: the stack name followed by `-quay-config`, the database resource
name of the stack, and the stack name followed by `-redis`. -/
theorem PrepareForSetup_hostnames (P : ProvisioningConstants)
    (quayConfiguration : QuayConfiguration) :
    (PrepareForSetup P quayConfiguration).1 = none ∧
    (PrepareForSetup P quayConfiguration).2.QuayConfigHostname =
      (if quayConfiguration.QuayEcosystem.Spec.Quay.ConfigRouteHost = "" then
        quayConfiguration.QuayEcosystem.Name ++ "-quay-config"
      else quayConfiguration.QuayEcosystem.Spec.Quay.ConfigRouteHost) ∧
    (PrepareForSetup P quayConfiguration).2.QuayDatabase.Server =
      (if quayConfiguration.QuayEcosystem.Spec.Quay.Database.Server = "" then
        GetQuayDatabaseName P quayConfiguration.QuayEcosystem
      else quayConfiguration.QuayEcosystem.Spec.Quay.Database.Server) ∧
    (PrepareForSetup P quayConfiguration).2.RedisHostname =
      (if quayConfiguration.QuayEcosystem.Spec.Redis.Hostname = "" then
        quayConfiguration.QuayEcosystem.Name ++ "-redis"
      else quayConfiguration.QuayEcosystem.Spec.Redis.Hostname) ∧
    GetQuayDatabaseName P quayConfiguration.QuayEcosystem =
      quayConfiguration.QuayEcosystem.Name ++ "-quay-" ++ P.PostgresqlName := by
  refine ⟨rfl, ?_, ?_, ?_, rfl⟩
  · unfold PrepareForSetup
    dsimp only
    split <;> simp [IsZeroOfUnderlyingTypeString, GetQuayConfigResourcesName,
      GetGenericResourcesName]
  · unfold PrepareForSetup
    dsimp only
    split <;> simp [IsZeroOfUnderlyingTypeString]
  · unfold PrepareForSetup
    dsimp only
    split <;> simp [IsZeroOfUnderlyingTypeString, GetRedisResourcesName,
      GetGenericResourcesName]

/-! ## The registry route and the allow list -/

/-- C30.  When `createQuayRoute` returns no error, the pass has converged the
route, paused, and read the live route back; the registry hostname of the
context is the route host of the spec when one is configured and else the host
of the live route; the status hostname of the stack equals the registry
hostname; and the converged route is named after the registry resources, has
the route host of the spec as its host (none when none is configured), and
targets the service with the route's own name. -/
theorem createQuayRoute_hostname {σ : Type} (env : Orchestration σ) (meta : ObjectMeta)
    (p q : Pass σ) (h : createQuayRoute env meta p = (none, q)) :
    ∃ (createdRoute : Route) (paused : Unit),
      q.log = p.log ++
        [⟨.CreateOrUpdateResource (some p.quayConfiguration.QuayEcosystem)
            p.quayConfiguration.QuayEcosystem.Namespace
            (.route (GetQuayRouteDefinition
              { meta with Name := GetQuayResourcesName p.quayConfiguration.QuayEcosystem }
              p.quayConfiguration.QuayEcosystem)), none⟩,
         ⟨.Sleep (2 * Second), paused⟩,
         ⟨.Get .Route (GetQuayResourcesName p.quayConfiguration.QuayEcosystem)
            p.quayConfiguration.QuayEcosystem.Namespace, (createdRoute, none)⟩] ∧
      q.quayConfiguration.QuayHostname =
        (if p.quayConfiguration.QuayEcosystem.Spec.Quay.RouteHost = "" then
          createdRoute.Host
        else p.quayConfiguration.QuayEcosystem.Spec.Quay.RouteHost) ∧
      q.quayConfiguration.QuayEcosystem.Status.Hostname =
        q.quayConfiguration.QuayHostname ∧
      q.quayConfiguration.QuayEcosystem.Spec = p.quayConfiguration.QuayEcosystem.Spec ∧
      (GetQuayRouteDefinition
        { meta with Name := GetQuayResourcesName p.quayConfiguration.QuayEcosystem }
        p.quayConfiguration.QuayEcosystem).Host =
        p.quayConfiguration.QuayEcosystem.Spec.Quay.RouteHost ∧
      (GetQuayRouteDefinition
        { meta with Name := GetQuayResourcesName p.quayConfiguration.QuayEcosystem }
        p.quayConfiguration.QuayEcosystem).ObjectMeta.Name =
        p.quayConfiguration.QuayEcosystem.Name ++ "-quay" ∧
      (GetQuayRouteDefinition
        { meta with Name := GetQuayResourcesName p.quayConfiguration.QuayEcosystem }
        p.quayConfiguration.QuayEcosystem).ToKind = "Service" ∧
      (GetQuayRouteDefinition
        { meta with Name := GetQuayResourcesName p.quayConfiguration.QuayEcosystem }
        p.quayConfiguration.QuayEcosystem).ToName =
        (GetQuayRouteDefinition
          { meta with Name := GetQuayResourcesName p.quayConfiguration.QuayEcosystem }
          p.quayConfiguration.QuayEcosystem).ObjectMeta.Name := by
  have hroute : ∀ (m : ObjectMeta) (qe : QuayEcosystem),
      (GetQuayRouteDefinition m qe).Host = qe.Spec.Quay.RouteHost ∧
      (GetQuayRouteDefinition m qe).ObjectMeta = m ∧
      (GetQuayRouteDefinition m qe).ToKind = "Service" ∧
      (GetQuayRouteDefinition m qe).ToName = m.Name := by
    intro m qe
    unfold GetQuayRouteDefinition
    dsimp only
    split
    · exact ⟨rfl, rfl, rfl, rfl⟩
    · rename_i hz
      refine ⟨?_, rfl, rfl, rfl⟩
      simp [IsZeroOfUnderlyingTypeString] at hz
      exact hz.symm
  obtain ⟨hhost, hmeta, hkind, hto⟩ := hroute
    { meta with Name := GetQuayResourcesName p.quayConfiguration.QuayEcosystem }
    p.quayConfiguration.QuayEcosystem
  unfold createQuayRoute at h
  dsimp only at h
  split at h
  · cases h
  rename_i p1 h1
  obtain ⟨qc1, cluster1, log1⟩ := p1
  obtain ⟨hlog1, hctx1⟩ := Orchestration.exec_eq h1
  dsimp only at hlog1 hctx1
  subst hctx1 hlog1
  split at h
  · cases h
  rename_i createdRoute p3 h3
  obtain ⟨qc3, cluster3, log3⟩ := p3
  obtain ⟨hlog3, hctx3⟩ := Orchestration.exec_eq h3
  dsimp only [Orchestration.exec] at hlog3 hctx3
  subst hctx3 hlog3
  simp only [Prod.mk.injEq, true_and] at h
  subst h
  refine ⟨createdRoute, (env (.Sleep (2 * Second)) cluster1).1, ?_, ?_, rfl, rfl, hhost, ?_,
    hkind, ?_⟩
  · simp only [List.append_assoc, List.singleton_append, List.cons_append, List.nil_append]
  · simp only [IsZeroOfUnderlyingTypeString, decide_eq_true_eq]
  · rw [hmeta]
    rfl
  · rw [hto, hmeta]

/-- C30 on the converged sample cluster, whose spec configures the route host
`quay.example.com`. -/
theorem createQuayRoute_hostname_witness :
    ∃ (createdRoute : Route) (paused : Unit),
      (createQuayRoute (answering readyCluster) sampleMeta
        (startPass sampleConfiguration ())).2.log =
        [⟨.CreateOrUpdateResource (some sampleEcosystem) "registry"
            (.route (GetQuayRouteDefinition { Name := "example-quay", Namespace := "registry" }
              sampleEcosystem)), none⟩,
         ⟨.Sleep (2 * Second), paused⟩,
         ⟨.Get .Route "example-quay" "registry", (createdRoute, none)⟩] ∧
      (createQuayRoute (answering readyCluster) sampleMeta
        (startPass sampleConfiguration ())).2.quayConfiguration.QuayHostname =
        "quay.example.com" := by
  obtain ⟨createdRoute, paused, hlog, hhost, _⟩ :=
    createQuayRoute_hostname (answering readyCluster) sampleMeta
      (startPass sampleConfiguration ())
      (createQuayRoute (answering readyCluster) sampleMeta
        (startPass sampleConfiguration ())).2 rfl
  exact ⟨createdRoute, paused, hlog, hhost⟩

theorem sccUserFound_iff (sccUser : String) (users : List String) :
    sccUserFound sccUser users = true ↔ sccUser ∈ users := by
  induction users with
  | nil => simp [sccUserFound]
  | cons user more ih =>
    unfold sccUserFound
    by_cases h : user = sccUser
    · simp [h]
    · have h2 : ¬ sccUser = user := fun e => h e.symm
      simp [h, h2, ih]

/-- C24.  After a lookup of the allow list that returns no error: when the list
holds the principal `system:serviceaccount:<namespace>:<service account name>`
`configureAnyUIDSCC` issues no write and returns no error; otherwise it issues
exactly one write, of the list read with the principal appended after the
entries it had, and returns what the write returns; the written list holds the
principal exactly once. -/
theorem configureAnyUIDSCC_appends_principal {σ : Type} (P : ProvisioningConstants)
    (env : Orchestration σ) (serviceAccountName : String) (meta : ObjectMeta) (p : Pass σ)
    (anyUIDSCC : SecurityContextConstraints) (s : σ)
    (hget : env (.Get .SecurityContextConstraints P.AnyUIDSCC "") p.cluster =
      ((anyUIDSCC, none), s)) :
    (("system:serviceaccount:" ++ meta.Namespace ++ ":" ++ serviceAccountName) ∈
        anyUIDSCC.Users →
      configureAnyUIDSCC P env serviceAccountName meta p =
        (none, { p with
          cluster := s,
          log := p.log ++
            [⟨.Get .SecurityContextConstraints P.AnyUIDSCC "", (anyUIDSCC, none)⟩] })) ∧
    (("system:serviceaccount:" ++ meta.Namespace ++ ":" ++ serviceAccountName) ∉
        anyUIDSCC.Users →
      (configureAnyUIDSCC P env serviceAccountName meta p).1 =
        (env (.CreateOrUpdateResource none p.quayConfiguration.QuayEcosystem.Namespace
          (.securityContextConstraints { Users := anyUIDSCC.Users ++
            ["system:serviceaccount:" ++ meta.Namespace ++ ":" ++ serviceAccountName] }))
          s).1 ∧
      (configureAnyUIDSCC P env serviceAccountName meta p).2.log = p.log ++
        [⟨.Get .SecurityContextConstraints P.AnyUIDSCC "", (anyUIDSCC, none)⟩,
         ⟨.CreateOrUpdateResource none p.quayConfiguration.QuayEcosystem.Namespace
            (.securityContextConstraints { Users := anyUIDSCC.Users ++
              ["system:serviceaccount:" ++ meta.Namespace ++ ":" ++ serviceAccountName] }),
          (env (.CreateOrUpdateResource none p.quayConfiguration.QuayEcosystem.Namespace
            (.securityContextConstraints { Users := anyUIDSCC.Users ++
              ["system:serviceaccount:" ++ meta.Namespace ++ ":" ++ serviceAccountName] }))
            s).1⟩] ∧
      (anyUIDSCC.Users ++
        ["system:serviceaccount:" ++ meta.Namespace ++ ":" ++ serviceAccountName]).count
        ("system:serviceaccount:" ++ meta.Namespace ++ ":" ++ serviceAccountName) = 1) := by
  have hexec : env.exec (.Get .SecurityContextConstraints P.AnyUIDSCC "") p =
      ((anyUIDSCC, none), { p with
        cluster := s,
        log := p.log ++
          [⟨.Get .SecurityContextConstraints P.AnyUIDSCC "", (anyUIDSCC, none)⟩] }) := by
    unfold Orchestration.exec
    rw [hget]
  constructor
  · intro hmem
    unfold configureAnyUIDSCC
    dsimp only
    rw [hexec]
    dsimp only
    rw [(sccUserFound_iff _ _).mpr hmem]
    rfl
  · intro hmem
    have hfound : sccUserFound
        ("system:serviceaccount:" ++ meta.Namespace ++ ":" ++ serviceAccountName)
        anyUIDSCC.Users = false := by
      cases hf : sccUserFound
        ("system:serviceaccount:" ++ meta.Namespace ++ ":" ++ serviceAccountName)
        anyUIDSCC.Users
      · rfl
      · exact absurd ((sccUserFound_iff _ _).mp hf) hmem
    refine ⟨?_, ?_, ?_⟩
    · unfold configureAnyUIDSCC
      dsimp only
      rw [hexec]
      dsimp only
      rw [hfound]
      simp only [Bool.not_false, if_true]
      split <;> rename_i h2 <;> simp only [Orchestration.exec, Prod.mk.injEq] at h2 <;>
        exact h2.1.symm
    · unfold configureAnyUIDSCC
      dsimp only
      rw [hexec]
      dsimp only
      rw [hfound]
      simp only [Bool.not_false, if_true]
      split <;> rename_i h2 <;> simp only [Orchestration.exec, Prod.mk.injEq] at h2 <;>
        rw [← h2.2, List.append_assoc] <;> rfl
    · rw [List.count_append, List.count_eq_zero_of_not_mem hmem]
      simp

/-- C24 on the fresh sample cluster, whose allow list holds the router alone:
the principal of the service account `quay` in the namespace `registry` is
appended after it, in one write. -/
theorem configureAnyUIDSCC_appends_principal_witness :
    (configureAnyUIDSCC sampleProvisioning (answering freshCluster) "quay" sampleMeta
      (startPass sampleConfiguration ())).2.log.map OpExchange.op =
      [.Get .SecurityContextConstraints "anyuid" "",
       .CreateOrUpdateResource none "registry"
         (.securityContextConstraints { Users :=
           ["system:serviceaccount:default:router",
            "system:serviceaccount:registry:quay"] })] := by
  have h := (configureAnyUIDSCC_appends_principal sampleProvisioning (answering freshCluster)
    "quay" sampleMeta (startPass sampleConfiguration ())
    { Users := ["system:serviceaccount:default:router"] } () rfl).2 (by decide)
  rw [h.2.1]
  rfl

/-! ## The merge into the re-read document -/

/-- C26, failing input and the rule behind it.  The read-configuration call of
the sample registry decodes, without error, a response whose `config` is `null`:
the merge of the scanner wiring panics on its first write.  In general, in every
run whose seventh exchange is a read-configuration call that returned no error
and a configuration document that is `nil`, `SetupQuay` panics with the log
ending at that exchange. -/
theorem SetupQuay_merge_panics_without_document :
    (runSetupQuay sampleConstants (sampleInstance (faultyRegistry configNull))
      none).2.log[6]? = some ⟨.GetQuayConfiguration, { Config := none }, none⟩ ∧
    (runSetupQuay sampleConstants (sampleInstance (faultyRegistry configNull)) none).1 =
      .panicked "assignment to entry in nil map" ∧
    ∀ (σ : Type) (K : Constants) (qsi : QuaySetupInstance σ) (s : σ) (v : QuayConfig),
      (runSetupQuay K qsi s).2.log[6]? = some ⟨.GetQuayConfiguration, v, none⟩ →
      v.Config = none →
      (runSetupQuay K qsi s).1 = .panicked "assignment to entry in nil map" ∧
      (runSetupQuay K qsi s).2.log.length = 7 := by
  refine ⟨rfl, rfl, ?_⟩
  intro σ K qsi s v h6 hv
  have hs := SetupQuay_session K qsi s
  unfold SessionOf at hs
  have hre : rereadConfig (runSetupQuay K qsi s).2.log = none := by
    unfold rereadConfig
    rw [h6]
    exact hv
  have hlen7 : 7 ≤ (runSetupQuay K qsi s).2.log.length := by
    rcases Nat.lt_or_ge 6 (runSetupQuay K qsi s).2.log.length with hlt | hge
    · exact hlt
    · rw [List.getElem?_eq_none hge] at h6
      cases h6
  have hlen : (runSetupQuay K qsi s).2.log.length = 7 := by
    rcases Nat.lt_or_ge 7 (runSetupQuay K qsi s).2.log.length with hlt | hge
    · exact absurd hre (hs.base hlt)
    · omega
  have hlast : (runSetupQuay K qsi s).2.log.getLast? =
      some ⟨.GetQuayConfiguration, v, none⟩ := by
    rw [List.getLast?_eq_getElem?, hlen]
    exact h6
  refine ⟨?_, hlen⟩
  rw [hs.outcome]
  unfold outcomeOf
  rw [hlast]
  simp [Exchange.passed, hlen]

/-! ## What `SetupQuay` does not read -/

theorem exec_same {σ : Type} {cl1 cl2 : QuayClient σ} (h : SameUpToStatus cl1 cl2)
    {c : Call} {w1 w2 w1' : World σ} {v1 : c.Ret} {e : GoError} (hrel : SameCalls w1 w2)
    (h1 : cl1.exec c w1 = ((v1, e), w1')) :
    ∃ (v2 : c.Ret) (w2' : World σ), cl2.exec c w2 = ((v2, e), w2') ∧ SameCalls w1' w2' ∧
      (c.statusOnly = false → v1 = v2) := by
  obtain ⟨hserver, hcalls, herrs⟩ := hrel
  obtain ⟨hs, he, hv⟩ := h c w1.server
  unfold QuayClient.exec at h1
  simp only [Prod.mk.injEq] at h1
  obtain ⟨hve, rfl⟩ := h1
  have hv1 : (cl1 c w1.server).1.1 = v1 := congrArg Prod.fst hve
  have he1 : (cl1 c w1.server).1.2 = e := congrArg Prod.snd hve
  subst hv1 he1
  refine ⟨(cl2 c w2.server).1.1, (cl2.exec c w2).2, ?_, ⟨?_, ?_, ?_⟩, ?_⟩
  · unfold QuayClient.exec
    rw [← hserver, he]
  · unfold QuayClient.exec
    dsimp only
    rw [← hserver, hs]
  · unfold QuayClient.exec
    simp [hcalls]
  · unfold QuayClient.exec
    simp only [List.map_append, herrs, List.map_cons, List.map_nil]
    rw [← hserver, he]
  · intro hc
    rw [← hserver]
    exact hv hc

theorem validateComponent_same {σ : Type} {cl1 cl2 : QuayClient σ}
    (h : SameUpToStatus cl1 cl2) (qc : QuayConfiguration) (cfg : QuayConfig)
    (t : QuayValidationType) {w1 w2 w1' : World σ} {r : GoError} (hrel : SameCalls w1 w2)
    (h1 : validateComponent ⟨qc, cl1⟩ cfg t w1 = (r, w1')) :
    ∃ w2' : World σ, validateComponent ⟨qc, cl2⟩ cfg t w2 = (r, w2') ∧ SameCalls w1' w2' := by
  unfold validateComponent at h1 ⊢
  dsimp only at h1 ⊢
  split at h1
  · rename_i v err w1a heq
    obtain ⟨v2, w2a, h2, hrel', _⟩ := exec_same h hrel heq
    rw [h2]
    simp only [Prod.mk.injEq] at h1
    obtain ⟨rfl, rfl⟩ := h1
    exact ⟨w2a, rfl, hrel'⟩
  · rename_i v w1a heq
    obtain ⟨v2, w2a, h2, hrel', hv⟩ := exec_same h hrel heq
    rw [h2]
    obtain rfl := hv rfl
    dsimp only
    split at h1 <;> rename_i hst <;> simp only [hst, if_true, if_false] <;>
      simp only [Prod.mk.injEq] at h1 <;> obtain ⟨rfl, rfl⟩ := h1 <;>
      exact ⟨w2a, rfl, hrel'⟩

theorem validateComponents_same {σ : Type} {cl1 cl2 : QuayClient σ}
    (h : SameUpToStatus cl1 cl2) (qc : QuayConfiguration) (cfg : QuayConfig)
    (ts : List QuayValidationType) {w1 w2 w1' : World σ} {r : GoError}
    (hrel : SameCalls w1 w2)
    (h1 : validateComponents ⟨qc, cl1⟩ cfg ts w1 = (r, w1')) :
    ∃ w2' : World σ, validateComponents ⟨qc, cl2⟩ cfg ts w2 = (r, w2') ∧
      SameCalls w1' w2' := by
  induction ts generalizing w1 w2 with
  | nil =>
    simp only [validateComponents, Prod.mk.injEq] at h1 ⊢
    obtain ⟨rfl, rfl⟩ := h1
    exact ⟨w2, ⟨rfl, rfl⟩, hrel⟩
  | cons t more ih =>
    unfold validateComponents at h1 ⊢
    split at h1
    · rename_i err w1a heq
      obtain ⟨w2a, h2, hrel'⟩ := validateComponent_same h qc cfg t hrel heq
      rw [h2]
      simp only [Prod.mk.injEq] at h1
      obtain ⟨rfl, rfl⟩ := h1
      exact ⟨w2a, rfl, hrel'⟩
    · rename_i w1a heq
      obtain ⟨w2a, h2, hrel'⟩ := validateComponent_same h qc cfg t hrel heq
      rw [h2]
      exact ih hrel' h1

theorem SetupQuay_same {σ : Type} {cl1 cl2 : QuayClient σ} (h : SameUpToStatus cl1 cl2)
    (K : Constants) (qc : QuayConfiguration) {w1 w2 w1' : World σ} {o : Outcome}
    (hrel : SameCalls w1 w2) (h1 : SetupQuay K ⟨qc, cl1⟩ w1 = (o, w1')) :
    ∃ w2' : World σ, SetupQuay K ⟨qc, cl2⟩ w2 = (o, w2') ∧ SameCalls w1' w2' := by
  unfold SetupQuay at h1 ⊢
  simp only [assign] at h1 ⊢
  split at h1
  · rename_i v err w1a heq
    obtain ⟨v2, w2a, h2, hrel', _⟩ := exec_same h hrel heq
    rw [h2]
    simp only [Prod.mk.injEq] at h1
    obtain ⟨rfl, rfl⟩ := h1
    exact ⟨w2a, rfl, hrel'⟩
  rename_i v w1a heq
  obtain ⟨v2, w2a, h2, hrel', hv⟩ := exec_same h hrel heq
  rw [h2]
  dsimp only
  replace hrel := hrel'
  clear heq h2 hrel'
  split at h1
  · rename_i v err w1a heq
    obtain ⟨v2, w2a, h2, hrel', _⟩ := exec_same h hrel heq
    rw [h2]
    simp only [Prod.mk.injEq] at h1
    obtain ⟨rfl, rfl⟩ := h1
    exact ⟨w2a, rfl, hrel'⟩
  rename_i v w1a heq
  obtain ⟨v2, w2a, h2, hrel', hv⟩ := exec_same h hrel heq
  rw [h2]
  dsimp only
  replace hrel := hrel'
  clear heq h2 hrel'
  split at h1
  · rename_i err w1a heq
    obtain ⟨w2a, h2, hrel'⟩ := validateComponent_same h qc _ _ hrel heq
    rw [h2]
    simp only [Prod.mk.injEq] at h1
    obtain ⟨rfl, rfl⟩ := h1
    exact ⟨w2a, rfl, hrel'⟩
  rename_i w1a heq
  obtain ⟨w2a, h2, hrel'⟩ := validateComponent_same h qc _ _ hrel heq
  rw [h2]
  dsimp only
  replace hrel := hrel'
  clear heq h2 hrel'
  split at h1
  · rename_i v err w1a heq
    obtain ⟨v2, w2a, h2, hrel', _⟩ := exec_same h hrel heq
    rw [h2]
    simp only [Prod.mk.injEq] at h1
    obtain ⟨rfl, rfl⟩ := h1
    exact ⟨w2a, rfl, hrel'⟩
  rename_i v w1a heq
  obtain ⟨v2, w2a, h2, hrel', hv⟩ := exec_same h hrel heq
  rw [h2]
  dsimp only
  replace hrel := hrel'
  clear heq h2 hrel'
  split at h1
  · rename_i v err w1a heq
    obtain ⟨v2, w2a, h2, hrel', _⟩ := exec_same h hrel heq
    rw [h2]
    simp only [Prod.mk.injEq] at h1
    obtain ⟨rfl, rfl⟩ := h1
    exact ⟨w2a, rfl, hrel'⟩
  rename_i v w1a heq
  obtain ⟨v2, w2a, h2, hrel', hv⟩ := exec_same h hrel heq
  rw [h2]
  dsimp only
  replace hrel := hrel'
  clear heq h2 hrel'
  split at h1
  · rename_i v err w1a heq
    obtain ⟨v2, w2a, h2, hrel', _⟩ := exec_same h hrel heq
    rw [h2]
    simp only [Prod.mk.injEq] at h1
    obtain ⟨rfl, rfl⟩ := h1
    exact ⟨w2a, rfl, hrel'⟩
  rename_i v w1a heq
  obtain ⟨v2, w2a, h2, hrel', hv⟩ := exec_same h hrel heq
  rw [h2]
  dsimp only
  replace hrel := hrel'
  clear heq h2 hrel'
  split at h1
  · rename_i v err w1a heq
    obtain ⟨v2, w2a, h2, hrel', _⟩ := exec_same h hrel heq
    rw [h2]
    simp only [Prod.mk.injEq] at h1
    obtain ⟨rfl, rfl⟩ := h1
    exact ⟨w2a, rfl, hrel'⟩
  rename_i quayConfig w1a heq
  obtain ⟨v2, w2a, h2, hrel', hv⟩ := exec_same h hrel heq
  obtain rfl := hv rfl
  rw [h2]
  dsimp only
  replace hrel := hrel'
  clear heq h2 hrel' hv
  split at h1
  · simp only [Prod.mk.injEq] at h1
    obtain ⟨rfl, rfl⟩ := h1
    exact ⟨w2a, rfl, hrel⟩
  rename_i m hcfg
  split at h1
  · rename_i v err w1a heq
    obtain ⟨v2, w2a, h2, hrel', _⟩ := exec_same h hrel heq
    rw [h2]
    simp only [Prod.mk.injEq] at h1
    obtain ⟨rfl, rfl⟩ := h1
    exact ⟨w2a, rfl, hrel'⟩
  rename_i v w1a heq
  obtain ⟨v2, w2a, h2, hrel', hv⟩ := exec_same h hrel heq
  rw [h2]
  dsimp only
  replace hrel := hrel'
  clear heq h2 hrel'
  split at h1
  · rename_i v err w1a heq
    obtain ⟨v2, w2a, h2, hrel', _⟩ := exec_same h hrel heq
    rw [h2]
    simp only [Prod.mk.injEq] at h1
    obtain ⟨rfl, rfl⟩ := h1
    exact ⟨w2a, rfl, hrel'⟩
  rename_i v w1a heq
  obtain ⟨v2, w2a, h2, hrel', hv⟩ := exec_same h hrel heq
  rw [h2]
  dsimp only
  replace hrel := hrel'
  clear heq h2 hrel'
  split at h1
  · rename_i err w1a heq
    obtain ⟨w2a, h2, hrel'⟩ := validateComponents_same h qc _ _ hrel heq
    rw [h2]
    simp only [Prod.mk.injEq] at h1
    obtain ⟨rfl, rfl⟩ := h1
    exact ⟨w2a, rfl, hrel'⟩
  rename_i w1a heq
  obtain ⟨w2a, h2, hrel'⟩ := validateComponents_same h qc _ _ hrel heq
  rw [h2]
  dsimp only
  replace hrel := hrel'
  clear heq h2 hrel'
  split at h1
  · rename_i v err w1a heq
    obtain ⟨v2, w2a, h2, hrel', _⟩ := exec_same h hrel heq
    rw [h2]
    simp only [Prod.mk.injEq] at h1
    obtain ⟨rfl, rfl⟩ := h1
    exact ⟨w2a, rfl, hrel'⟩
  rename_i v w1a heq
  obtain ⟨v2, w2a, h2, hrel', hv⟩ := exec_same h hrel heq
  rw [h2]
  dsimp only
  replace hrel := hrel'
  clear heq h2 hrel'
  split at h1
  · rename_i v err w1a heq
    obtain ⟨v2, w2a, h2, hrel', _⟩ := exec_same h hrel heq
    rw [h2]
    simp only [Prod.mk.injEq] at h1
    obtain ⟨rfl, rfl⟩ := h1
    exact ⟨w2a, rfl, hrel'⟩
  · rename_i v w1a heq
    obtain ⟨v2, w2a, h2, hrel', _⟩ := exec_same h hrel heq
    rw [h2]
    simp only [Prod.mk.injEq] at h1
    obtain ⟨rfl, rfl⟩ := h1
    exact ⟨w2a, rfl, hrel'⟩

/-- C28.  Two registries that answer alike up to the status and reason of the
create-superuser and upload responses lead `SetupQuay` to the same result, by
the same sequence of client calls with the same errors, and leave the registry
in the same state. -/
theorem SetupQuay_ignores_superuser_and_upload_status {σ : Type} (K : Constants)
    (qc : QuayConfiguration) (cl1 cl2 : QuayClient σ) (s : σ)
    (h : SameUpToStatus cl1 cl2) :
    (runSetupQuay K ⟨qc, cl1⟩ s).1 = (runSetupQuay K ⟨qc, cl2⟩ s).1 ∧
    (runSetupQuay K ⟨qc, cl1⟩ s).2.log.map Exchange.call =
      (runSetupQuay K ⟨qc, cl2⟩ s).2.log.map Exchange.call ∧
    (runSetupQuay K ⟨qc, cl1⟩ s).2.log.map Exchange.err =
      (runSetupQuay K ⟨qc, cl2⟩ s).2.log.map Exchange.err ∧
    (runSetupQuay K ⟨qc, cl1⟩ s).2.server = (runSetupQuay K ⟨qc, cl2⟩ s).2.server := by
  have hrel : SameCalls ({ server := s, log := [] } : World σ) { server := s, log := [] } :=
    ⟨rfl, rfl, rfl⟩
  obtain ⟨w2', h2, hserver, hcalls, herrs⟩ :=
    SetupQuay_same h K qc hrel
      (show SetupQuay K ⟨qc, cl1⟩ { server := s, log := [] } =
        ((runSetupQuay K ⟨qc, cl1⟩ s).1, (runSetupQuay K ⟨qc, cl1⟩ s).2) from rfl)
  have h2' : runSetupQuay K ⟨qc, cl2⟩ s = ((runSetupQuay K ⟨qc, cl1⟩ s).1, w2') := h2
  rw [h2']
  exact ⟨rfl, hcalls, herrs, hserver⟩

/-- C28 at the sample registry and the registry that answers the
create-superuser call and both uploads with `status = false`: the session runs
to the end there too, through the sixteen calls of the script. -/
theorem SetupQuay_ignores_superuser_and_upload_status_witness :
    SameUpToStatus healthyRegistry (faultyRegistry statusRejected) ∧
    (faultyRegistry statusRejected (.CreateSuperuser
      { Username := "quay", Password := "password", ConfirmPassword := "password",
        Email := "quay@example.com" }) none).1.1 = { Status := false, Reason := "rejected" } ∧
    (runSetupQuay sampleConstants (sampleInstance (faultyRegistry statusRejected)) none).1 =
      .returned none ∧
    (runSetupQuay sampleConstants (sampleInstance (faultyRegistry statusRejected))
      none).2.log.map Exchange.call =
      (runSetupQuay sampleConstants (sampleInstance healthyRegistry)
        none).2.log.map Exchange.call ∧
    (runSetupQuay sampleConstants (sampleInstance healthyRegistry)
      none).2.log.length = 16 := by
  have hsame : SameUpToStatus healthyRegistry (faultyRegistry statusRejected) := by
    intro c s
    cases c <;> exact ⟨rfl, rfl, fun hc => by first | rfl | cases hc⟩
  have h := SetupQuay_ignores_superuser_and_upload_status sampleConstants sampleConfiguration
    healthyRegistry (faultyRegistry statusRejected) none hsame
  exact ⟨hsame, rfl, h.1.symm.trans rfl, h.2.1.symm, rfl⟩

/-! ## The client over HTTP -/

namespace client

/-- What `do` leaves on the wire: the one exchange it makes. -/
theorem do_wire {σ : Type} (L : Library) (c : QuayClient σ) (req : Request) (t : Target)
    (v : t.Result) (w : Wire σ) :
    (c.do_ L req t v w).2 =
      { server := (c.httpClient req w.server).2
        log := w.log ++ [{ request := req, result := (c.httpClient req w.server).1 }] } := by
  unfold QuayClient.do_
  dsimp only
  split
  · rfl
  · split
    · split <;> rfl
    · rfl

/-- The wire after an operation: one exchange for the request it built, none
when it built no request. -/
theorem perform_wire {σ : Type} (L : Library) (c : QuayClient σ) (op : Operation)
    (w : Wire σ) :
    (op.perform L c w).2 =
      match op.request L c with
      | .returned (.ok req) =>
        { server := (c.httpClient req w.server).2
          log := w.log ++ [{ request := req, result := (c.httpClient req w.server).1 }] }
      | _ => w := by
  cases op <;>
    simp only [Operation.perform, Operation.request, QuayClient.InitializationConfiguration,
      QuayClient.GetQuayConfiguration, QuayClient.UpdateQuayConfiguration,
      QuayClient.GetRegistryStatus, QuayClient.ValidateDatabase, QuayClient.ValidateComponent,
      QuayClient.ValidateRedis, QuayClient.SetupDatabase, QuayClient.CreateSuperuser,
      QuayClient.CreateSecurityScannerKey, QuayClient.CompleteSetup,
      QuayClient.GetConfigFileStatus, QuayClient.UploadFileResource] <;>
    split <;> simp_all only [do_wire]

/-- What an operation returns: the panic or the error of building the request,
or else what `do` returns for the operation's target, which starts at its zero
value. -/
theorem perform_value {σ : Type} (L : Library) (c : QuayClient σ) (op : Operation)
    (w : Wire σ) :
    (op.perform L c w).1 =
      match op.request L c with
      | .panicked msg => .panicked msg
      | .returned (.error err) =>
        .returned { resp := none, value := op.target.zero, err := some err }
      | .returned (.ok req) => .returned (c.do_ L req op.target op.target.zero w).1 := by
  cases op <;>
    simp only [Operation.perform, Operation.request, QuayClient.InitializationConfiguration,
      QuayClient.GetQuayConfiguration, QuayClient.UpdateQuayConfiguration,
      QuayClient.GetRegistryStatus, QuayClient.ValidateDatabase, QuayClient.ValidateComponent,
      QuayClient.ValidateRedis, QuayClient.SetupDatabase, QuayClient.CreateSuperuser,
      QuayClient.CreateSecurityScannerKey, QuayClient.CompleteSetup,
      QuayClient.GetConfigFileStatus, QuayClient.UploadFileResource] <;>
    split <;> simp_all only <;> rfl

/-- A failed exchange: `do` returns the error of the transport. -/
theorem do_error {σ : Type} (L : Library) (c : QuayClient σ) (req : Request) (t : Target)
    (v : t.Result) (w : Wire σ) (err : String)
    (h : (c.httpClient req w.server).1 = .error err) :
    (c.do_ L req t v w).1 = { resp := none, value := v, err := some err } := by
  unfold QuayClient.do_
  dsimp only
  rw [h]

/-- A body read into a `*StringValue`: the text is the body. -/
theorem do_text {σ : Type} (L : Library) (c : QuayClient σ) (req : Request)
    (v : StringValue) (w : Wire σ) (resp : Response)
    (h : (c.httpClient req w.server).1 = .ok resp) (hread : resp.ReadError = none) :
    (c.do_ L req .stringValue v w).1 =
      { resp := some resp, value := ({ Value := resp.Body } : StringValue), err := none } := by
  unfold QuayClient.do_
  dsimp only
  rw [h]
  dsimp only
  rw [hread]

/-- A body whose reading fails, for a `*StringValue`: the error of the reading
and the value as it was. -/
theorem do_text_unread {σ : Type} (L : Library) (c : QuayClient σ) (req : Request)
    (v : StringValue) (w : Wire σ) (resp : Response) (err : String)
    (h : (c.httpClient req w.server).1 = .ok resp) (hread : resp.ReadError = some err) :
    (c.do_ L req .stringValue v w).1 = { resp := none, value := v, err := some err } := by
  unfold QuayClient.do_
  dsimp only
  rw [h]
  dsimp only
  rw [hread]

/-- Every other target: the value and the error are the decoder's. -/
theorem do_json {σ : Type} (L : Library) (c : QuayClient σ) (req : Request) (t : Target)
    (v : t.Result) (w : Wire σ) (resp : Response)
    (h : (c.httpClient req w.server).1 = .ok resp) (ht : t ≠ .stringValue) :
    (c.do_ L req t v w).1 =
      { resp := some resp
        value := (L.Decode t v resp.Body resp.ReadError).1
        err := (L.Decode t v resp.Body resp.ReadError).2 } := by
  unfold QuayClient.do_
  dsimp only
  rw [h]
  cases t <;> first | exact absurd rfl ht | rfl

/-- A request that `newRequest` returns carries the method it was given and
the reference resolved against the base. -/
theorem newRequest_ok {σ : Type} (L : Library) (c : QuayClient σ) (method path : String)
    (body : Option Body) (req : Request)
    (h : c.newRequest L method path body = .returned (.ok req)) :
    req.Method = method ∧
      ∃ base, c.BaseURL = some base ∧ req.URL = L.ResolveReference base path := by
  unfold QuayClient.newRequest at h
  split at h
  · cases h
  rename_i base hbase
  dsimp only at h
  split at h
  · cases h
  split at h
  · cases h
  simp only [Completion.returned.injEq, Except.ok.injEq] at h
  subst h
  refine ⟨?_, base, hbase, ?_⟩ <;> split <;> rfl

/-- A request that `newFileUploadRequest` returns carries the method it was
given and the reference resolved against the base. -/
theorem newFileUploadRequest_ok {σ : Type} (L : Library) (c : QuayClient σ)
    (method path fileName : String) (content : Bytes) (req : Request)
    (h : c.newFileUploadRequest L method path fileName content = .returned (.ok req)) :
    req.Method = method ∧
      ∃ base, c.BaseURL = some base ∧ req.URL = L.ResolveReference base path := by
  unfold QuayClient.newFileUploadRequest at h
  split at h
  · cases h
  rename_i base hbase
  dsimp only at h
  split at h
  · cases h
  split at h
  · cases h
  split at h
  · cases h
  simp only [Completion.returned.injEq, Except.ok.injEq] at h
  subst h
  exact ⟨rfl, base, hbase, rfl⟩

/-- The request an operation builds has the method of the table and the path
of the table behind `/api/v1`. -/
theorem request_ok {σ : Type} (L : Library) (c : QuayClient σ) (op : Operation)
    (req : Request) (h : op.request L c = .returned (.ok req)) :
    req.Method = op.tableMethod ∧
      ∃ base, c.BaseURL = some base ∧
        req.URL = L.ResolveReference base ("/api/v1" ++ op.tablePath) := by
  cases op <;> simp only [Operation.request] at h
  case UploadFileResource fileName content =>
    have h1 := newFileUploadRequest_ok L c _ _ _ _ req h
    have e : "/api/v1/superuser/config/file/" ++ fileName =
        "/api/v1" ++ ("/superuser/config/file/" ++ fileName) := by
      rw [← String.append_assoc]; rfl
    rw [e] at h1
    exact h1
  case ValidateComponent config validationType =>
    have h1 := newRequest_ok L c _ _ _ req h
    have e : "/api/v1/superuser/config/validate/" ++ validationType =
        "/api/v1" ++ ("/superuser/config/validate/" ++ validationType) := by
      rw [← String.append_assoc]; rfl
    rw [e] at h1
    exact h1
  case GetConfigFileStatus fileName =>
    have h1 := newRequest_ok L c _ _ _ req h
    have e : "/api/v1/superuser/config/file/" ++ fileName =
        "/api/v1" ++ ("/superuser/config/file/" ++ fileName) := by
      rw [← String.append_assoc]; rfl
    rw [e] at h1
    exact h1
  all_goals
    have h1 := newRequest_ok L c _ _ _ req h
    exact h1

end client

/-- C21.  Every operation of the client makes at most one exchange: when its
request is built, exactly that request goes out once, whatever comes back, and
a failed exchange is returned as the error at once; when no request is built
(an error or a panic on the way), nothing goes out. -/
theorem operations_exchange_at_most_once {σ : Type} (L : client.Library)
    (c : client.QuayClient σ) (op : client.Operation) (w : client.Wire σ) :
    (op.perform L c w).2.log.length ≤ w.log.length + 1 ∧
    (∀ req, op.request L c = .returned (.ok req) →
      (op.perform L c w).2.log =
          w.log ++ [{ request := req, result := (c.httpClient req w.server).1 }] ∧
        (op.perform L c w).2.server = (c.httpClient req w.server).2 ∧
        (∀ err, (c.httpClient req w.server).1 = .error err →
          (op.perform L c w).1 =
            .returned { resp := none, value := op.target.zero, err := some err })) ∧
    ((∀ req, op.request L c ≠ .returned (.ok req)) → (op.perform L c w).2 = w) := by
  have hw := client.perform_wire L c op w
  have hv := client.perform_value L c op w
  refine ⟨?_, ?_, ?_⟩
  · rw [hw]
    split
    · simp
    · simp
  · intro req hreq
    rw [hreq] at hw hv
    dsimp only at hw hv
    refine ⟨by rw [hw], by rw [hw], ?_⟩
    intro err herr
    rw [hv, client.do_error L c req _ _ w err herr]
  · intro hno
    rw [hw]
    split
    · rename_i req hreq
      exact absurd hreq (hno req)
    · rfl

/-- C22, as the code has it.  The request an operation sends has the method
the table lists for it, and its target is the table's path behind the prefix
`/api/v1`, resolved against the base address of the client. -/
theorem operations_send_api_v1_paths {σ : Type} (L : client.Library)
    (c : client.QuayClient σ) (op : client.Operation) (w : client.Wire σ)
    (x : client.Roundtrip) (h : (op.perform L c w).2.log = w.log ++ [x]) :
    x.request.Method = op.tableMethod ∧
      ∃ base, c.BaseURL = some base ∧
        x.request.URL = L.ResolveReference base ("/api/v1" ++ op.tablePath) := by
  have hw := client.perform_wire L c op w
  rw [hw] at h
  split at h
  · rename_i req hreq
    dsimp only at h
    have hx := List.append_cancel_left h
    simp only [List.cons.injEq, and_true] at hx
    subst hx
    exact client.request_ok L c op req hreq
  · have hlen := congrArg List.length h
    simp at hlen

/-- C22 at the sample client: the status probe goes out as
`GET https://example-quay-config/api/v1/superuser/registrystatus`. -/
theorem operations_send_api_v1_paths_witness :
    (client.Operation.perform client.sampleLibrary client.sampleClient .GetRegistryStatus
        { server := 0, log := [] }).2.log =
      [] ++ [{ request := client.statusRequest, result := .ok client.okResponse }] ∧
    client.statusRequest.Method = "GET" ∧
    ∃ base, client.sampleClient.BaseURL = some base ∧
      client.statusRequest.URL = base ++ "/api/v1/superuser/registrystatus" :=
  ⟨rfl,
    operations_send_api_v1_paths client.sampleLibrary client.sampleClient .GetRegistryStatus
      { server := 0, log := [] }
      { request := client.statusRequest, result := .ok client.okResponse } rfl⟩

/-- C22 refuted: the table lists `POST /configapp/initialization` for the
initialize operation, and the request goes to
`/api/v1/configapp/initialization`; at the sample client that is another
address than the one the table's path resolves to.  For every client the
target is the reference `/api/v1/configapp/initialization` resolved against
the base. -/
theorem InitializationConfiguration_path_has_api_v1 :
    (client.sampleClient.InitializationConfiguration client.sampleLibrary
        { server := 0, log := [] }).2.log.map
        (fun x => (x.request.Method, x.request.URL)) =
      [("POST", "https://example-quay-config/api/v1/configapp/initialization")] ∧
    client.Operation.tablePath .InitializationConfiguration = "/configapp/initialization" ∧
    client.sampleLibrary.ResolveReference "https://example-quay-config"
        (client.Operation.tablePath .InitializationConfiguration) =
      "https://example-quay-config/configapp/initialization" ∧
    "https://example-quay-config/api/v1/configapp/initialization" ≠
      "https://example-quay-config/configapp/initialization" ∧
    ∀ (σ : Type) (L : client.Library) (c : client.QuayClient σ) (w : client.Wire σ)
      (x : client.Roundtrip),
      (c.InitializationConfiguration L w).2.log = w.log ++ [x] →
      ∃ base, c.BaseURL = some base ∧
        x.request.URL = L.ResolveReference base "/api/v1/configapp/initialization" := by
  refine ⟨rfl, rfl, rfl, by decide, ?_⟩
  intro σ L c w x h
  have hw := client.perform_wire L c .InitializationConfiguration w
  have h0 : (client.Operation.perform L c .InitializationConfiguration w).2.log =
      w.log ++ [x] := h
  rw [hw] at h0
  split at h0
  · rename_i req hreq
    dsimp only at h0
    have hx := List.append_cancel_left h0
    simp only [List.cons.injEq, and_true] at hx
    subst hx
    simp only [client.Operation.request] at hreq
    exact (client.newRequest_ok L c _ _ _ req hreq).2
  · have hlen := congrArg List.length h0
    simp at hlen

/-- C23, as the code has it.  When the exchange of an operation succeeds: the
two operations that read plain text, initialize and finalize, return the body
itself as their text, whatever bytes it holds, when the body is read to its
end, and the error of the read with an empty text otherwise; every other
operation returns the value and the error of the one call of the stream
decoder on the body, which starts from the zero value of the operation's
result type, so the operation reports an error exactly when the decoder
does. -/
theorem operations_decode_response {σ : Type} (L : client.Library)
    (c : client.QuayClient σ) (op : client.Operation) (w : client.Wire σ)
    (req : client.Request) (resp : client.Response)
    (hreq : op.request L c = .returned (.ok req))
    (hresp : (c.httpClient req w.server).1 = .ok resp) :
    (op.target = .stringValue ↔ op = .InitializationConfiguration ∨ op = .CompleteSetup) ∧
    (op.target = .stringValue → resp.ReadError = none →
      ∃ r, (op.perform L c w).1 = .returned r ∧ r.resp = some resp ∧ r.err = none ∧
        op.target.text r.value = some resp.Body) ∧
    (op.target ≠ .stringValue →
      (op.perform L c w).1 = .returned
        { resp := some resp
          value := (L.Decode op.target op.target.zero resp.Body resp.ReadError).1
          err := (L.Decode op.target op.target.zero resp.Body resp.ReadError).2 }) ∧
    (op.target = .stringValue → ∀ err, resp.ReadError = some err →
      (op.perform L c w).1 =
        .returned { resp := none, value := op.target.zero, err := some err }) := by
  have hv := client.perform_value L c op w
  rw [hreq] at hv
  dsimp only at hv
  refine ⟨?_, ?_, ?_, ?_⟩
  · cases op <;> simp [client.Operation.target]
  · intro ht hread
    have hd := client.do_text L c req (client.Target.zero .stringValue) w resp hresp hread
    cases op
    case InitializationConfiguration =>
      exact ⟨_, hv.trans (congrArg client.Completion.returned hd), rfl, rfl, rfl⟩
    case CompleteSetup =>
      exact ⟨_, hv.trans (congrArg client.Completion.returned hd), rfl, rfl, rfl⟩
    all_goals exact absurd ht (by simp [client.Operation.target])
  · intro ht
    rw [hv, client.do_json L c req _ _ w resp hresp ht]
  · intro ht err hread
    have hd := client.do_text_unread L c req (client.Target.zero .stringValue) w resp err
      hresp hread
    cases op
    case InitializationConfiguration =>
      exact hv.trans (congrArg client.Completion.returned hd)
    case CompleteSetup =>
      exact hv.trans (congrArg client.Completion.returned hd)
    all_goals exact absurd ht (by simp [client.Operation.target])

/-- C23 at the sample client, whose registry answers `ok`: initialize returns
the two bytes as its text, and the status probe returns the decoder's error. -/
theorem operations_decode_response_witness :
    client.Operation.request client.sampleLibrary client.sampleClient
        .InitializationConfiguration = .returned (.ok client.initializationRequest) ∧
    (client.sampleClient.httpClient client.initializationRequest 0).1 =
      .ok client.okResponse ∧
    (∃ r, (client.sampleClient.InitializationConfiguration client.sampleLibrary
        { server := 0, log := [] }).1 = .returned r ∧ r.resp = some client.okResponse ∧
      r.err = none ∧ r.value.Value = [111, 107]) ∧
    (client.sampleClient.GetRegistryStatus client.sampleLibrary { server := 0, log := [] }).1 =
      .returned
        { resp := some client.okResponse, value := { Status := "" },
          err := some "invalid character" } :=
  ⟨rfl, rfl,
    by
      obtain ⟨r, h1, h2, h3, h4⟩ :=
        (operations_decode_response client.sampleLibrary client.sampleClient
          .InitializationConfiguration { server := 0, log := [] }
          client.initializationRequest client.okResponse rfl rfl).2.1 rfl rfl
      exact ⟨r, h1, h2, h3, Option.some.inj h4⟩,
    (operations_decode_response client.sampleLibrary client.sampleClient
      .GetRegistryStatus { server := 0, log := [] }
      client.statusRequest client.okResponse rfl rfl).2.2.1 (by decide)⟩

/-- C23 refuted: the registry answers the status probe with the body `{}ok`,
an empty JSON object followed by two bytes, which is not valid JSON.  The
stream decoder stops after the object, and `GetRegistryStatus` returns no
error and the zero status.  The body `ok`, in which no JSON value begins, is
rejected. -/
theorem GetRegistryStatus_accepts_trailing_bytes :
    client.trailingResponse.Body = [123, 125, 111, 107] ∧
    (client.trailingClient.httpClient client.statusRequest 0).1 =
      .ok client.trailingResponse ∧
    (client.trailingClient.GetRegistryStatus client.sampleLibrary
        { server := 0, log := [] }).1 =
      .returned
        { resp := some client.trailingResponse, value := { Status := "" }, err := none } ∧
    (client.sampleClient.GetRegistryStatus client.sampleLibrary { server := 0, log := [] }).1 =
      .returned
        { resp := some client.okResponse, value := { Status := "" },
          err := some "invalid character" } :=
  ⟨rfl, rfl, rfl, rfl⟩

/-! ## Convergence calls and what they do to an existing object -/

theorem Run.head {σ : Type} {b : Prop} {env : Orchestration σ} {op : ClusterOp}
    {p q final : Pass σ} {r : op.Ret} (h : env.exec op p = (r, q)) (hrun : Run b q final) :
    ∃ (e : OpExchange) (rest : List OpExchange),
      final.log = p.log ++ e :: rest ∧ e.op = op := by
  obtain ⟨_, ex, hlog, _⟩ := hrun
  refine ⟨⟨op, r⟩, ex, ?_, rfl⟩
  rw [hlog, (Orchestration.exec_eq h).1, List.append_assoc]
  rfl

theorem createRBAC_first {σ : Type} (env : Orchestration σ) (meta : ObjectMeta) :
    IssuesFirst (createRBAC env meta) (fun p =>
      .CreateOrUpdateResource (some p.quayConfiguration.QuayEcosystem)
        p.quayConfiguration.QuayEcosystem.Namespace (.built .Role "GetRoleDefinition" meta)) := by
  intro p
  unfold createRBAC
  dsimp only
  rcases h : env.exec (.CreateOrUpdateResource (some p.quayConfiguration.QuayEcosystem)
      p.quayConfiguration.QuayEcosystem.Namespace (.built .Role "GetRoleDefinition" meta))
      p with ⟨_ | err, q⟩
  · dsimp only
    refine Run.head (b := True) h ?_
    split <;> rename_i h2 <;> exact (Run.refl True q).step h2 (.roleBinding _ _ _)
  · dsimp only
    exact Run.head h (Run.refl True _)

theorem createRBAC_second {σ : Type} (env : Orchestration σ) (meta : ObjectMeta)
    (p q : Pass σ)
    (h : env.exec (.CreateOrUpdateResource (some p.quayConfiguration.QuayEcosystem)
      p.quayConfiguration.QuayEcosystem.Namespace (.built .Role "GetRoleDefinition" meta))
      p = (none, q)) :
    ∃ e : OpExchange, (createRBAC env meta p).2.log = q.log ++ [e] ∧
      e.op = .CreateOrUpdateResource (some p.quayConfiguration.QuayEcosystem)
        p.quayConfiguration.QuayEcosystem.Namespace
        (.built .RoleBinding "GetRoleBindingDefinition" meta) := by
  have hq := (Orchestration.exec_eq h).2
  unfold createRBAC
  dsimp only
  rw [h]
  dsimp only
  rw [hq]
  split <;> rename_i h2 <;> exact ⟨_, (Orchestration.exec_eq h2).1, rfl⟩

theorem createQuayRoute_first {σ : Type} (env : Orchestration σ) (meta : ObjectMeta) :
    IssuesFirst (createQuayRoute env meta) (fun p =>
      .CreateOrUpdateResource (some p.quayConfiguration.QuayEcosystem)
        p.quayConfiguration.QuayEcosystem.Namespace
        (.route (GetQuayRouteDefinition
          { meta with Name := GetQuayResourcesName p.quayConfiguration.QuayEcosystem }
          p.quayConfiguration.QuayEcosystem))) := by
  intro p
  unfold createQuayRoute
  dsimp only
  rcases h : env.exec (.CreateOrUpdateResource (some p.quayConfiguration.QuayEcosystem)
      p.quayConfiguration.QuayEcosystem.Namespace
      (.route (GetQuayRouteDefinition
        { meta with Name := GetQuayResourcesName p.quayConfiguration.QuayEcosystem }
        p.quayConfiguration.QuayEcosystem))) p with ⟨_ | err, q⟩
  · dsimp only
    refine Run.head (b := True) h ?_
    have h1 := (Run.refl True q).exec env .pause
    split
    · rename_i h2
      exact h1.step h2 (.get _ _ _)
    · rename_i h2
      exact (h1.step h2 (.get _ _ _)).andThen (Run.context rfl rfl)
  · dsimp only
    exact Run.head h (Run.refl True _)

theorem createQuayConfigRoute_first {σ : Type} (env : Orchestration σ) (meta : ObjectMeta) :
    IssuesFirst (createQuayConfigRoute env meta) (fun p =>
      .CreateOrUpdateResource (some p.quayConfiguration.QuayEcosystem)
        p.quayConfiguration.QuayEcosystem.Namespace
        (.route (GetQuayConfigRouteDefinition meta p.quayConfiguration.QuayEcosystem))) := by
  intro p
  unfold createQuayConfigRoute
  dsimp only
  split <;> rename_i h <;> exact Run.head h (Run.refl True _)

theorem createClairRoute_first {σ : Type} (env : Orchestration σ) (meta : ObjectMeta) :
    IssuesFirst (createClairRoute env meta) (fun p =>
      .CreateOrUpdateResource (some p.quayConfiguration.QuayEcosystem)
        p.quayConfiguration.QuayEcosystem.Namespace
        (.route (GetClairRouteDefinition
          { meta with Name := GetClairResourcesName p.quayConfiguration.QuayEcosystem }
          p.quayConfiguration.QuayEcosystem))) := by
  intro p
  unfold createClairRoute
  dsimp only
  rcases h : env.exec (.CreateOrUpdateResource (some p.quayConfiguration.QuayEcosystem)
      p.quayConfiguration.QuayEcosystem.Namespace
      (.route (GetClairRouteDefinition
        { meta with Name := GetClairResourcesName p.quayConfiguration.QuayEcosystem }
        p.quayConfiguration.QuayEcosystem))) p with ⟨_ | err, q⟩
  · dsimp only
    refine Run.head (b := True) h ?_
    have h1 := (Run.refl True q).exec env .pause
    split
    · rename_i h2
      exact h1.step h2 (.get _ _ _)
    · rename_i h2
      exact (h1.step h2 (.get _ _ _)).andThen (Run.context rfl rfl)
  · dsimp only
    exact Run.head h (Run.refl True _)

theorem quayDeployment_first {σ : Type} (env : Orchestration σ) (meta : ObjectMeta) :
    IssuesFirst (quayDeployment env meta) (fun p =>
      .CreateOrUpdateResource (some p.quayConfiguration.QuayEcosystem)
        p.quayConfiguration.QuayEcosystem.Namespace
        (.built .Deployment "GetQuayDeploymentDefinition" meta)) := by
  intro p
  unfold quayDeployment
  dsimp only
  split <;> rename_i h <;> exact Run.head h (Run.refl True _)

theorem clairDeployment_first {σ : Type} (env : Orchestration σ) (meta : ObjectMeta) :
    IssuesFirst (clairDeployment env meta) (fun p =>
      .CreateOrUpdateResource (some p.quayConfiguration.QuayEcosystem)
        p.quayConfiguration.QuayEcosystem.Namespace
        (.built .Deployment "GetClairDeploymentDefinition" meta)) := by
  intro p
  unfold clairDeployment
  dsimp only
  split <;> rename_i h <;> exact Run.head h (Run.refl True _)

theorem quayConfigDeployment_first {σ : Type} (P : ProvisioningConstants)
    (env : Orchestration σ) (meta : ObjectMeta) (p : Pass σ) :
    (p.quayConfiguration.ValidProvidedQuayConfigPasswordSecret = true →
      ∃ (e : OpExchange) (rest : List OpExchange),
        (quayConfigDeployment P env meta p).2.log = p.log ++ e :: rest ∧
        e.op = .CreateOrUpdateResource (some p.quayConfiguration.QuayEcosystem)
          p.quayConfiguration.QuayEcosystem.Namespace
          (.built .Deployment "GetQuayConfigDeploymentDefinition" meta)) ∧
    (p.quayConfiguration.ValidProvidedQuayConfigPasswordSecret = false →
      (∃ (e : OpExchange) (rest : List OpExchange),
        (quayConfigDeployment P env meta p).2.log = p.log ++ e :: rest ∧
        e.op = .CreateOrUpdateResource (some p.quayConfiguration.QuayEcosystem)
          p.quayConfiguration.QuayEcosystem.Namespace
          (.credentialsSecret
            { meta with Name := GetQuayConfigResourcesName p.quayConfiguration.QuayEcosystem }
            P.DefaultQuayConfigCredentials)) ∧
      (∀ q : Pass σ,
        env.exec (.CreateOrUpdateResource (some p.quayConfiguration.QuayEcosystem)
          p.quayConfiguration.QuayEcosystem.Namespace
          (.credentialsSecret
            { meta with Name := GetQuayConfigResourcesName p.quayConfiguration.QuayEcosystem }
            P.DefaultQuayConfigCredentials)) p = (none, q) →
        ∃ e : OpExchange, (quayConfigDeployment P env meta p).2.log = q.log ++ [e] ∧
          e.op = .CreateOrUpdateResource (some p.quayConfiguration.QuayEcosystem)
            p.quayConfiguration.QuayEcosystem.Namespace
            (.built .Deployment "GetQuayConfigDeploymentDefinition" meta))) := by
  refine ⟨?_, ?_⟩
  · intro hflag
    unfold quayConfigDeployment
    simp only [hflag, Bool.not_true, Bool.false_eq_true, if_false]
    split <;> rename_i h <;> exact Run.head h (Run.refl True _)
  · intro hflag
    refine ⟨?_, ?_⟩
    · unfold quayConfigDeployment
      simp only [hflag, Bool.not_false, if_true, GetSecretDefinitionFromCredentialsMap]
      rcases h : env.exec (.CreateOrUpdateResource (some p.quayConfiguration.QuayEcosystem)
          p.quayConfiguration.QuayEcosystem.Namespace
          (.credentialsSecret
            { meta with Name := GetQuayConfigResourcesName p.quayConfiguration.QuayEcosystem }
            P.DefaultQuayConfigCredentials)) p with ⟨_ | err, q⟩
      · dsimp only
        refine Run.head (b := True) h ?_
        split <;> rename_i h2 <;> exact (Run.refl True q).step h2 (.quayConfigDeployment _ _ _)
      · dsimp only
        exact Run.head h (Run.refl True _)
    · intro q h
      have hq := (Orchestration.exec_eq h).2
      unfold quayConfigDeployment
      simp only [hflag, Bool.not_false, if_true, GetSecretDefinitionFromCredentialsMap]
      rw [h]
      dsimp only
      rw [hq]
      split <;> rename_i h2 <;> exact ⟨_, (Orchestration.exec_eq h2).1, rfl⟩

theorem createServiceAccount_cases {σ : Type} (env : Orchestration σ)
    (serviceAccountName : String) (meta : ObjectMeta) (p : Pass σ) (found : Unit)
    (e : Option ClusterError) (s1 : σ)
    (hget : env (.Get .ServiceAccount serviceAccountName
      p.quayConfiguration.QuayEcosystem.Namespace) p.cluster = ((found, e), s1)) :
    (e = none → createServiceAccount env serviceAccountName meta p =
      (none, { p with cluster := s1, log := p.log ++
        [⟨.Get .ServiceAccount serviceAccountName
          p.quayConfiguration.QuayEcosystem.Namespace, (found, none)⟩] })) ∧
    (∀ err, e = some err → err.NotFound = false →
      createServiceAccount env serviceAccountName meta p =
        (some err, { p with cluster := s1, log := p.log ++
          [⟨.Get .ServiceAccount serviceAccountName
            p.quayConfiguration.QuayEcosystem.Namespace, (found, some err)⟩] })) ∧
    (∀ err, e = some err → err.NotFound = true → ∀ r s2,
      env (.CreateOrUpdateResource (some p.quayConfiguration.QuayEcosystem)
        p.quayConfiguration.QuayEcosystem.Namespace
        (.built .ServiceAccount "GetServiceAccountDefinition"
          { meta with Name := serviceAccountName })) s1 = (r, s2) →
      createServiceAccount env serviceAccountName meta p =
        (r, { p with cluster := s2, log := p.log ++
          [⟨.Get .ServiceAccount serviceAccountName
            p.quayConfiguration.QuayEcosystem.Namespace, (found, some err)⟩,
           ⟨.CreateOrUpdateResource (some p.quayConfiguration.QuayEcosystem)
              p.quayConfiguration.QuayEcosystem.Namespace
              (.built .ServiceAccount "GetServiceAccountDefinition"
                { meta with Name := serviceAccountName }), r⟩] })) := by
  refine ⟨?_, ?_, ?_⟩
  · intro he
    subst he
    unfold createServiceAccount
    simp [Orchestration.exec, hget]
  · intro err he hnf
    subst he
    unfold createServiceAccount
    simp [Orchestration.exec, hget, hnf]
  · intro err he hnf r s2 hcreate
    subst he
    unfold createServiceAccount
    simp [Orchestration.exec, hget, hnf, hcreate]

theorem Store.put_same {ι : Type} [DecidableEq ι] (s : Store ι) (k : ι) (obj : Object) :
    Store.put s k obj k = some obj := by
  simp [Store.put]

theorem Store.put_other {ι : Type} [DecidableEq ι] (s : Store ι) (k k' : ι) (obj : Object)
    (h : k' ≠ k) : Store.put s k obj k' = s k' := by
  simp [Store.put, h]

theorem createServiceAccount_keeps_existing {ι τ : Type} [DecidableEq ι] (M : Places ι)
    (rest : Orchestration τ) (serviceAccountName : String) (meta : ObjectMeta)
    (q : Pass (Store ι × τ)) (old : Object)
    (h : q.cluster.1 (M.locate .ServiceAccount serviceAccountName
      q.quayConfiguration.QuayEcosystem.Namespace) = some old) :
    createServiceAccount (storeCluster M rest) serviceAccountName meta q =
      (none, { q with log := q.log ++
        [⟨.Get .ServiceAccount serviceAccountName
          q.quayConfiguration.QuayEcosystem.Namespace,
          (M.view .ServiceAccount (some old), none)⟩] }) := by
  obtain ⟨qc, ⟨s, t⟩, log⟩ := q
  dsimp only at h
  have hget : storeCluster M rest (.Get .ServiceAccount serviceAccountName
      qc.QuayEcosystem.Namespace) (s, t) =
      ((M.view .ServiceAccount (some old), none), (s, t)) := by
    simp [storeCluster, h]
  exact (createServiceAccount_cases (storeCluster M rest) serviceAccountName meta
    ⟨qc, (s, t), log⟩ _ none (s, t) hget).1 rfl

theorem createRBAC_overwrites {ι τ : Type} [DecidableEq ι] (M : Places ι)
    (rest : Orchestration τ) (meta : ObjectMeta) (q : Pass (Store ι × τ)) :
    (createRBAC (storeCluster M rest) meta q).1 = none ∧
    (createRBAC (storeCluster M rest) meta q).2.cluster.1 =
      Store.createOrUpdate M
        (Store.createOrUpdate M q.cluster.1 q.quayConfiguration.QuayEcosystem.Namespace
          (.built .Role "GetRoleDefinition" meta))
        q.quayConfiguration.QuayEcosystem.Namespace
        (.built .RoleBinding "GetRoleBindingDefinition" meta) := by
  obtain ⟨qc, ⟨s, t⟩, log⟩ := q
  unfold createRBAC
  simp [Orchestration.exec, storeCluster]

theorem storeCluster_exec_update {ι τ : Type} [DecidableEq ι] (M : Places ι)
    (rest : Orchestration τ) (owner : Option QuayEcosystem) (ns : String) (obj : Object)
    (q : Pass (Store ι × τ)) :
    (storeCluster M rest).exec (.CreateOrUpdateResource owner ns obj) q =
      (none, { q with
        cluster := (Store.createOrUpdate M q.cluster.1 ns obj, q.cluster.2)
        log := q.log ++ [⟨.CreateOrUpdateResource owner ns obj, none⟩] }) := by
  obtain ⟨qc, ⟨s, t⟩, log⟩ := q
  rfl

theorem storeCluster_exec_get {ι τ : Type} [DecidableEq ι] (M : Places ι)
    (rest : Orchestration τ) (kind : Kind) (name ns : String) (q : Pass (Store ι × τ)) :
    ((storeCluster M rest).exec (.Get kind name ns) q).2.cluster = q.cluster := by
  obtain ⟨qc, ⟨s, t⟩, log⟩ := q
  simp only [Orchestration.exec, storeCluster]
  split <;> rfl

theorem storeCluster_exec_sleep {ι τ : Type} [DecidableEq ι] (M : Places ι)
    (rest : Orchestration τ) (duration : Nat) (q : Pass (Store ι × τ)) :
    ((storeCluster M rest).exec (.Sleep duration) q).2.cluster.1 = q.cluster.1 := by
  obtain ⟨qc, ⟨s, t⟩, log⟩ := q
  rfl


theorem quayDeployment_leaves {ι τ : Type} [DecidableEq ι] (M : Places ι)
    (rest : Orchestration τ) (meta : ObjectMeta) :
    LeavesDesired M rest (fun env => quayDeployment env meta)
      (fun _ => .built .Deployment "GetQuayDeploymentDefinition" meta) := by
  intro q
  obtain ⟨qc, ⟨s, t⟩, log⟩ := q
  unfold quayDeployment
  simp [Orchestration.exec, storeCluster, Store.createOrUpdate, Store.put]

theorem clairDeployment_leaves {ι τ : Type} [DecidableEq ι] (M : Places ι)
    (rest : Orchestration τ) (meta : ObjectMeta) :
    LeavesDesired M rest (fun env => clairDeployment env meta)
      (fun _ => .built .Deployment "GetClairDeploymentDefinition" meta) := by
  intro q
  obtain ⟨qc, ⟨s, t⟩, log⟩ := q
  unfold clairDeployment
  simp [Orchestration.exec, storeCluster, Store.createOrUpdate, Store.put]

theorem quayConfigDeployment_leaves {ι τ : Type} [DecidableEq ι] (M : Places ι)
    (rest : Orchestration τ) (P : ProvisioningConstants) (meta : ObjectMeta) :
    LeavesDesired M rest (fun env => quayConfigDeployment P env meta)
      (fun _ => .built .Deployment "GetQuayConfigDeploymentDefinition" meta) := by
  intro q
  obtain ⟨qc, ⟨s, t⟩, log⟩ := q
  unfold quayConfigDeployment
  by_cases hflag : qc.ValidProvidedQuayConfigPasswordSecret = true <;>
    simp [Orchestration.exec, storeCluster, Store.createOrUpdate, Store.put, hflag]

theorem createQuayConfigRoute_leaves {ι τ : Type} [DecidableEq ι] (M : Places ι)
    (rest : Orchestration τ) (meta : ObjectMeta) :
    LeavesDesired M rest (fun env => createQuayConfigRoute env meta)
      (fun q => .route (GetQuayConfigRouteDefinition meta q.quayConfiguration.QuayEcosystem)) := by
  intro q
  obtain ⟨qc, ⟨s, t⟩, log⟩ := q
  unfold createQuayConfigRoute
  simp [Orchestration.exec, storeCluster, Store.createOrUpdate, Store.put]

theorem createQuayRoute_leaves {ι τ : Type} [DecidableEq ι] (M : Places ι)
    (rest : Orchestration τ) (meta : ObjectMeta) :
    LeavesDesired M rest (fun env => createQuayRoute env meta)
      (fun q => .route (GetQuayRouteDefinition
        { meta with Name := GetQuayResourcesName q.quayConfiguration.QuayEcosystem }
        q.quayConfiguration.QuayEcosystem)) := by
  intro q
  unfold createQuayRoute
  dsimp only
  rw [storeCluster_exec_update]
  dsimp only
  split
  · rename_i h
    have hc := congrArg (fun x => x.2.cluster.1) h
    dsimp only at hc
    rw [storeCluster_exec_get, storeCluster_exec_sleep] at hc
    dsimp only
    rw [← hc]
    exact Store.put_same _ _ _
  · rename_i h
    have hc := congrArg (fun x => x.2.cluster.1) h
    dsimp only at hc
    rw [storeCluster_exec_get, storeCluster_exec_sleep] at hc
    dsimp only
    rw [← hc]
    exact Store.put_same _ _ _

theorem createClairRoute_leaves {ι τ : Type} [DecidableEq ι] (M : Places ι)
    (rest : Orchestration τ) (meta : ObjectMeta) :
    LeavesDesired M rest (fun env => createClairRoute env meta)
      (fun q => .route (GetClairRouteDefinition
        { meta with Name := GetClairResourcesName q.quayConfiguration.QuayEcosystem }
        q.quayConfiguration.QuayEcosystem)) := by
  intro q
  unfold createClairRoute
  dsimp only
  rw [storeCluster_exec_update]
  dsimp only
  split
  · rename_i h
    have hc := congrArg (fun x => x.2.cluster.1) h
    dsimp only at hc
    rw [storeCluster_exec_get, storeCluster_exec_sleep] at hc
    dsimp only
    rw [← hc]
    exact Store.put_same _ _ _
  · rename_i h
    have hc := congrArg (fun x => x.2.cluster.1) h
    dsimp only at hc
    rw [storeCluster_exec_get, storeCluster_exec_sleep] at hc
    dsimp only
    rw [← hc]
    exact Store.put_same _ _ _

/-- C16, counterexample.  At the level of the calls: the workload of the cache
is converged with `CreateResourceIfNotExists`, not in CreateOrUpdate mode, and
the credentials secret of the configuration UI is converged with
`CreateOrUpdateResource`, not in CreateIfAbsent mode.  On a store that holds a
service account, a workload of the cache and a role that were edited by hand:
`createServiceAccount` looks the service account up and issues no write, and
`redisDeployment` issues its create-if-absent call, so both objects stay as
they were and are not the desired ones; the role is overwritten with the
desired one by `createRBAC`. -/
theorem redisDeployment_converges_if_absent :
    (redisDeployment (answering readyCluster) sampleMeta
      (startPass sampleConfiguration ())).2.log.map OpExchange.op =
      [.CreateResourceIfNotExists (some sampleEcosystem) "registry"
         (.built .Deployment "GetRedisDeploymentDefinition" sampleMeta),
       .Sleep 2000000000,
       .Get .Deployment "example-redis" "registry"] ∧
    (quayConfigDeployment sampleProvisioning (answering readyCluster) sampleMeta
      (startPass sampleConfiguration ())).2.log.map OpExchange.op =
      [.CreateOrUpdateResource (some sampleEcosystem) "registry"
         (.credentialsSecret { Name := "example-quay-config", Namespace := "registry" }
           [("config-app-password", "quay")]),
       .CreateOrUpdateResource (some sampleEcosystem) "registry"
         (.built .Deployment "GetQuayConfigDeploymentDefinition" sampleMeta)] ∧
    (createServiceAccount driftedCluster "quay" sampleMeta
      (startPass sampleConfiguration (driftedStore, ()))).1 = none ∧
    (createServiceAccount driftedCluster "quay" sampleMeta
      (startPass sampleConfiguration (driftedStore, ()))).2.log.map OpExchange.op =
      [.Get .ServiceAccount "quay" "registry"] ∧
    (createServiceAccount driftedCluster "quay" sampleMeta
      (startPass sampleConfiguration (driftedStore, ()))).2.cluster.1
      (Kind.ServiceAccount, "registry", "quay") = some driftedServiceAccount ∧
    driftedServiceAccount ≠
      .built .ServiceAccount "GetServiceAccountDefinition"
        { Name := "quay", Namespace := "registry" } ∧
    (redisDeployment driftedCluster sampleMeta
      (startPass sampleConfiguration (driftedStore, ()))).1 = (none, none) ∧
    (redisDeployment driftedCluster sampleMeta
      (startPass sampleConfiguration (driftedStore, ()))).2.log.map OpExchange.op =
      [.CreateResourceIfNotExists (some sampleEcosystem) "registry"
         (.built .Deployment "GetRedisDeploymentDefinition" sampleMeta),
       .Sleep 2000000000,
       .Get .Deployment "example-redis" "registry"] ∧
    (redisDeployment driftedCluster sampleMeta
      (startPass sampleConfiguration (driftedStore, ()))).2.cluster.1
      (Kind.Deployment, "registry", "example-redis") = some driftedRedisDeployment ∧
    driftedRedisDeployment ≠ .built .Deployment "GetRedisDeploymentDefinition" sampleMeta ∧
    (createRBAC driftedCluster sampleMeta
      (startPass sampleConfiguration (driftedStore, ()))).2.cluster.1
      (Kind.Role, "registry", "example") =
      some (.built .Role "GetRoleDefinition" sampleMeta) := by
  refine ⟨rfl, rfl, rfl, rfl, rfl, ?_, rfl, rfl, rfl, ?_, rfl⟩
  · intro h
    injection h with _ hb _
    exact absurd hb (by decide)
  · intro h
    injection h with _ hb _
    exact absurd hb (by decide)

/-- C16, as the code has it.  (1) Every operation of `CoreResourceDeployment`,
`DeployQuayConfiguration`, `DeployQuay` and `DeployClair` follows the table
`ClusterOp.followsTable` of the call used for each kind.  (2) Roles, role
bindings, the three routes and the workloads of the registry, of its
configuration UI and of the scanner are written with `CreateOrUpdateResource`
as the first operation of their step, whatever the cluster holds; the role
binding follows the role, and the workload of the configuration UI follows its
credentials secret, which is written the same way.  (3) A service account is
looked up first: when it exists nothing is written, and the
`CreateOrUpdateResource` call is made only after a not-found answer.  (4) On a
store, `CreateOrUpdateResource` leaves the desired object at its place and no
other place changed; `CreateResourceIfNotExists` leaves a store that holds an
object at that place as it is and fills an empty place.  (5) So on a store
`createServiceAccount` leaves an existing service account as it is;
`createRBAC` leaves the desired role binding, and the desired role unless the
two share a place; and the steps of the three routes and of the three
workloads leave the desired object at its place, whatever was there. -/
theorem orchestrator_follows_convergence_table {σ : Type} (P : ProvisioningConstants)
    (env : Orchestration σ) (metaObject : ObjectMeta) (p : Pass σ) :
    (∃ exchanges : List OpExchange,
      (CoreResourceDeployment P env metaObject p).2.log = p.log ++ exchanges ∧
      ∀ e ∈ exchanges, e.op.followsTable = true) ∧
    (∃ exchanges : List OpExchange,
      (DeployQuayConfiguration P env metaObject p).2.log = p.log ++ exchanges ∧
      ∀ e ∈ exchanges, e.op.followsTable = true) ∧
    (∃ exchanges : List OpExchange,
      (DeployQuay env metaObject p).2.log = p.log ++ exchanges ∧
      ∀ e ∈ exchanges, e.op.followsTable = true) ∧
    (∃ exchanges : List OpExchange,
      (DeployClair env metaObject p).2.log = p.log ++ exchanges ∧
      ∀ e ∈ exchanges, e.op.followsTable = true) ∧
    IssuesFirst (createRBAC env metaObject) (fun p =>
      .CreateOrUpdateResource (some p.quayConfiguration.QuayEcosystem)
        p.quayConfiguration.QuayEcosystem.Namespace
        (.built .Role "GetRoleDefinition" metaObject)) ∧
    (∀ q : Pass σ,
      env.exec (.CreateOrUpdateResource (some p.quayConfiguration.QuayEcosystem)
        p.quayConfiguration.QuayEcosystem.Namespace
        (.built .Role "GetRoleDefinition" metaObject)) p = (none, q) →
      ∃ e : OpExchange, (createRBAC env metaObject p).2.log = q.log ++ [e] ∧
        e.op = .CreateOrUpdateResource (some p.quayConfiguration.QuayEcosystem)
          p.quayConfiguration.QuayEcosystem.Namespace
          (.built .RoleBinding "GetRoleBindingDefinition" metaObject)) ∧
    IssuesFirst (createQuayRoute env metaObject) (fun p =>
      .CreateOrUpdateResource (some p.quayConfiguration.QuayEcosystem)
        p.quayConfiguration.QuayEcosystem.Namespace
        (.route (GetQuayRouteDefinition
          { metaObject with Name := GetQuayResourcesName p.quayConfiguration.QuayEcosystem }
          p.quayConfiguration.QuayEcosystem))) ∧
    IssuesFirst (createQuayConfigRoute env metaObject) (fun p =>
      .CreateOrUpdateResource (some p.quayConfiguration.QuayEcosystem)
        p.quayConfiguration.QuayEcosystem.Namespace
        (.route (GetQuayConfigRouteDefinition metaObject p.quayConfiguration.QuayEcosystem))) ∧
    IssuesFirst (createClairRoute env metaObject) (fun p =>
      .CreateOrUpdateResource (some p.quayConfiguration.QuayEcosystem)
        p.quayConfiguration.QuayEcosystem.Namespace
        (.route (GetClairRouteDefinition
          { metaObject with Name := GetClairResourcesName p.quayConfiguration.QuayEcosystem }
          p.quayConfiguration.QuayEcosystem))) ∧
    IssuesFirst (quayDeployment env metaObject) (fun p =>
      .CreateOrUpdateResource (some p.quayConfiguration.QuayEcosystem)
        p.quayConfiguration.QuayEcosystem.Namespace
        (.built .Deployment "GetQuayDeploymentDefinition" metaObject)) ∧
    IssuesFirst (clairDeployment env metaObject) (fun p =>
      .CreateOrUpdateResource (some p.quayConfiguration.QuayEcosystem)
        p.quayConfiguration.QuayEcosystem.Namespace
        (.built .Deployment "GetClairDeploymentDefinition" metaObject)) ∧
    (p.quayConfiguration.ValidProvidedQuayConfigPasswordSecret = true →
      ∃ (e : OpExchange) (rest : List OpExchange),
        (quayConfigDeployment P env metaObject p).2.log = p.log ++ e :: rest ∧
        e.op = .CreateOrUpdateResource (some p.quayConfiguration.QuayEcosystem)
          p.quayConfiguration.QuayEcosystem.Namespace
          (.built .Deployment "GetQuayConfigDeploymentDefinition" metaObject)) ∧
    (p.quayConfiguration.ValidProvidedQuayConfigPasswordSecret = false →
      (∃ (e : OpExchange) (rest : List OpExchange),
        (quayConfigDeployment P env metaObject p).2.log = p.log ++ e :: rest ∧
        e.op = .CreateOrUpdateResource (some p.quayConfiguration.QuayEcosystem)
          p.quayConfiguration.QuayEcosystem.Namespace
          (.credentialsSecret
            { metaObject with
              Name := GetQuayConfigResourcesName p.quayConfiguration.QuayEcosystem }
            P.DefaultQuayConfigCredentials)) ∧
      (∀ q : Pass σ,
        env.exec (.CreateOrUpdateResource (some p.quayConfiguration.QuayEcosystem)
          p.quayConfiguration.QuayEcosystem.Namespace
          (.credentialsSecret
            { metaObject with
              Name := GetQuayConfigResourcesName p.quayConfiguration.QuayEcosystem }
            P.DefaultQuayConfigCredentials)) p = (none, q) →
        ∃ e : OpExchange, (quayConfigDeployment P env metaObject p).2.log = q.log ++ [e] ∧
          e.op = .CreateOrUpdateResource (some p.quayConfiguration.QuayEcosystem)
            p.quayConfiguration.QuayEcosystem.Namespace
            (.built .Deployment "GetQuayConfigDeploymentDefinition" metaObject))) ∧
    (∀ (serviceAccountName : String) (found : Unit) (e : Option ClusterError) (s1 : σ),
      env (.Get .ServiceAccount serviceAccountName
        p.quayConfiguration.QuayEcosystem.Namespace) p.cluster = ((found, e), s1) →
      (e = none → createServiceAccount env serviceAccountName metaObject p =
        (none, { p with cluster := s1, log := p.log ++
          [⟨.Get .ServiceAccount serviceAccountName
            p.quayConfiguration.QuayEcosystem.Namespace, (found, none)⟩] })) ∧
      (∀ err, e = some err → err.NotFound = false →
        createServiceAccount env serviceAccountName metaObject p =
          (some err, { p with cluster := s1, log := p.log ++
            [⟨.Get .ServiceAccount serviceAccountName
              p.quayConfiguration.QuayEcosystem.Namespace, (found, some err)⟩] })) ∧
      (∀ err, e = some err → err.NotFound = true → ∀ r s2,
        env (.CreateOrUpdateResource (some p.quayConfiguration.QuayEcosystem)
          p.quayConfiguration.QuayEcosystem.Namespace
          (.built .ServiceAccount "GetServiceAccountDefinition"
            { metaObject with Name := serviceAccountName })) s1 = (r, s2) →
        createServiceAccount env serviceAccountName metaObject p =
          (r, { p with cluster := s2, log := p.log ++
            [⟨.Get .ServiceAccount serviceAccountName
              p.quayConfiguration.QuayEcosystem.Namespace, (found, some err)⟩,
             ⟨.CreateOrUpdateResource (some p.quayConfiguration.QuayEcosystem)
                p.quayConfiguration.QuayEcosystem.Namespace
                (.built .ServiceAccount "GetServiceAccountDefinition"
                  { metaObject with Name := serviceAccountName }), r⟩] }))) ∧
    (∀ (ι τ : Type) [DecidableEq ι] (M : Places ι) (rest : Orchestration τ) (s : Store ι)
      (t : τ) (owner : Option QuayEcosystem) (ns : String) (obj : Object),
      (∃ s2 : Store ι,
        storeCluster M rest (.CreateOrUpdateResource owner ns obj) (s, t) = (none, (s2, t)) ∧
        s2 (M.place ns obj) = some obj ∧ ∀ k, k ≠ M.place ns obj → s2 k = s k) ∧
      (∀ old, s (M.place ns obj) = some old →
        storeCluster M rest (.CreateResourceIfNotExists owner ns obj) (s, t) =
          (none, (s, t))) ∧
      (s (M.place ns obj) = none →
        ∃ s2 : Store ι,
          storeCluster M rest (.CreateResourceIfNotExists owner ns obj) (s, t) =
            (none, (s2, t)) ∧
          s2 (M.place ns obj) = some obj ∧ ∀ k, k ≠ M.place ns obj → s2 k = s k)) ∧
    (∀ (ι τ : Type) [DecidableEq ι] (M : Places ι) (rest : Orchestration τ)
      (serviceAccountName : String) (q : Pass (Store ι × τ)) (old : Object),
      q.cluster.1 (M.locate .ServiceAccount serviceAccountName
        q.quayConfiguration.QuayEcosystem.Namespace) = some old →
      createServiceAccount (storeCluster M rest) serviceAccountName metaObject q =
        (none, { q with log := q.log ++
          [⟨.Get .ServiceAccount serviceAccountName
            q.quayConfiguration.QuayEcosystem.Namespace,
            (M.view .ServiceAccount (some old), none)⟩] })) ∧
    (∀ (ι τ : Type) [DecidableEq ι] (M : Places ι) (rest : Orchestration τ)
      (q : Pass (Store ι × τ)),
      (createRBAC (storeCluster M rest) metaObject q).1 = none ∧
      (createRBAC (storeCluster M rest) metaObject q).2.cluster.1
        (M.place q.quayConfiguration.QuayEcosystem.Namespace
          (.built .RoleBinding "GetRoleBindingDefinition" metaObject)) =
        some (.built .RoleBinding "GetRoleBindingDefinition" metaObject) ∧
      (M.place q.quayConfiguration.QuayEcosystem.Namespace
          (.built .Role "GetRoleDefinition" metaObject) ≠
        M.place q.quayConfiguration.QuayEcosystem.Namespace
          (.built .RoleBinding "GetRoleBindingDefinition" metaObject) →
        (createRBAC (storeCluster M rest) metaObject q).2.cluster.1
          (M.place q.quayConfiguration.QuayEcosystem.Namespace
            (.built .Role "GetRoleDefinition" metaObject)) =
          some (.built .Role "GetRoleDefinition" metaObject))) ∧
    (∀ (ι τ : Type) [DecidableEq ι] (M : Places ι) (rest : Orchestration τ),
      LeavesDesired M rest (fun env => createQuayRoute env metaObject)
        (fun q => .route (GetQuayRouteDefinition
          { metaObject with Name := GetQuayResourcesName q.quayConfiguration.QuayEcosystem }
          q.quayConfiguration.QuayEcosystem)) ∧
      LeavesDesired M rest (fun env => createQuayConfigRoute env metaObject)
        (fun q => .route
          (GetQuayConfigRouteDefinition metaObject q.quayConfiguration.QuayEcosystem)) ∧
      LeavesDesired M rest (fun env => createClairRoute env metaObject)
        (fun q => .route (GetClairRouteDefinition
          { metaObject with Name := GetClairResourcesName q.quayConfiguration.QuayEcosystem }
          q.quayConfiguration.QuayEcosystem)) ∧
      LeavesDesired M rest (fun env => quayDeployment env metaObject)
        (fun _ => .built .Deployment "GetQuayDeploymentDefinition" metaObject) ∧
      LeavesDesired M rest (fun env => quayConfigDeployment P env metaObject)
        (fun _ => .built .Deployment "GetQuayConfigDeploymentDefinition" metaObject) ∧
      LeavesDesired M rest (fun env => clairDeployment env metaObject)
        (fun _ => .built .Deployment "GetClairDeploymentDefinition" metaObject)) := by
  refine ⟨(CoreResourceDeployment_run P env metaObject p).ops _ (fun _ h => h.followsTable),
    (DeployQuayConfiguration_run (b := True) P env metaObject p).ops _
      (fun _ h => h.followsTable),
    (DeployQuay_run (b := True) env metaObject p).ops _ (fun _ h => h.followsTable),
    (DeployClair_run (b := True) env metaObject p).ops _ (fun _ h => h.followsTable),
    createRBAC_first env metaObject, createRBAC_second env metaObject p,
    createQuayRoute_first env metaObject, createQuayConfigRoute_first env metaObject,
    createClairRoute_first env metaObject, quayDeployment_first env metaObject,
    clairDeployment_first env metaObject,
    (quayConfigDeployment_first P env metaObject p).1,
    (quayConfigDeployment_first P env metaObject p).2,
    fun name found e s1 hget => createServiceAccount_cases env name metaObject p found e s1 hget,
    ?_, ?_, ?_,
    fun ι τ _ M rest =>
      ⟨createQuayRoute_leaves M rest metaObject, createQuayConfigRoute_leaves M rest metaObject,
        createClairRoute_leaves M rest metaObject, quayDeployment_leaves M rest metaObject,
        quayConfigDeployment_leaves M rest P metaObject,
        clairDeployment_leaves M rest metaObject⟩⟩
  · intro ι τ _ M rest s t owner ns obj
    refine ⟨⟨Store.createOrUpdate M s ns obj, rfl, Store.put_same _ _ _,
      fun k hk => Store.put_other _ _ _ _ hk⟩, ?_, ?_⟩
    · intro old hold
      simp [storeCluster, Store.createIfNotExists, hold]
    · intro hnone
      refine ⟨Store.put s (M.place ns obj) obj, ?_, Store.put_same _ _ _,
        fun k hk => Store.put_other _ _ _ _ hk⟩
      simp [storeCluster, Store.createIfNotExists, hnone]
  · intro ι τ _ M rest name q old hold
    exact createServiceAccount_keeps_existing M rest name metaObject q old hold
  · intro ι τ _ M rest q
    obtain ⟨h1, h2⟩ := createRBAC_overwrites M rest metaObject q
    refine ⟨h1, ?_, ?_⟩
    · rw [h2]
      exact Store.put_same _ _ _
    · intro hne
      rw [h2]
      unfold Store.createOrUpdate
      rw [Store.put_other _ _ _ _ hne]
      exact Store.put_same _ _ _

/-! ## Pauses and the readiness check -/

theorem verifyDeployment_exchanges {σ : Type} (env : Orchestration σ)
    (deploymentName deploymentNamespace : String) (p : Pass σ) (deployment : Deployment)
    (e : Option ClusterError) (s1 : σ)
    (hget : env (.Get .Deployment deploymentName deploymentNamespace) p.cluster =
      ((deployment, e), s1)) :
    (∀ err, e = some err →
      verifyDeployment env deploymentName deploymentNamespace p =
        ((none, some err), { p with cluster := s1, log := p.log ++
          [⟨.Get .Deployment deploymentName deploymentNamespace,
            (deployment, some err)⟩] })) ∧
    (e = none → deployment.AvailableReplicas = 1 →
      verifyDeployment env deploymentName deploymentNamespace p =
        ((none, none), { p with cluster := s1, log := p.log ++
          [⟨.Get .Deployment deploymentName deploymentNamespace,
            (deployment, none)⟩] })) ∧
    (e = none → deployment.AvailableReplicas ≠ 1 → ∀ (scaled : Bool) (s2 : σ),
      env (.GetDeploymentStatus deploymentNamespace deploymentName) s1 = (scaled, s2) →
      verifyDeployment env deploymentName deploymentNamespace p =
        ((if scaled then none
          else some { Requeue := true, RequeueAfter := Second * 5 }, none),
         { p with cluster := s2, log := p.log ++
          [⟨.Get .Deployment deploymentName deploymentNamespace, (deployment, none)⟩,
           ⟨.GetDeploymentStatus deploymentNamespace deploymentName, scaled⟩] })) := by
  refine ⟨?_, ?_, ?_⟩
  · intro err he
    subst he
    unfold verifyDeployment
    simp [Orchestration.exec, hget]
  · intro he h1
    subst he
    unfold verifyDeployment
    simp [Orchestration.exec, hget, h1]
  · intro he h1 scaled s2 hwatch
    subst he
    unfold verifyDeployment
    cases scaled <;> simp [Orchestration.exec, hget, h1, hwatch]

/-- C19, counterexample: on a cluster whose scanner workload is already
available, `DeployClair` still pauses the pass for two seconds between the write
and the readiness check. -/
theorem DeployClair_pauses_when_ready :
    (DeployClair (answering readyCluster) sampleMeta
      (startPass sampleConfiguration ())).1 = (none, none) ∧
    (DeployClair (answering readyCluster) sampleMeta
      (startPass sampleConfiguration ())).2.log.map OpExchange.op =
      [.CreateOrUpdateResource (some sampleEcosystem) "registry"
         (.built .Deployment "GetClairDeploymentDefinition" sampleMeta),
       .Sleep 2000000000,
       .Get .Deployment "example-clair" "registry"] :=
  ⟨rfl, rfl⟩

/-- C19, as the code has it.  The orchestrator does block the calling pass.
(1) Every `time.Sleep` in a pass of `CoreResourceDeployment`,
`DeployQuayConfiguration`, `DeployQuay` or `DeployClair` lasts two seconds.
(2) `DeployClair` and `redisDeployment` sleep right after a successful write of
their workload, whatever the state of the workload, and what follows the sleep
is the readiness check `verifyDeployment`.  (3) They return no other
instruction than a requeue after five seconds.  (4) `verifyDeployment` reads
the workload: on an error of the read it returns that error; with one available
replica it returns `(nil, nil)` after the read alone; otherwise it calls the
deployment watch `k8sutils.GetDeploymentStatus` once, and returns the requeue
instruction exactly when the watch reports the workload not scaled.  How long
the watch waits is not in the sources. -/
theorem orchestrator_pauses_two_seconds {σ : Type} (P : ProvisioningConstants)
    (env : Orchestration σ) (metaObject : ObjectMeta) (p : Pass σ) :
    (∃ exchanges : List OpExchange,
      (CoreResourceDeployment P env metaObject p).2.log = p.log ++ exchanges ∧
      ∀ e ∈ exchanges, ∀ d : Nat, e.op = .Sleep d → d = 2 * Second) ∧
    (∃ exchanges : List OpExchange,
      (DeployQuayConfiguration P env metaObject p).2.log = p.log ++ exchanges ∧
      ∀ e ∈ exchanges, ∀ d : Nat, e.op = .Sleep d → d = 2 * Second) ∧
    (∃ exchanges : List OpExchange,
      (DeployQuay env metaObject p).2.log = p.log ++ exchanges ∧
      ∀ e ∈ exchanges, ∀ d : Nat, e.op = .Sleep d → d = 2 * Second) ∧
    (∃ exchanges : List OpExchange,
      (DeployClair env metaObject p).2.log = p.log ++ exchanges ∧
      ∀ e ∈ exchanges, ∀ d : Nat, e.op = .Sleep d → d = 2 * Second) ∧
    (∀ q : Pass σ, clairDeployment env metaObject p = (none, q) →
      ∃ exchanges : List OpExchange,
        (DeployClair env metaObject p).2.log = q.log ++ exchanges ∧
        (exchanges.map OpExchange.op)[0]? = some (.Sleep (2 * Second))) ∧
    (∀ q : Pass σ,
      env.exec (.CreateResourceIfNotExists (some p.quayConfiguration.QuayEcosystem)
        p.quayConfiguration.QuayEcosystem.Namespace
        (.built .Deployment "GetRedisDeploymentDefinition" metaObject)) p = (none, q) →
      ∃ exchanges : List OpExchange,
        (redisDeployment env metaObject p).2.log = q.log ++ exchanges ∧
        (exchanges.map OpExchange.op)[0]? = some (.Sleep (2 * Second))) ∧
    (∀ r : Result, (DeployClair env metaObject p).1.1 = some r →
      r = { Requeue := true, RequeueAfter := Second * 5 }) ∧
    (∀ r : Result, (redisDeployment env metaObject p).1.1 = some r →
      r = { Requeue := true, RequeueAfter := Second * 5 }) ∧
    (∀ q : Pass σ, clairDeployment env metaObject p = (none, q) →
      DeployClair env metaObject p =
        verifyDeployment env (GetClairResourcesName q.quayConfiguration.QuayEcosystem)
          q.quayConfiguration.QuayEcosystem.Namespace (env.exec (.Sleep (2 * Second)) q).2) ∧
    (∀ q : Pass σ,
      env.exec (.CreateResourceIfNotExists (some p.quayConfiguration.QuayEcosystem)
        p.quayConfiguration.QuayEcosystem.Namespace
        (.built .Deployment "GetRedisDeploymentDefinition" metaObject)) p = (none, q) →
      redisDeployment env metaObject p =
        verifyDeployment env (GetRedisResourcesName q.quayConfiguration.QuayEcosystem)
          q.quayConfiguration.QuayEcosystem.Namespace (env.exec (.Sleep (2 * Second)) q).2) ∧
    (∀ (deploymentName deploymentNamespace : String) (deployment : Deployment)
      (e : Option ClusterError) (s1 : σ),
      env (.Get .Deployment deploymentName deploymentNamespace) p.cluster =
        ((deployment, e), s1) →
      (∀ err, e = some err →
        verifyDeployment env deploymentName deploymentNamespace p =
          ((none, some err), { p with cluster := s1, log := p.log ++
            [⟨.Get .Deployment deploymentName deploymentNamespace,
              (deployment, some err)⟩] })) ∧
      (e = none → deployment.AvailableReplicas = 1 →
        verifyDeployment env deploymentName deploymentNamespace p =
          ((none, none), { p with cluster := s1, log := p.log ++
            [⟨.Get .Deployment deploymentName deploymentNamespace,
              (deployment, none)⟩] })) ∧
      (e = none → deployment.AvailableReplicas ≠ 1 → ∀ (scaled : Bool) (s2 : σ),
        env (.GetDeploymentStatus deploymentNamespace deploymentName) s1 = (scaled, s2) →
        verifyDeployment env deploymentName deploymentNamespace p =
          ((if scaled then none
            else some { Requeue := true, RequeueAfter := Second * 5 }, none),
           { p with cluster := s2, log := p.log ++
            [⟨.Get .Deployment deploymentName deploymentNamespace, (deployment, none)⟩,
             ⟨.GetDeploymentStatus deploymentNamespace deploymentName, scaled⟩] }))) := by
  refine ⟨(CoreResourceDeployment_run P env metaObject p).ops _
      (fun _ h => h.pause_duration),
    (DeployQuayConfiguration_run (b := True) P env metaObject p).ops _
      (fun _ h => h.pause_duration),
    (DeployQuay_run (b := True) env metaObject p).ops _ (fun _ h => h.pause_duration),
    (DeployClair_run (b := True) env metaObject p).ops _ (fun _ h => h.pause_duration),
    ?_, ?_, ?_, ?_, ?_, ?_,
    fun name ns d e s1 hget => verifyDeployment_exchanges env name ns p d e s1 hget⟩
  · intro q hq
    unfold DeployClair
    rw [hq]
    dsimp only
    obtain ⟨_, ex, hlog, _⟩ := verifyDeployment_run (b := True) env
      (GetClairResourcesName
        (env.exec (.Sleep (2 * Second)) q).2.quayConfiguration.QuayEcosystem)
      (env.exec (.Sleep (2 * Second)) q).2.quayConfiguration.QuayEcosystem.Namespace
      (env.exec (.Sleep (2 * Second)) q).2
    refine ⟨⟨.Sleep (2 * Second), (env (.Sleep (2 * Second)) q.cluster).1⟩ :: ex, ?_, by simp⟩
    rw [hlog]
    simp [Orchestration.exec]
  · intro q hq
    unfold redisDeployment
    dsimp only
    rw [hq]
    dsimp only
    obtain ⟨_, ex, hlog, _⟩ := verifyDeployment_run (b := True) env
      (GetRedisResourcesName
        (env.exec (.Sleep (2 * Second)) q).2.quayConfiguration.QuayEcosystem)
      (env.exec (.Sleep (2 * Second)) q).2.quayConfiguration.QuayEcosystem.Namespace
      (env.exec (.Sleep (2 * Second)) q).2
    refine ⟨⟨.Sleep (2 * Second), (env (.Sleep (2 * Second)) q.cluster).1⟩ :: ex, ?_, by simp⟩
    rw [hlog]
    simp [Orchestration.exec]
  · intro r hr
    unfold DeployClair at hr
    split at hr
    · cases hr
    · exact verifyDeployment_requeue env _ _ _ r hr
  · intro r hr
    unfold redisDeployment at hr
    dsimp only at hr
    split at hr
    · cases hr
    · exact verifyDeployment_requeue env _ _ _ r hr
  · intro q hq
    unfold DeployClair
    rw [hq]
    rfl
  · intro q hq
    unfold redisDeployment
    dsimp only
    rw [hq]
    rfl
end QuayOperator
